import Mathlib

/-!
# NMEA sentence decoder and parser of the GPS driver

A shallow embedding of `GPSDriverNMEA::parseChar` and
`GPSDriverNMEA::handleMessage` from
`src/drivers/gps_v180/gps/devices/src/nmea.cpp`, followed by the properties
proved about them.

Conventions of the embedding.

* A byte (`uint8_t`, `char`) is a natural number below 256; the receive
  buffer `_rx_buffer` is a list of bytes whose length is `sizeof(_rx_buffer)`.
  The array itself is declared in `nmea.h`, which is not part of the sources
  at hand, so its capacity is the length of the list and stays a parameter.
* A store into `_rx_buffer` outside the array has no defined result; the
  decoder therefore returns `none` when it would write at an index that is
  not below the capacity.
* `sizeof(_rx_buffer) - 5` is an unsigned subtraction in the source; it is
  the truncated subtraction of naturals here, which agrees with the source
  whenever the capacity is at least 5.
-/

namespace NMEA

/-! ## Frame decoder -/

/-- The decoder states `NMEA_DECODE_*` switched on by `parseChar`. -/
inductive NMEA_DECODE where
  | UNINIT
  | GOT_SYNC1
  | GOT_NMEA
  | GOT_FIRST_CS_BYTE
  deriving DecidableEq, Repr

/-- The members of `GPSDriverNMEA` that `parseChar` reads and writes. -/
structure Decoder where
  _decode_state : NMEA_DECODE
  _rx_buffer : List Nat
  _rx_buffer_bytes : Nat
  deriving DecidableEq, Repr

/-- The macro `HEXDIGIT_CHAR(d)`:
`(char)(d + ((d < 0xA) ? '0' : 'A' - 0xA))`. -/
def HEXDIGIT_CHAR (d : Nat) : Nat :=
  d + (if d < 10 then 48 else 65 - 10)

/-- The statement `_rx_buffer[_rx_buffer_bytes++] = b`: a store at the
current byte count, defined only when that index lies inside the array. -/
def Decoder.push (d : Decoder) (b : Nat) : Option Decoder :=
  if d._rx_buffer_bytes < d._rx_buffer.length then
    some { d with
      _rx_buffer := d._rx_buffer.set d._rx_buffer_bytes b
      _rx_buffer_bytes := d._rx_buffer_bytes + 1 }
  else
    none

/-- The loop `for (; buffer < bufend; buffer++) { checksum ^= *buffer; }` with
`buffer = _rx_buffer + 1` and `bufend = _rx_buffer + n - 3`: the XOR of the
bytes at indices `1 .. n - 4`. -/
def checksumOf (buf : List Nat) (n : Nat) : Nat :=
  ((buf.take (n - 3)).drop 1).foldl (fun c x => c ^^^ x) 0

/-- The function `GPSDriverNMEA::parseChar`: consumes one byte and returns the
new decoder together with `iRet`. -/
def parseChar (d : Decoder) (b : Nat) : Option (Decoder × Nat) :=
  match d._decode_state with
  | .UNINIT =>
    if b = 36 then
      ({ d with _decode_state := .GOT_SYNC1, _rx_buffer_bytes := 0 }.push b).map
        fun d1 => (d1, 0)
    else
      some (d, 0)
  | .GOT_SYNC1 =>
    let d1 : Decoder :=
      if b = 36 then
        { d with _decode_state := .GOT_SYNC1, _rx_buffer_bytes := 0 }
      else if b = 42 then
        { d with _decode_state := .GOT_NMEA }
      else
        d
    if d1._rx_buffer_bytes ≥ d1._rx_buffer.length - 5 then
      some ({ d1 with _decode_state := .UNINIT, _rx_buffer_bytes := 0 }, 0)
    else
      (d1.push b).map fun d2 => (d2, 0)
  | .GOT_NMEA =>
    (d.push b).map fun d1 => ({ d1 with _decode_state := .GOT_FIRST_CS_BYTE }, 0)
  | .GOT_FIRST_CS_BYTE =>
    (d.push b).map fun d1 =>
      let checksum := checksumOf d1._rx_buffer d1._rx_buffer_bytes
      let iRet :=
        if HEXDIGIT_CHAR (checksum >>> 4) = d1._rx_buffer.getD (d1._rx_buffer_bytes - 2) 0
            ∧ HEXDIGIT_CHAR (checksum &&& 0x0F)
              = d1._rx_buffer.getD (d1._rx_buffer_bytes - 1) 0 then
          d1._rx_buffer_bytes
        else
          0
      ({ d1 with _decode_state := .UNINIT, _rx_buffer_bytes := 0 }, iRet)

/-- Feeding a byte sequence one byte at a time, as the loop of `receive`
does: the final decoder and the value returned by each call, in order. -/
def feed (d : Decoder) : List Nat → Option (Decoder × List Nat)
  | [] => some (d, [])
  | b :: bs =>
    match parseChar d b with
    | none => none
    | some (d1, r) =>
      match feed d1 bs with
      | none => none
      | some (d2, rs) => some (d2, r :: rs)

/-- The bytes of a string literal. -/
def bytes (s : String) : List Nat := s.toList.map Char.toNat

/-- The two checksum characters of a payload as the text of the
specification has them: the XOR of the payload bytes written as two
uppercase hexadecimal digits, high nibble first. -/
def hexDigitsOf (payload : List Nat) : List Nat :=
  let x := payload.foldl (fun c b => c ^^^ b) 0
  [(bytes "0123456789ABCDEF").getD (x / 16) 0, (bytes "0123456789ABCDEF").getD (x % 16) 0]

/-- A sentence as it travels on the wire: `$`, the payload, `*` and the two
checksum characters. -/
def sentence (payload : List Nat) : List Nat :=
  36 :: payload ++ 42 :: hexDigitsOf payload


/-! ## Sentence parser

Conventions of the embedding, continued.

* `strtod` returns the exact value of the decimal text, a rational number.
  The `double` or `float` variable that receives it holds that value rounded
  to its format, `toDouble` or `toFloat` of it: round to nearest, ties to
  even, with 53 or 24 significant bits and gradual underflow; overflow to
  infinity is not modelled (a finite number stays finite). Each arithmetic
  operation is rounded to the type in which the source evaluates it, one
  operation at a time, without extended precision and without fused
  operations. The rounding is applied wherever the source converts the
  result of floating-point arithmetic to an integer type, which truncates
  toward zero: in the conversion of latitude and longitude (`degMin`) and in
  the altitude of the GGA and the GNS branch; the GNS branch, whose `alt`
  and `HDOP` are `float`, also rounds the stored `hdop`. The clock fields of
  the ZDA and the RMC branch, and the values that the other branches store
  in `float` members of the position record (precision of position,
  dilution of precision, velocity), are the exact values: there the rounding
  is not modelled.
* `int`, `long`, `uint64_t` values are integers without a bound, except for
  the explicit cast to `int32_t` at the end of `handleMessage`, which wraps.
* The records `vehicle_gps_position_s` and `satellite_info_s`, the constants
  `GPS_EPOCH_SECS`, `SAT_INFO_MAX_SATELLITES`, `M_PI_F`, and the members of
  the driver are declared in headers that are not part of the sources at
  hand. The records carry the fields that `nmea.cpp` touches; the constants
  and the functions of the platform (`gps_absolute_time`, `mktime`, `sqrtf`,
  `cosf`, `sinf`) are parameters, collected in `Env`.
* `strtol` and `strtod` follow the decimal forms of the C standard: optional
  white space, an optional sign, digits (for `strtod` with an optional
  decimal point and an optional exponent). When no conversion can be made
  the value is 0 and the end pointer is the start pointer. The hexadecimal,
  infinity and NaN forms of `strtod` are not modelled, and `strtol` does not
  saturate.
* The cursor `bufptr` is an index into `_rx_buffer`; it is never null, so the
  test `bufptr &&` of the field statements is always true. A read past the
  end of the array gives 0, the terminator of a C string.
* `setClock` appends its argument to the list `clock_calls` of the driver.
* The preprocessor symbol `NO_MKTIME` is taken as not defined.
-/

/-- The conversion of a `double` to an integer type: truncation toward
zero. -/
def toInt (x : ℚ) : Int := Int.tdiv x.num x.den

/-- The cast `(int32_t)` of an unsigned 64-bit difference: the low 32 bits,
read as a signed number. -/
def toInt32 (x : Int) : Int := (x + 2147483648) % 4294967296 - 2147483648

/-- The power of two of an integer exponent. -/
def pow2 (e : Int) : ℚ := if 0 ≤ e then 2 ^ e.toNat else 1 / 2 ^ (-e).toNat

/-- The number of halvings that bring `n` below 2, at most `fuel` of them:
with `n ≤ fuel` the floor of the binary logarithm of `n`. -/
def log2Fuel : Nat → Nat → Nat
  | 0, _ => 0
  | fuel + 1, n => if n < 2 then 0 else log2Fuel fuel (n / 2) + 1

/-- The binary exponent of a rational other than 0: the integer `e` with
`2 ^ e ≤ |x| < 2 ^ (e + 1)`. -/
def ilog2 (x : ℚ) : Int :=
  let e0 : Int := (log2Fuel x.num.natAbs x.num.natAbs : Int) - (log2Fuel x.den x.den : Int)
  if pow2 e0 * (x.den : ℚ) ≤ (x.num.natAbs : ℚ) then e0 else e0 - 1

/-- Rounding to the nearest integer, a tie going to the even one. -/
def roundEven (x : ℚ) : Int :=
  let f : Int := x.num / x.den
  let r : ℚ := x - (f : ℚ)
  if r < 1 / 2 then f
  else if 1 / 2 < r then f + 1
  else if f % 2 = 0 then f
  else f + 1

/-- Rounding to a binary floating-point format with `p` significant bits
whose last place has an exponent of at least `emin`: to the nearest number
of the format, a tie going to the one with an even last place. The format
has no largest number here. -/
def roundTo (p : Nat) (emin : Int) (x : ℚ) : ℚ :=
  if x = 0 then 0
  else
    let q : Int := max (ilog2 x - ((p : Int) - 1)) emin
    (roundEven (x / pow2 q) : ℚ) * pow2 q

/-- The conversion of a real number to `double`, the binary64 format. -/
def toDouble (x : ℚ) : ℚ := roundTo 53 (-1074) x

/-- The conversion of a real number to `float`, the binary32 format. -/
def toFloat (x : ℚ) : ℚ := roundTo 24 (-149) x

/-- The function `isspace` of the C locale. -/
def isspace (c : Nat) : Bool := c == 32 || (9 ≤ c && c ≤ 13)

/-- The function `isdigit`. -/
def isdigit (c : Nat) : Bool := 48 ≤ c && c ≤ 57

/-- The value of a run of decimal digits. -/
def natOfDigits (ds : List Nat) : Nat := ds.foldl (fun a c => 10 * a + (c - 48)) 0

/-- An optional sign: whether it is `-`, and the number of characters it
takes. -/
def signOf : List Nat → Bool × Nat
  | 45 :: _ => (true, 1)
  | 43 :: _ => (false, 1)
  | _ => (false, 0)

/-- The function `strtol(s, &endp, 10)`: the value and the number of
characters consumed, `endp - s`. -/
def strtol (s : List Nat) : Int × Nat :=
  let ws := (s.takeWhile isspace).length
  let sg := signOf (s.drop ws)
  let ds := (s.drop (ws + sg.2)).takeWhile isdigit
  if ds = [] then (0, 0)
  else ((if sg.1 then -1 else 1) * (natOfDigits ds : Int), ws + sg.2 + ds.length)

/-- The exponent part of a decimal floating constant, if one is there: its
value and the number of characters it takes. -/
def expOf : List Nat → Int × Nat
  | [] => (0, 0)
  | c :: r =>
    if c = 101 ∨ c = 69 then
      let sg := signOf r
      let ds := (r.drop sg.2).takeWhile isdigit
      if ds = [] then (0, 0)
      else ((if sg.1 then -1 else 1) * (natOfDigits ds : Int), 1 + sg.2 + ds.length)
    else (0, 0)

/-- The power of ten of an integer exponent. -/
def pow10 (e : Int) : ℚ := if 0 ≤ e then 10 ^ e.toNat else 1 / 10 ^ (-e).toNat

/-- The function `strtod(s, &endp)`: the value and the number of characters
consumed, `endp - s`. -/
def strtod (s : List Nat) : ℚ × Nat :=
  let ws := (s.takeWhile isspace).length
  let sg := signOf (s.drop ws)
  let s1 := s.drop (ws + sg.2)
  let ip := s1.takeWhile isdigit
  let s2 := s1.drop ip.length
  let dot : Bool := s2.head? == some 46
  let fp := if dot then (s2.drop 1).takeWhile isdigit else []
  if ip = [] ∧ fp = [] then (0, 0)
  else
    let nd := if dot then 1 + fp.length else 0
    let ex := expOf (s2.drop nd)
    let m : ℚ := (natOfDigits (ip ++ fp) : ℚ) / 10 ^ fp.length
    ((if sg.1 then -1 else 1) * m * pow10 ex.1, ws + sg.2 + ip.length + nd + ex.2)

/-- The fields of `struct tm` that the parser fills in. -/
structure tm where
  tm_year : Int
  tm_mon : Int
  tm_mday : Int
  tm_hour : Int
  tm_min : Int
  tm_sec : Int
  tm_isdst : Int
  deriving DecidableEq, Repr

/-- The structure `timespec` handed to `setClock`. -/
structure timespec where
  tv_sec : Int
  tv_nsec : Int
  deriving DecidableEq, Repr

/-- Modelled from the spec: the position record `vehicle_gps_position_s`,
declared outside the sources at hand; these are the fields that `nmea.cpp`
writes. -/
structure vehicle_gps_position_s where
  timestamp : Int
  time_utc_usec : Int
  lat : Int
  lon : Int
  alt : Int
  hdop : ℚ
  vdop : ℚ
  eph : ℚ
  epv : ℚ
  fix_type : Int
  vel_m_s : ℚ
  vel_n_m_s : ℚ
  vel_e_m_s : ℚ
  cog_rad : ℚ
  vel_ned_valid : Bool
  c_variance_rad : ℚ
  s_variance_m_s : ℚ
  satellites_used : Int
  timestamp_time_relative : Int
  deriving DecidableEq

/-- Modelled from the spec: the satellite-info record `satellite_info_s`,
declared outside the sources at hand: a count, a timestamp and five
per-satellite arrays, each a list whose length is the size of the array. -/
structure satellite_info_s where
  timestamp : Int
  count : Int
  svid : List Int
  used : List Bool
  snr : List Int
  elevation : List Int
  azimuth : List Int
  deriving DecidableEq

/-- The constants and platform functions that `handleMessage` uses and that
are declared outside the sources at hand. `gps_absolute_time` is the reading
of the monotonic clock during the call. -/
structure Env where
  gps_absolute_time : Int
  mktime : tm → Int
  GPS_EPOCH_SECS : Int
  SAT_INFO_MAX_SATELLITES : Int
  M_PI_F : ℚ
  sqrtf : ℚ → ℚ
  cosf : ℚ → ℚ
  sinf : ℚ → ℚ

/-- The members of `GPSDriverNMEA`: the decoder, the two output records (the
satellite record may be absent), the two rate counters, the time of the last
time fix, and the calls of `setClock` made so far, latest first. -/
structure GPSDriverNMEA where
  decoder : Decoder
  _gps_position : vehicle_gps_position_s
  _satellite_info : Option satellite_info_s
  _rate_count_lat_lon : Nat
  _rate_count_vel : Nat
  _last_timestamp_time : Int
  clock_calls : List timespec
  deriving DecidableEq

/-- The statement
`if (bufptr && *(++bufptr) != ',') { v = strtod(bufptr, &endp); bufptr = endp; }`
with the cursor at index `p` and `v` holding `dflt`: the new value of `v` and
the new cursor. -/
def fieldD (buf : List Nat) (p : Nat) (dflt : ℚ) : ℚ × Nat :=
  if buf.getD (p + 1) 0 ≠ 44 then
    ((strtod (buf.drop (p + 1))).1, p + 1 + (strtod (buf.drop (p + 1))).2)
  else (dflt, p + 1)

/-- The statement
`if (bufptr && *(++bufptr) != ',') { v = strtol(bufptr, &endp, 10); bufptr = endp; }`. -/
def fieldL (buf : List Nat) (p : Nat) (dflt : Int) : Int × Nat :=
  if buf.getD (p + 1) 0 ≠ 44 then
    ((strtol (buf.drop (p + 1))).1, p + 1 + (strtol (buf.drop (p + 1))).2)
  else (dflt, p + 1)

/-- The statement `if (bufptr && *(++bufptr) != ',') { c = *(bufptr++); }`. -/
def fieldC (buf : List Nat) (p : Nat) (dflt : Nat) : Nat × Nat :=
  if buf.getD (p + 1) 0 ≠ 44 then (buf.getD (p + 1) 0, p + 2) else (dflt, p + 1)

/-- The conversion from degrees and minutes to degrees times 1e7,
`static_cast<int>((int(lat * 0.01) + (lat * 0.01 - int(lat * 0.01)) * 100.0 / 60.0) * 10000000)`,
for the `double` variable `lat` that holds the value `x` of the text, with
its sign. The constant `0.01` is the `double` next to 1/100; the product
`lat * 0.01`, the difference, the product with `100.0`, the quotient by
`60.0`, the sum and the product with `10000000` are each rounded to
`double`; both conversions to `int` truncate. -/
def degMin (x : ℚ) : Int :=
  let lat : ℚ := toDouble x
  let a : ℚ := toDouble (lat * toDouble (1 / 100))
  let i : ℚ := (toInt a : ℚ)
  toInt (toDouble (toDouble (i + toDouble (toDouble (toDouble (a - i) * 100) / 60)) * 10000000))

/-- The statement `_gps_position->alt = static_cast<int>(alt * 1000)` of the
GGA branch, for the `double` variable `alt` that holds the value `x` of the
text: the product is rounded to `double` and truncated. -/
def altOfDouble (x : ℚ) : Int := toInt (toDouble (toDouble x * 1000))

/-- The statement `_gps_position->alt = static_cast<int>(alt * 1000)` of the
GNS branch, for the `float` variable `alt` that was assigned the result of
`strtod` on a text of value `x`: the `double` is rounded to `float`, the
product is rounded to `float` and truncated. -/
def altOfFloat (x : ℚ) : Int := toInt (toFloat (toFloat (toDouble x) * 1000))

/-- The loop `for (int i = 0 ; i < len; i++) { if (_rx_buffer[i] == ',') { uiCalcComma++; } }`. -/
def countCommas (buf : List Nat) (len : Int) : Int :=
  ((buf.take len.toNat).count 44 : Nat)

/-- The three bytes at `_rx_buffer + 3`, where the sentence identifier
stands. -/
def frameTag (buf : List Nat) : List Nat := [buf.getD 3 0, buf.getD 4 0, buf.getD 5 0]

/-- The three bytes at `_rx_buffer`: `$` and the talker. -/
def frameTalker (buf : List Nat) : List Nat := [buf.getD 0 0, buf.getD 1 0, buf.getD 2 0]

/-- The test `memcmp(_rx_buffer + 3, tag, 3) == 0` for a tag of three
characters. -/
def tagIs (buf : List Nat) (tag : String) : Bool :=
  frameTag buf == bytes tag

/-- The block "convert to unix timestamp" that the ZDA and the RMC branch
share word for word, from `mktime` to the assignment of
`_last_timestamp_time`. -/
def stampTime (E : Env) (s : GPSDriverNMEA) (timeinfo : tm) (nmea_sec : ℚ) :
    GPSDriverNMEA :=
  let epoch := E.mktime timeinfo
  let s1 : GPSDriverNMEA :=
    if epoch > E.GPS_EPOCH_SECS then
      let usecs : Int := toInt (nmea_sec - (toInt nmea_sec : ℚ)) * 1000000
      { s with
        clock_calls := { tv_sec := epoch, tv_nsec := usecs * 1000 } :: s.clock_calls
        _gps_position := { s._gps_position with time_utc_usec := epoch * 1000000 + usecs } }
    else
      { s with _gps_position := { s._gps_position with time_utc_usec := 0 } }
  { s1 with _last_timestamp_time := E.gps_absolute_time }

/-- The ZDA branch of `handleMessage`. -/
def handleZDA (E : Env) (s : GPSDriverNMEA) : GPSDriverNMEA :=
  let buf := s.decoder._rx_buffer
  let nmea_time := fieldD buf 6 0
  let day := fieldL buf nmea_time.2 0
  let month := fieldL buf day.2 0
  let year := fieldL buf month.2 0
  let _local_time_off_hour := fieldL buf year.2 0
  let _local_time_off_min := fieldL buf _local_time_off_hour.2 0
  let nmea_hour : Int := toInt (nmea_time.1 / 10000)
  let nmea_minute : Int := toInt ((nmea_time.1 - (nmea_hour * 10000 : Int)) / 100)
  let nmea_sec : ℚ := nmea_time.1 - (nmea_hour * 10000 : Int) - (nmea_minute * 100 : Int)
  let timeinfo : tm :=
    { tm_year := year.1 - 1900
      tm_mon := month.1 - 1
      tm_mday := day.1
      tm_hour := nmea_hour
      tm_min := nmea_minute
      tm_sec := toInt nmea_sec
      tm_isdst := 0 }
  stampTime E s timeinfo nmea_sec

/-- The local variables of the GGA branch after its nine fields have been
read, `lat` and `lon` before the sign is applied: for each variable the
value of the text that was converted, which the variable holds rounded to
its type. -/
structure GGAFields where
  nmea_time : ℚ
  lat : ℚ
  ns : Nat
  lon : ℚ
  ew : Nat
  fix_quality : Int
  num_of_sv : Int
  hdop : ℚ
  alt : ℚ
  deriving DecidableEq

/-- The nine field statements of the GGA branch, starting with the cursor at
`_rx_buffer + 6`. -/
def ggaFields (buf : List Nat) : GGAFields :=
  let nmea_time := fieldD buf 6 0
  let lat := fieldD buf nmea_time.2 0
  let ns := fieldC buf lat.2 63
  let lon := fieldD buf ns.2 0
  let ew := fieldC buf lon.2 63
  let fix_quality := fieldL buf ew.2 0
  let num_of_sv := fieldL buf fix_quality.2 0
  let hdop := fieldD buf num_of_sv.2 (999 / 10)
  let alt := fieldD buf hdop.2 0
  { nmea_time := nmea_time.1
    lat := lat.1
    ns := ns.1
    lon := lon.1
    ew := ew.1
    fix_quality := fix_quality.1
    num_of_sv := num_of_sv.1
    hdop := hdop.1
    alt := alt.1 }

/-- The GGA branch of `handleMessage` (which then sets `ret = 1`). -/
def handleGGA (E : Env) (s : GPSDriverNMEA) : GPSDriverNMEA :=
  let f := ggaFields s.decoder._rx_buffer
  let lat : ℚ := if f.ns = 83 then -f.lat else f.lat
  let lon : ℚ := if f.ew = 87 then -f.lon else f.lon
  { s with
    _gps_position :=
      { s._gps_position with
        lon := degMin lon
        lat := degMin lat
        hdop := f.hdop
        alt := altOfDouble f.alt
        fix_type :=
          if f.fix_quality ≤ 0 then 0
          else 3 + (if f.fix_quality = 5 then 3 else f.fix_quality) - 1
        timestamp := E.gps_absolute_time
        vel_ned_valid := true
        c_variance_rad := 1 / 10 }
    _rate_count_lat_lon := s._rate_count_lat_lon + 1 }

/-- The loop `do { pos_Mode += *(bufptr); } while (*(++bufptr) != ',');` with
the cursor at index `p`: the index of the first comma after `p`. The loop
has no defined result when no comma follows inside the array. -/
def scanComma (buf : List Nat) (p : Nat) : Option Nat :=
  if 44 ∈ buf.drop (p + 1) then some (p + 1 + (buf.drop (p + 1)).indexOf 44) else none

/-- The GNS branch of `handleMessage`. Its variables `alt` and `HDOP` are
`float`: the stored `hdop` is the result of `strtod` rounded to `float`. -/
def handleGNS (_E : Env) (s : GPSDriverNMEA) : Option GPSDriverNMEA :=
  let buf := s.decoder._rx_buffer
  let nmea_time := fieldD buf 6 0
  let lat := fieldD buf nmea_time.2 0
  let ns := fieldC buf lat.2 63
  let lon := fieldD buf ns.2 0
  let ew := fieldC buf lon.2 63
  (scanComma buf ew.2).map fun p =>
    let num_of_sv := fieldL buf p 0
    let HDOP := fieldD buf num_of_sv.2 0
    let alt := fieldD buf HDOP.2 0
    let lat1 : ℚ := if ns.1 = 83 then -lat.1 else lat.1
    let lon1 : ℚ := if ew.1 = 87 then -lon.1 else lon.1
    { s with
      _gps_position :=
        { s._gps_position with
          lat := degMin lat1
          lon := degMin lon1
          hdop := toFloat (toDouble HDOP.1)
          alt := altOfFloat alt.1
          satellites_used := num_of_sv.1 }
      _rate_count_lat_lon := s._rate_count_lat_lon + 1 }

/-- The RMC branch of `handleMessage`. -/
def handleRMC (E : Env) (s : GPSDriverNMEA) : GPSDriverNMEA :=
  let buf := s.decoder._rx_buffer
  let nmea_time := fieldD buf 6 0
  let Sts := fieldC buf nmea_time.2 0
  let lat := fieldD buf Sts.2 0
  let ns := fieldC buf lat.2 63
  let lon := fieldD buf ns.2 0
  let ew := fieldC buf lon.2 63
  let ground_speed_K := fieldD buf ew.2 0
  let A_track := fieldD buf ground_speed_K.2 0
  let date := fieldD buf A_track.2 0
  let _Mag_var := fieldD buf date.2 0
  let nmea_date : Int := toInt date.1
  let lat1 : ℚ := if ns.1 = 83 then -lat.1 else lat.1
  let lon1 : ℚ := if ew.1 = 87 then -lon.1 else lon.1
  let track_rad : ℚ := A_track.1 * E.M_PI_F / 180
  let velocity_ms : ℚ := ground_speed_K.1 / (19438445 / 10000000)
  let velocity_north : ℚ := velocity_ms * E.cosf track_rad
  let velocity_east : ℚ := velocity_ms * E.sinf track_rad
  let nmea_hour : Int := toInt (nmea_time.1 / 10000)
  let nmea_minute : Int := toInt ((nmea_time.1 - (nmea_hour * 10000 : Int)) / 100)
  let nmea_sec : ℚ := nmea_time.1 - (nmea_hour * 10000 : Int) - (nmea_minute * 100 : Int)
  let nema_day : Int := Int.tdiv nmea_date 10000
  let nmea_mth : Int := Int.tdiv (nmea_date - nema_day * 10000) 100
  let nmea_year : Int := nmea_date - nema_day * 10000 - nmea_mth * 100
  let s1 : GPSDriverNMEA :=
    { s with
      _gps_position :=
        { s._gps_position with
          lat := degMin lat1
          lon := degMin lon1
          vel_m_s := velocity_ms
          vel_n_m_s := velocity_north
          vel_e_m_s := velocity_east
          cog_rad := track_rad
          vel_ned_valid := true
          c_variance_rad := 1 / 10
          s_variance_m_s := 0 }
      _rate_count_lat_lon := s._rate_count_lat_lon + 1
      _rate_count_vel := s._rate_count_vel + 1 }
  let timeinfo : tm :=
    { tm_year := nmea_year + 2000
      tm_mon := nmea_mth
      tm_mday := nema_day
      tm_hour := nmea_hour
      tm_min := nmea_minute
      tm_sec := toInt nmea_sec
      tm_isdst := 0 }
  stampTime E s1 timeinfo nmea_sec

/-- The GST branch of `handleMessage`. -/
def handleGST (E : Env) (s : GPSDriverNMEA) : GPSDriverNMEA :=
  let buf := s.decoder._rx_buffer
  let nmea_time := fieldD buf 6 0
  let rms_err := fieldD buf nmea_time.2 0
  let maj_err := fieldD buf rms_err.2 0
  let min_err := fieldD buf maj_err.2 0
  let deg_from_north := fieldD buf min_err.2 0
  let lat_err := fieldD buf deg_from_north.2 0
  let lon_err := fieldD buf lat_err.2 0
  let alt_err := fieldD buf lon_err.2 0
  { s with
    _gps_position :=
      { s._gps_position with
        eph := E.sqrtf (lat_err.1 * lat_err.1 + lon_err.1 * lon_err.1)
        epv := alt_err.1 } }

/-- The GSA branch of `handleMessage`. -/
def handleGSA (_E : Env) (s : GPSDriverNMEA) : GPSDriverNMEA :=
  let buf := s.decoder._rx_buffer
  let M_pos := fieldC buf 6 32
  let fix_mode := fieldD buf M_pos.2 0
  let p12 : Nat := (fun p => (fieldD buf p 0).2)^[12] fix_mode.2
  let pdop := fieldD buf p12 (999 / 10)
  let hdop := fieldD buf pdop.2 (999 / 10)
  let vdop := fieldD buf hdop.2 (999 / 10)
  { s with _gps_position := { s._gps_position with hdop := hdop.1, vdop := vdop.1 } }

/-- The three header fields of a GSV sentence, `all_msg_num`, `this_msg_num`
and `tot_sv_visible`, each with the cursor after it. -/
def gsvHeader (buf : List Nat) : (Int × Nat) × (Int × Nat) × (Int × Nat) :=
  let all_msg_num := fieldL buf 6 0
  let this_msg_num := fieldL buf all_msg_num.2 0
  let tot_sv_visible := fieldL buf this_msg_num.2 0
  (all_msg_num, this_msg_num, tot_sv_visible)

/-- One pass through the body of the loop over `y` in the GSV branch, with the
cursor at `p` and `base = (this_msg_num - 1) * 4`: four fields are read into
`sat[y]` and copied to slot `y + base` of the five arrays. The pass has no
defined result when `y` is outside `sat[4]` or the slot is outside one of
the arrays. -/
def gsvBlock (buf : List Nat) (base : Int) (y : Nat) (p : Nat) (si : satellite_info_s) :
    Option (satellite_info_s × Nat) :=
  let svid := fieldL buf p 0
  let elevation := fieldL buf svid.2 0
  let azimuth := fieldL buf elevation.2 0
  let snr := fieldL buf azimuth.2 0
  let slot : Int := y + base
  if y < 4 ∧ 0 ≤ slot ∧ slot < si.svid.length ∧ slot < si.used.length
      ∧ slot < si.snr.length ∧ slot < si.elevation.length ∧ slot < si.azimuth.length then
    some
      ({ si with
          svid := si.svid.set slot.toNat svid.1
          used := si.used.set slot.toNat (decide (snr.1 > 0))
          snr := si.snr.set slot.toNat snr.1
          elevation := si.elevation.set slot.toNat elevation.1
          azimuth := si.azimuth.set slot.toNat azimuth.1 },
        snr.2)
  else none

/-- The loop `for (int y = 0 ; y < end ; y++)` of the GSV branch: `n` passes
are still to do, the next one for index `y`. -/
def gsvLoop (buf : List Nat) (base : Int) :
    Nat → Nat → Nat → satellite_info_s → Option satellite_info_s
  | 0, _, _, si => some si
  | n + 1, y, p, si =>
    match gsvBlock buf base y p si with
    | none => none
    | some (si1, p1) => gsvLoop buf base n (y + 1) p1 si1

/-- The five `memset` calls that clear the per-satellite arrays. -/
def satellite_info_s.clear (si : satellite_info_s) : satellite_info_s :=
  { si with
    svid := List.replicate si.svid.length 0
    used := List.replicate si.used.length false
    snr := List.replicate si.snr.length 0
    elevation := List.replicate si.elevation.length 0
    azimuth := List.replicate si.azimuth.length 0 }

/-- The GSV branch of `handleMessage`, from the test of the talker on. Both
early `return 0` statements and the fall through to the end of the function
give the value 0. When `_satellite_info` is null every statement guarded by
it is skipped and nothing is left to do. -/
def handleGSV (E : Env) (s : GPSDriverNMEA) : Option GPSDriverNMEA :=
  let buf := s.decoder._rx_buffer
  if frameTalker buf ≠ bytes "$GP" then some s
  else
    let bGPS := true
    let all_msg_num := (gsvHeader buf).1
    let this_msg_num := (gsvHeader buf).2.1
    let tot_sv_visible := (gsvHeader buf).2.2
    if this_msg_num.1 < 1 ∨ this_msg_num.1 > all_msg_num.1 then some s
    else
      match s._satellite_info with
      | none => some s
      | some si =>
        let si0 : satellite_info_s :=
          if this_msg_num.1 = 0 ∧ bGPS = true then si.clear else si
        let last : Bool := this_msg_num.1 = all_msg_num.1
        let endIdx : Int := if last then tot_sv_visible.1 - (this_msg_num.1 - 1) * 4 else 4
        let si1 : satellite_info_s :=
          if last then
            { si0 with
              count := E.SAT_INFO_MAX_SATELLITES
              timestamp := E.gps_absolute_time }
          else si0
        (gsvLoop buf ((this_msg_num.1 - 1) * 4) endIdx.toNat 0 tot_sv_visible.2 si1).map
          fun si2 => { s with _satellite_info := some si2 }

/-- The VTG branch of `handleMessage`. -/
def handleVTG (E : Env) (s : GPSDriverNMEA) : GPSDriverNMEA :=
  let buf := s.decoder._rx_buffer
  let track_true := fieldD buf 6 0
  let T := fieldC buf track_true.2 0
  let Mtrack_true := fieldD buf T.2 0
  let M := fieldC buf Mtrack_true.2 0
  let ground_speed := fieldD buf M.2 0
  let _N := fieldC buf ground_speed.2 0
  let _ground_speed_K := fieldD buf _N.2 0
  let _K := fieldC buf _ground_speed_K.2 0
  let track_rad : ℚ := track_true.1 * E.M_PI_F / 180
  let velocity_ms : ℚ := ground_speed.1 / (19438445 / 10000000)
  let velocity_north : ℚ := velocity_ms * E.cosf track_rad
  let velocity_east : ℚ := velocity_ms * E.sinf track_rad
  { s with
    _gps_position :=
      { s._gps_position with
        vel_m_s := velocity_ms
        vel_n_m_s := velocity_north
        vel_e_m_s := velocity_east
        cog_rad := track_rad
        vel_ned_valid := true
        c_variance_rad := 1 / 10 }
    _rate_count_vel := s._rate_count_vel + 1 }

/-- The statement at the end of `handleMessage`:
`if (ret > 0) { _gps_position->timestamp_time_relative = (int32_t)(_last_timestamp_time - _gps_position->timestamp); }`. -/
def finish (s : GPSDriverNMEA) (ret : Int) : GPSDriverNMEA × Int :=
  if ret > 0 then
    ({ s with
        _gps_position :=
          { s._gps_position with
            timestamp_time_relative :=
              toInt32 (s._last_timestamp_time - s._gps_position.timestamp) } },
      ret)
  else (s, ret)

/-- The function `GPSDriverNMEA::handleMessage`: the driver after the call
and the value returned. The result is `none` when the call leaves the
arrays it works on (see `scanComma` and `gsvBlock`). -/
def handleMessage (E : Env) (s : GPSDriverNMEA) (len : Int) :
    Option (GPSDriverNMEA × Int) :=
  if len < 7 then some (s, 0)
  else
    let buf := s.decoder._rx_buffer
    let uiCalcComma := countCommas buf len
    if tagIs buf "ZDA" ∧ uiCalcComma = 6 then some (finish (handleZDA E s) 0)
    else if tagIs buf "GGA" ∧ uiCalcComma = 14 then some (finish (handleGGA E s) 1)
    else if tagIs buf "GNS" then (handleGNS E s).map fun s1 => finish s1 0
    else if tagIs buf "RMC" then some (finish (handleRMC E s) 0)
    else if tagIs buf "GST" then some (finish (handleGST E s) 0)
    else if tagIs buf "GSA" then some (finish (handleGSA E s) 0)
    else if tagIs buf "GSV" then (handleGSV E s).map fun s1 => (s1, 0)
    else if tagIs buf "VTG" ∧ uiCalcComma = 9 then some (finish (handleVTG E s) 0)
    else some (finish s 0)

/-- An environment for the examples: the clock reads 1000, `mktime` gives 0,
the epoch floor is 1234567890, there are 20 satellite slots, and `M_PI_F`
and the three functions of `math.h` are stand-ins (no example depends on
them). -/
def exampleEnv : Env :=
  { gps_absolute_time := 1000
    mktime := fun _ => 0
    GPS_EPOCH_SECS := 1234567890
    SAT_INFO_MAX_SATELLITES := 20
    M_PI_F := 355 / 113
    sqrtf := id
    cosf := id
    sinf := id }

/-- A driver for the examples: the decoder is idle with the given buffer,
the position record holds zeros and there is no satellite record. -/
def driverWith (buf : List Nat) : GPSDriverNMEA :=
  { decoder := ⟨.UNINIT, buf, 0⟩
    _gps_position := ⟨0, 0, 0, 0, 0, 0, 0, 0, 0, 0, 0, 0, 0, 0, false, 0, 0, 0, 0⟩
    _satellite_info := none
    _rate_count_lat_lon := 0
    _rate_count_vel := 0
    _last_timestamp_time := 0
    clock_calls := [] }

/-- The GGA example sentence of the source and of the specification. -/
def ggaReference : List Nat :=
  bytes "$GPGGA,172814.0,3723.46587704,N,12202.26957864,W,2,6,1.2,18.893,M,-25.669,M,2.0,0031*4F"

/-! ### Parts of the ZDA and the RMC branch -/

/-- The local variables `nmea_hour`, `nmea_minute` and `nmea_sec` that the
ZDA and the RMC branch compute from `nmea_time` with the same three
statements. -/
def clockOf (nmea_time : ℚ) : Int × Int × ℚ :=
  let nmea_hour : Int := toInt (nmea_time / 10000)
  let nmea_minute : Int := toInt ((nmea_time - (nmea_hour * 10000 : Int)) / 100)
  let nmea_sec : ℚ := nmea_time - (nmea_hour * 10000 : Int) - (nmea_minute * 100 : Int)
  (nmea_hour, nmea_minute, nmea_sec)

/-- The local variables `nmea_time`, `day`, `month` and `year` of the ZDA
branch after its field statements. -/
def zdaFields (buf : List Nat) : ℚ × Int × Int × Int :=
  let nmea_time := fieldD buf 6 0
  let day := fieldL buf nmea_time.2 0
  let month := fieldL buf day.2 0
  let year := fieldL buf month.2 0
  (nmea_time.1, day.1, month.1, year.1)

/-- The structure `timeinfo` that the ZDA branch hands to `mktime`. -/
def zdaTimeinfo (buf : List Nat) : tm :=
  { tm_year := (zdaFields buf).2.2.2 - 1900
    tm_mon := (zdaFields buf).2.2.1 - 1
    tm_mday := (zdaFields buf).2.1
    tm_hour := (clockOf (zdaFields buf).1).1
    tm_min := (clockOf (zdaFields buf).1).2.1
    tm_sec := toInt (clockOf (zdaFields buf).1).2.2
    tm_isdst := 0 }

/-- The local variables of the RMC branch after its ten field statements,
`lat` and `lon` before the sign is applied and `nmea_date` after its
conversion to `int`. -/
structure RMCFields where
  nmea_time : ℚ
  lat : ℚ
  ns : Nat
  lon : ℚ
  ew : Nat
  ground_speed_K : ℚ
  A_track : ℚ
  nmea_date : Int
  deriving DecidableEq

/-- The ten field statements of the RMC branch, starting with the cursor at
`_rx_buffer + 6`. -/
def rmcFields (buf : List Nat) : RMCFields :=
  let nmea_time := fieldD buf 6 0
  let Sts := fieldC buf nmea_time.2 0
  let lat := fieldD buf Sts.2 0
  let ns := fieldC buf lat.2 63
  let lon := fieldD buf ns.2 0
  let ew := fieldC buf lon.2 63
  let ground_speed_K := fieldD buf ew.2 0
  let A_track := fieldD buf ground_speed_K.2 0
  let date := fieldD buf A_track.2 0
  { nmea_time := nmea_time.1
    lat := lat.1
    ns := ns.1
    lon := lon.1
    ew := ew.1
    ground_speed_K := ground_speed_K.1
    A_track := A_track.1
    nmea_date := toInt date.1 }

/-- The local variables `nema_day`, `nmea_mth` and `nmea_year` that the RMC
branch computes from `nmea_date`. -/
def dateOf (nmea_date : Int) : Int × Int × Int :=
  let nema_day : Int := Int.tdiv nmea_date 10000
  let nmea_mth : Int := Int.tdiv (nmea_date - nema_day * 10000) 100
  let nmea_year : Int := nmea_date - nema_day * 10000 - nmea_mth * 100
  (nema_day, nmea_mth, nmea_year)

/-- The structure `timeinfo` that the RMC branch hands to `mktime`. -/
def rmcTimeinfo (buf : List Nat) : tm :=
  { tm_year := (dateOf (rmcFields buf).nmea_date).2.2 + 2000
    tm_mon := (dateOf (rmcFields buf).nmea_date).2.1
    tm_mday := (dateOf (rmcFields buf).nmea_date).1
    tm_hour := (clockOf (rmcFields buf).nmea_time).1
    tm_min := (clockOf (rmcFields buf).nmea_time).2.1
    tm_sec := toInt (clockOf (rmcFields buf).nmea_time).2.2
    tm_isdst := 0 }

/-- The RMC branch up to the comment "convert to unix timestamp": the
position, the velocity and the two rate counters. -/
def rmcStore (E : Env) (s : GPSDriverNMEA) : GPSDriverNMEA :=
  let f := rmcFields s.decoder._rx_buffer
  let lat1 : ℚ := if f.ns = 83 then -f.lat else f.lat
  let lon1 : ℚ := if f.ew = 87 then -f.lon else f.lon
  let track_rad : ℚ := f.A_track * E.M_PI_F / 180
  let velocity_ms : ℚ := f.ground_speed_K / (19438445 / 10000000)
  { s with
    _gps_position :=
      { s._gps_position with
        lat := degMin lat1
        lon := degMin lon1
        vel_m_s := velocity_ms
        vel_n_m_s := velocity_ms * E.cosf track_rad
        vel_e_m_s := velocity_ms * E.sinf track_rad
        cog_rad := track_rad
        vel_ned_valid := true
        c_variance_rad := 1 / 10
        s_variance_m_s := 0 }
    _rate_count_lat_lon := s._rate_count_lat_lon + 1
    _rate_count_vel := s._rate_count_vel + 1 }

/-- Days from 1970-01-01 to a day of the Gregorian calendar (for the example
environment `utcEnv`). -/
def daysFromCivil (y m d : Int) : Int :=
  let y1 := if m ≤ 2 then y - 1 else y
  let era := y1 / 400
  let yoe := y1 - era * 400
  let mp := (m + 9) % 12
  let doy := (153 * mp + 2) / 5 + d - 1
  let doe := yoe * 365 + yoe / 4 - yoe / 100 + doy
  era * 146097 + doe - 719468

/-- An environment for the examples about time: as `exampleEnv`, with the
`mktime` of a host whose time zone is UTC (for calendar fields in their
ranges). -/
def utcEnv : Env :=
  { exampleEnv with
    mktime := fun t =>
      daysFromCivil (t.tm_year + 1900) (t.tm_mon + 1) t.tm_mday * 86400
        + t.tm_hour * 3600 + t.tm_min * 60 + t.tm_sec }

/-! ### Parts of the GSV branch, and slots of the satellite record -/

/-- The structure `gsv_sat` of the GSV branch: one satellite block. -/
structure gsv_sat where
  svid : Int
  elevation : Int
  azimuth : Int
  snr : Int
  deriving DecidableEq, Repr

/-- The four field statements of one pass through the loop of the GSV
branch, with the cursor at `p`: what `sat[y]` holds after them (the array is
zeroed before the loop), and the new cursor. -/
def gsvRead (buf : List Nat) (p : Nat) : gsv_sat × Nat :=
  let svid := fieldL buf p 0
  let elevation := fieldL buf svid.2 0
  let azimuth := fieldL buf elevation.2 0
  let snr := fieldL buf azimuth.2 0
  ({ svid := svid.1, elevation := elevation.1, azimuth := azimuth.1, snr := snr.1 }, snr.2)

/-- The cursor of the GSV branch after `j` passes through its loop, when it
was at `p` before the first one. -/
def gsvCursor (buf : List Nat) (p : Nat) (j : Nat) : Nat :=
  (fun q => (gsvRead buf q).2)^[j] p

/-- Slot `k` lies inside each of the five per-satellite arrays. -/
def satellite_info_s.InRange (si : satellite_info_s) (k : Nat) : Prop :=
  k < si.svid.length ∧ k < si.used.length ∧ k < si.snr.length
    ∧ k < si.elevation.length ∧ k < si.azimuth.length

instance (si : satellite_info_s) (k : Nat) : Decidable (si.InRange k) := by
  unfold satellite_info_s.InRange
  infer_instance

/-- Slot `k` of the record holds the satellite block `b`, with the flag
`used` equal to `snr > 0`. -/
def satellite_info_s.Holds (si : satellite_info_s) (k : Nat) (b : gsv_sat) : Prop :=
  si.svid[k]? = some b.svid ∧ si.used[k]? = some (decide (b.snr > 0))
    ∧ si.snr[k]? = some b.snr ∧ si.elevation[k]? = some b.elevation
    ∧ si.azimuth[k]? = some b.azimuth

instance (si : satellite_info_s) (k : Nat) (b : gsv_sat) : Decidable (si.Holds k b) := by
  unfold satellite_info_s.Holds
  infer_instance

/-- Slot `k` holds the same in two records. -/
def satellite_info_s.SameSlot (si si1 : satellite_info_s) (k : Nat) : Prop :=
  si1.svid[k]? = si.svid[k]? ∧ si1.used[k]? = si.used[k]? ∧ si1.snr[k]? = si.snr[k]?
    ∧ si1.elevation[k]? = si.elevation[k]? ∧ si1.azimuth[k]? = si.azimuth[k]?

instance (si si1 : satellite_info_s) (k : Nat) : Decidable (si.SameSlot si1 k) := by
  unfold satellite_info_s.SameSlot
  infer_instance

/-- The five arrays of two records have the same sizes. -/
def satellite_info_s.SameSize (si si1 : satellite_info_s) : Prop :=
  si1.svid.length = si.svid.length ∧ si1.used.length = si.used.length
    ∧ si1.snr.length = si.snr.length ∧ si1.elevation.length = si.elevation.length
    ∧ si1.azimuth.length = si.azimuth.length

/-! ### The grammar of the sentences -/

/-- A field of a sentence as the talker writes it, between two separators:
nothing, one character, an integer (an optional minus sign and digits), a
decimal number (an optional minus sign, digits, a point and digits), or a
run of characters. This is the grammar of the sentences, against which the
parser is checked. -/
inductive Field where
  | empty
  | char (c : Nat)
  | int (neg : Bool) (digits : List Nat)
  | dec (neg : Bool) (ip fp : List Nat)
  | text (cs : List Nat)
  deriving DecidableEq, Repr

/-- The characters of a field. -/
def Field.bytes : Field → List Nat
  | .empty => []
  | .char c => [c]
  | .int neg ds => (if neg then [45] else []) ++ ds
  | .dec neg ip fp => (if neg then [45] else []) ++ ip ++ 46 :: fp
  | .text cs => cs

/-- The decimal value of a numeric field; an empty field counts as 0. -/
def Field.value : Field → ℚ
  | .int neg ds => (if neg then -1 else 1) * (natOfDigits ds : ℚ)
  | .dec neg ip fp => (if neg then -1 else 1) * ((natOfDigits (ip ++ fp) : ℚ) / 10 ^ fp.length)
  | _ => 0

/-- The value of an integer field; an empty field counts as 0. -/
def Field.intValue : Field → Int
  | .int neg ds => (if neg then -1 else 1) * (natOfDigits ds : Int)
  | _ => 0

/-- A well-formed integer field: empty, or an optional minus sign and at
least one digit. -/
def Field.IsInt : Field → Prop
  | .empty => True
  | .int _ ds => ds ≠ [] ∧ ∀ c ∈ ds, isdigit c = true
  | _ => False

/-- A well-formed numeric field: empty, an integer, or a decimal number with
at least one digit before the point. -/
def Field.IsNum : Field → Prop
  | .empty => True
  | .int _ ds => ds ≠ [] ∧ ∀ c ∈ ds, isdigit c = true
  | .dec _ ip fp => ip ≠ [] ∧ (∀ c ∈ ip, isdigit c = true) ∧ ∀ c ∈ fp, isdigit c = true
  | _ => False

/-- A well-formed character field: empty, or one character other than the
separator. -/
def Field.IsChar : Field → Prop
  | .empty => True
  | .char c => c ≠ 44
  | _ => False

/-- A well-formed text field: a run of zero or more characters other than
the separator. -/
def Field.IsText : Field → Prop
  | .text cs => 44 ∉ cs
  | _ => False

instance (f : Field) : Decidable f.IsInt := by
  cases f <;> unfold Field.IsInt <;> infer_instance

instance (f : Field) : Decidable f.IsNum := by
  cases f <;> unfold Field.IsNum <;> infer_instance

instance (f : Field) : Decidable f.IsChar := by
  cases f <;> unfold Field.IsChar <;> infer_instance

instance (f : Field) : Decidable f.IsText := by
  cases f <;> unfold Field.IsText <;> infer_instance

/-- The character of a character field, `dflt` when the field is empty. -/
def Field.charOr (f : Field) (dflt : Nat) : Nat :=
  match f with
  | .char c => c
  | _ => dflt

/-- The sign that a hemisphere field gives a coordinate: `-1` when the field
is the character `c` (`S` or `W`), `+1` otherwise. -/
def Field.sign (f : Field) (c : Nat) : ℚ := if f = .char c then -1 else 1

/-- Fields in a row, each with the separator `,` before it. -/
def joinFields : List Field → List Nat
  | [] => []
  | f :: fs => 44 :: f.bytes ++ joinFields fs

/-- The conversion of the specification from degrees and minutes `DDMM.MMMM`
to degrees times 1e7:
`trunc((trunc(x/100) + (x/100 - trunc(x/100)) * 100/60) * 10^7)`. -/
def conv (x : ℚ) : Int :=
  toInt (((toInt (x / 100) : ℚ) + (x / 100 - (toInt (x / 100) : ℚ)) * 100 / 60) * 10 ^ 7)

/-- One satellite block of a GSV sentence as the talker writes it: four
integer fields. -/
structure SatBlock where
  svid : Field
  elevation : Field
  azimuth : Field
  snr : Field
  deriving DecidableEq, Repr

/-- A well-formed satellite block: each of the four fields is empty or an
integer. -/
def SatBlock.IsWellFormed (b : SatBlock) : Prop :=
  b.svid.IsInt ∧ b.elevation.IsInt ∧ b.azimuth.IsInt ∧ b.snr.IsInt

instance (b : SatBlock) : Decidable b.IsWellFormed := by
  unfold SatBlock.IsWellFormed
  infer_instance

/-- The four numbers that a satellite block stands for. -/
def SatBlock.values (b : SatBlock) : gsv_sat :=
  { svid := b.svid.intValue
    elevation := b.elevation.intValue
    azimuth := b.azimuth.intValue
    snr := b.snr.intValue }

/-- The fields of a row of satellite blocks. -/
def blockFields : List SatBlock → List Field
  | [] => []
  | b :: bs => b.svid :: b.elevation :: b.azimuth :: b.snr :: blockFields bs

/-! ### More examples -/

/-- An environment for the example of a quarter turn: as `exampleEnv`, with
`M_PI_F` equal to 3.141592 and with functions `cosf` and `sinf` that are
accurate at the angle of the example, where they give 0 and 1. -/
def quarterTurnEnv : Env :=
  { exampleEnv with
    M_PI_F := 3141592 / 1000000
    cosf := fun _ => 0
    sinf := fun _ => 1 }

/-- A satellite record for the examples: 20 slots, each filled by an earlier
cycle with the satellite 9 (elevation 9, azimuth 9, SNR 9, used). -/
def exampleSatInfo : satellite_info_s :=
  { timestamp := 7
    count := 20
    svid := List.replicate 20 9
    used := List.replicate 20 true
    snr := List.replicate 20 9
    elevation := List.replicate 20 9
    azimuth := List.replicate 20 9 }

/-- A driver for the examples about satellites: as `driverWith`, with the
satellite record `exampleSatInfo`. -/
def driverWithSat (buf : List Nat) : GPSDriverNMEA :=
  { driverWith buf with _satellite_info := some exampleSatInfo }

/-- The first message of an example cycle of two GSV messages with five
satellites in view. -/
def gsvMessage1 : List Nat :=
  bytes "$GPGSV,2,1,05,01,10,100,30,02,20,200,00,03,-3,300,,04,40,040,44*65"

/-- The satellite blocks of `gsvMessage1`. -/
def gsvBlocks1 : List SatBlock :=
  [⟨.int false (bytes "01"), .int false (bytes "10"), .int false (bytes "100"),
      .int false (bytes "30")⟩,
    ⟨.int false (bytes "02"), .int false (bytes "20"), .int false (bytes "200"),
      .int false (bytes "00")⟩,
    ⟨.int false (bytes "03"), .int true (bytes "3"), .int false (bytes "300"), .empty⟩,
    ⟨.int false (bytes "04"), .int false (bytes "40"), .int false (bytes "040"),
      .int false (bytes "44")⟩]

/-- The second and last message of the example cycle. -/
def gsvMessage2 : List Nat := bytes "$GPGSV,2,2,05,05,50,050,55*49"

/-- The satellite block of `gsvMessage2`. -/
def gsvBlocks2 : List SatBlock :=
  [⟨.int false (bytes "05"), .int false (bytes "50"), .int false (bytes "050"),
      .int false (bytes "55")⟩]

/-- The last message of a cycle of six GSV messages with 21 satellites in
view. -/
def gsvMessage6 : List Nat := bytes "$GPGSV,6,6,21,21,50,050,55*49"

/-- The only message of a cycle with one satellite in view. -/
def gsvSingle : List Nat := bytes "$GPGSV,1,1,01,05,50,050,55*4D"

/-! ### Example sentences and notions for the later properties -/

/-- The ZDA example sentence of the source, with the checksum `45` that the
comment in the source gives it. -/
def zdaReference : List Nat := bytes "$GPZDA,172809.456,12,07,1996,00,00*45"

/-- The GST example sentence of the source. -/
def gstReference : List Nat :=
  bytes "$GPGST,172814.0,0.006,0.023,0.020,273.6,0.023,0.020,0.031*6A"

/-- The GSV example sentence of the source. -/
def gsvReference : List Nat :=
  bytes "$GPGSV,4,1,13,02,02,213,,03,-3,000,,11,00,121,,14,13,172,05*67"

/-- The VTG example sentence of the source: eight commas. -/
def vtgReference : List Nat := bytes "$GPVTG,,T,,M,0.00,N,0.00,K*4E"

/-- The VTG example sentence with a ninth field, the mode indicator: nine
commas. -/
def vtgWithMode : List Nat := bytes "$GPVTG,,T,,M,0.00,N,0.00,K,A*23"

/-- The value that a `strtod` field statement leaves in a variable preset to
`dflt` when a separator `,` follows the field: `dflt` for an empty field, the
value of the field otherwise. -/
def Field.valueOr (f : Field) (dflt : ℚ) : ℚ := if f = .empty then dflt else f.value

/-- A GSA sentence with five satellites and an empty HDOP field. -/
def gsaNoHdop : List Nat := bytes "$GPGSA,A,3,04,05,,09,12,,,24,,,,,2.5,,2.1*15"

/-- The twelve satellite fields of `gsaNoHdop`. -/
def gsaNoHdopPrns : List Field :=
  [.int false (bytes "04"), .int false (bytes "05"), .empty, .int false (bytes "09"),
    .int false (bytes "12"), .empty, .empty, .int false (bytes "24"), .empty, .empty, .empty,
    .empty]

/-- A character with which no number starts: not white space, not a digit,
not a sign, not a decimal point, and not the first letter of `inf` or
`nan`. -/
def NotNumberStart (c : Nat) : Prop :=
  isspace c = false ∧ isdigit c = false ∧ c ≠ 43 ∧ c ≠ 45 ∧ c ≠ 46
    ∧ c ≠ 73 ∧ c ≠ 105 ∧ c ≠ 78 ∧ c ≠ 110

instance (c : Nat) : Decidable (NotNumberStart c) := by
  unfold NotNumberStart
  infer_instance

/-- The GGA example sentence of the source with the HDOP field `x`. -/
def ggaBadHdop : List Nat :=
  bytes "$GPGGA,172814.0,3723.46587704,N,12202.26957864,W,2,6,x,18.893,M,-25.669,M,2.0,0031*1A"

/-- A GSA sentence with the HDOP field `x`. -/
def gsaBadHdop : List Nat := bytes "$GPGSA,A,3,04,05,,09,12,,,24,,,,,2.5,x,2.1*6D"

/-- The GGA example sentence of the source with the fix-quality field `x`. -/
def ggaBadQuality : List Nat :=
  bytes "$GPGGA,172814.0,3723.46587704,N,12202.26957864,W,x,6,1.2,18.893,M,-25.669,M,2.0,0031*05"

/-- The GGA example sentence of the source with the fix-quality field
`xyz`. -/
def ggaBadQuality3 : List Nat :=
  bytes "$GPGGA,172814.0,3723.46587704,N,12202.26957864,W,xyz,6,1.2,18.893,M,-25.669,M,2.0,0031*06"

/-- The GGA example sentence of the source with the fix-quality field
empty. -/
def ggaNoQuality : List Nat :=
  bytes "$GPGGA,172814.0,3723.46587704,N,12202.26957864,W,,6,1.2,18.893,M,-25.669,M,2.0,0031*7D"

/-- The values of `hdop`, `vdop`, `alt` and `fix_type` after a call of
`handleMessage`, and the value returned. -/
def fixOf (r : Option (GPSDriverNMEA × Int)) : Option (ℚ × ℚ × Int × Int × Int) :=
  r.map fun x =>
    (x.1._gps_position.hdop, x.1._gps_position.vdop, x.1._gps_position.alt,
      x.1._gps_position.fix_type, x.2)

/-- The values that `parseChar` returns for the bytes of `bs`, fed to an idle
decoder with a buffer of `cap` bytes. -/
def returnsOf (cap : Nat) (bs : List Nat) : Option (List Nat) :=
  (feed ⟨.UNINIT, List.replicate cap 0, 0⟩ bs).map Prod.snd

/-- The number of passes of the loop of the GSV branch, the value of `end`:
`tot_sv_visible - (this_msg_num - 1) * 4` in the last message of a cycle, 4
in the other ones. -/
def gsvPasses (buf : List Nat) : Nat :=
  (if (gsvHeader buf).2.1.1 = (gsvHeader buf).1.1
    then (gsvHeader buf).2.2.1 - ((gsvHeader buf).2.1.1 - 1) * 4
    else 4).toNat

/-- The slot of the first block of a GSV message, `4 * (this_msg_num - 1)`. -/
def gsvBase (buf : List Nat) : Nat := 4 * ((gsvHeader buf).2.1.1.toNat - 1)

/-- A single GSV message that announces five satellites and carries five
blocks. -/
def gsvFive : List Nat :=
  bytes "$GPGSV,1,1,05,01,10,100,30,02,20,200,00,03,-3,300,,04,40,040,44,05,50,050,55*53"

/-- The ninth message of a cycle of nine, with the one block of satellite
33. -/
def gsvMessage9 : List Nat := bytes "$GPGSV,9,9,33,33,50,050,55*49"

/-- The number of separators `,` of `w` behind index `p`. -/
def commasAfter (w : List Nat) (p : Nat) : Nat := (w.drop (p + 1)).count 44

/-- The cursor of the GNS branch when the scan of the positioning mode
starts: after the field statements for the time, the latitude, its
hemisphere, the longitude and its hemisphere. -/
def gnsCursor (buf : List Nat) : Nat :=
  let nmea_time := fieldD buf 6 0
  let lat := fieldD buf nmea_time.2 0
  let ns := fieldC buf lat.2 63
  let lon := fieldD buf ns.2 0
  let ew := fieldC buf lon.2 63
  ew.2

/-- The number of field statements that `handleMessage` runs on a frame when
a satellite record is there; the scan of the GNS branch counts as one. -/
def fieldStatements (buf : List Nat) (len : Int) : Nat :=
  if len < 7 then 0
  else if tagIs buf "ZDA" ∧ countCommas buf len = 6 then 6
  else if tagIs buf "GGA" ∧ countCommas buf len = 14 then 9
  else if tagIs buf "GNS" then 9
  else if tagIs buf "RMC" then 10
  else if tagIs buf "GST" then 8
  else if tagIs buf "GSA" then 17
  else if tagIs buf "GSV" then
    if frameTalker buf ≠ bytes "$GP" then 0
    else if (gsvHeader buf).2.1.1 < 1 ∨ (gsvHeader buf).2.1.1 > (gsvHeader buf).1.1 then 3
    else 3 + 4 * gsvPasses buf
  else if tagIs buf "VTG" ∧ countCommas buf len = 9 then 8
  else 0

/-- A driver whose decoder, idle at first with a buffer of `cap` zero bytes,
has been fed the bytes `bs`. -/
def driverAfter (cap : Nat) (bs : List Nat) : Option GPSDriverNMEA :=
  (feed ⟨.UNINIT, List.replicate cap 0, 0⟩ bs).map fun r => { driverWith [] with decoder := r.1 }

/-- A GSA sentence with five satellites. -/
def gsaFull : List Nat := bytes "$GPGSA,A,3,04,05,,09,12,,,24,,,,,2.5,1.3,2.1*39"

/-- A GSA sentence cut off behind its identifier, with its checksum. -/
def gsaShort : List Nat := bytes "$GPGSA*42"

/-- The GNS example sentence of the source, with its checksum. -/
def gnsFull : List Nat :=
  bytes "$GPGNS,091547.00,5114.50897,N,00012.28663,W,AA,10,0.83,111.1,45.6,,,V*15"

/-- The payload of `gnsFull`. -/
def gnsPayload : List Nat :=
  bytes "GPGNS,091547.00,5114.50897,N,00012.28663,W,AA,10,0.83,111.1,45.6,,,V"

/-- A GNS sentence cut off behind its identifier, with its checksum. -/
def gnsShort : List Nat := bytes "$GPGNS*4D"

/-- The GGA example sentence of the source with the latitude field
`6431.5`, 64 degrees and 31.5 minutes, and its checksum. -/
def ggaLatitude : List Nat :=
  bytes "$GPGGA,172814.0,6431.5,N,12202.26957864,W,2,6,1.2,18.893,M,-25.669,M,2.0,0031*74"

/-- The GNS example sentence of the source with the altitude field `32.01`,
and its checksum. -/
def gnsAltitude : List Nat :=
  bytes "$GPGNS,091547.00,5114.50897,N,00012.28663,W,AA,10,0.83,32.01,45.6,,,V*15"

/-- The latitude, the longitude, the altitude and `hdop` after a call of
`handleMessage`, and the value returned. -/
def positionOf (r : Option (GPSDriverNMEA × Int)) : Option (Int × Int × Int × ℚ × Int) :=
  r.map fun x =>
    (x.1._gps_position.lat, x.1._gps_position.lon, x.1._gps_position.alt,
      x.1._gps_position.hdop, x.2)

/-- Payload bytes: bytes that are neither `$` nor `*`. -/
def IsPayload (p : List Nat) : Prop := ∀ x ∈ p, x < 256 ∧ x ≠ 36 ∧ x ≠ 42

instance (p : List Nat) : Decidable (IsPayload p) := by
  unfold IsPayload
  infer_instance

/-- What the decoder has collected so far, by state: the stored bytes are
`$`, a payload, and then as much of `*` and the first checksum character as
the state says. -/
def Decoder.Collected (d : Decoder) : Prop :=
  match d._decode_state with
  | .UNINIT => True
  | .GOT_SYNC1 => ∃ p, IsPayload p ∧ d._rx_buffer_bytes = p.length + 1
      ∧ d._rx_buffer.take d._rx_buffer_bytes = 36 :: p
  | .GOT_NMEA => ∃ p, IsPayload p ∧ d._rx_buffer_bytes = p.length + 2
      ∧ d._rx_buffer.take d._rx_buffer_bytes = 36 :: p ++ [42]
  | .GOT_FIRST_CS_BYTE => ∃ p c, IsPayload p ∧ d._rx_buffer_bytes = p.length + 3
      ∧ d._rx_buffer.take d._rx_buffer_bytes = 36 :: p ++ [42, c]

/-- The bound on the byte count that each decoder state guarantees in a
buffer of at least 6 bytes. -/
def Decoder.Bounded (d : Decoder) : Prop :=
  match d._decode_state with
  | .UNINIT => d._rx_buffer_bytes = 0
  | .GOT_SYNC1 => d._rx_buffer_bytes + 5 ≤ d._rx_buffer.length
  | .GOT_NMEA => d._rx_buffer_bytes + 5 ≤ d._rx_buffer.length
  | .GOT_FIRST_CS_BYTE => d._rx_buffer_bytes + 4 ≤ d._rx_buffer.length

/-! ## Properties of the frame decoder -/

theorem take_succ_set (l : List Nat) (n b : Nat) (h : n < l.length) :
    (l.set n b).take (n + 1) = l.take n ++ [b] := by
  induction l generalizing n with
  | nil => simp at h
  | cons a l ih =>
    cases n with
    | zero => simp
    | succ n =>
      simp only [List.length_cons, Nat.add_lt_add_iff_right] at h
      simp [ih n h]

theorem push_spec (d d1 : Decoder) (b : Nat) (h : d.push b = some d1) :
    d1._decode_state = d._decode_state
    ∧ d1._rx_buffer_bytes = d._rx_buffer_bytes + 1
    ∧ d1._rx_buffer.length = d._rx_buffer.length
    ∧ d._rx_buffer_bytes < d._rx_buffer.length
    ∧ d1._rx_buffer.take d1._rx_buffer_bytes = d._rx_buffer.take d._rx_buffer_bytes ++ [b] := by
  unfold Decoder.push at h
  split at h
  · rename_i hlt
    injection h with h
    subst h
    exact ⟨rfl, rfl, by simp, hlt, take_succ_set _ _ _ hlt⟩
  · cases h

theorem xorFold_lt (p : List Nat) (c : Nat) (hc : c < 256) (hp : ∀ x ∈ p, x < 256) :
    p.foldl (fun c x => c ^^^ x) c < 256 := by
  induction p generalizing c with
  | nil => simpa using hc
  | cons a p ih =>
    simp only [List.foldl_cons]
    apply ih
    · exact Nat.xor_lt_two_pow (n := 8) hc (hp a (by simp))
    · intro x hx
      exact hp x (by simp [hx])

theorem HEXDIGIT_CHAR_nibble (n : Nat) (hn : n < 16) :
    HEXDIGIT_CHAR n = (bytes "0123456789ABCDEF").getD n 0 := by
  revert n
  decide

theorem HEXDIGIT_CHAR_table (x : Nat) (hx : x < 256) :
    [HEXDIGIT_CHAR (x >>> 4), HEXDIGIT_CHAR (x &&& 0x0F)]
      = [(bytes "0123456789ABCDEF").getD (x / 16) 0, (bytes "0123456789ABCDEF").getD (x % 16) 0] := by
  have h1 : x >>> 4 = x / 16 := by simp [Nat.shiftRight_eq_div_pow]
  have h2 : x &&& 0x0F = x % 16 := Nat.and_pow_two_sub_one_eq_mod x 4
  rw [h1, h2, HEXDIGIT_CHAR_nibble _ (by omega), HEXDIGIT_CHAR_nibble _ (by omega)]

theorem getD_of_take (l t : List Nat) (n i : Nat) (h : l.take n = t) (hi : i < n) :
    l.getD i 0 = t.getD i 0 := by
  subst h
  simp [List.getD_eq_getElem?_getD, List.getElem?_take, hi]

theorem frame_reads (buf p : List Nat) (c1 c2 : Nat)
    (h : buf.take (p.length + 4) = 36 :: p ++ [42, c1, c2]) :
    checksumOf buf (p.length + 4) = p.foldl (fun c x => c ^^^ x) 0
    ∧ buf.getD (p.length + 4 - 2) 0 = c1 ∧ buf.getD (p.length + 4 - 1) 0 = c2 := by
  refine ⟨?_, ?_, ?_⟩
  · unfold checksumOf
    have h1 : buf.take (p.length + 4 - 3) = 36 :: p := by
      have := congrArg (List.take (p.length + 1)) h
      rw [List.take_take] at this
      have e : min (p.length + 1) (p.length + 4) = p.length + 4 - 3 := by omega
      rw [e] at this
      rw [this]
      have e2 : 36 :: p ++ [42, c1, c2] = (36 :: p) ++ [42, c1, c2] := by simp
      rw [e2, List.take_append_of_le_length (by simp)]
      simp
    rw [h1]
    simp
  · rw [getD_of_take buf _ _ _ h (by omega)]
    have e : p.length + 4 - 2 = (36 :: p ++ [42]).length := by simp
    have e2 : 36 :: p ++ [42, c1, c2] = (36 :: p ++ [42]) ++ [c1, c2] := by simp
    rw [e, e2, List.getD_eq_getElem?_getD, List.getElem?_append_right (le_refl _)]
    simp
  · rw [getD_of_take buf _ _ _ h (by omega)]
    have e : p.length + 4 - 1 = (36 :: p ++ [42, c1]).length := by simp
    have e2 : 36 :: p ++ [42, c1, c2] = (36 :: p ++ [42, c1]) ++ [c2] := by simp
    rw [e, e2, List.getD_eq_getElem?_getD, List.getElem?_append_right (le_refl _)]
    simp

theorem hex_match_iff (p : List Nat) (hp : ∀ x ∈ p, x < 256) (c1 c2 : Nat) :
    (HEXDIGIT_CHAR (p.foldl (fun c x => c ^^^ x) 0 >>> 4) = c1
      ∧ HEXDIGIT_CHAR (p.foldl (fun c x => c ^^^ x) 0 &&& 0x0F) = c2)
    ↔ [c1, c2] = hexDigitsOf p := by
  have hx := xorFold_lt p 0 (by decide) hp
  have ht := HEXDIGIT_CHAR_table _ hx
  unfold hexDigitsOf
  simp only [List.cons.injEq, and_true] at ht ⊢
  rw [← ht.1, ← ht.2]
  constructor
  · rintro ⟨h1, h2⟩
    exact ⟨h1.symm, h2.symm⟩
  · rintro ⟨h1, h2⟩
    exact ⟨h1.symm, h2.symm⟩

/-- The last step of a frame: in state `GOT_FIRST_CS_BYTE`, with `$`, a
payload, `*` and one checksum character stored, the call stores the second
checksum character, resets the decoder and returns the frame length exactly
when the two characters are the checksum of the payload. -/
theorem parseChar_last (d : Decoder) (p : List Nat) (c1 c2 : Nat)
    (hs : d._decode_state = .GOT_FIRST_CS_BYTE) (hp : ∀ x ∈ p, x < 256)
    (hb : d._rx_buffer_bytes = p.length + 3)
    (ht : d._rx_buffer.take d._rx_buffer_bytes = 36 :: p ++ [42, c1])
    (d' : Decoder) (n : Nat) (h : parseChar d c2 = some (d', n)) :
    d'._decode_state = .UNINIT ∧ d'._rx_buffer_bytes = 0
    ∧ d'._rx_buffer.length = d._rx_buffer.length
    ∧ d'._rx_buffer.take (p.length + 4) = 36 :: p ++ [42, c1, c2]
    ∧ n = if [c1, c2] = hexDigitsOf p then p.length + 4 else 0 := by
  unfold parseChar at h
  rw [hs] at h
  simp only [Option.map_eq_some'] at h
  obtain ⟨d1, hpush, hd⟩ := h
  obtain ⟨-, hb1, hl1, -, ht1⟩ := push_spec d d1 c2 hpush
  have hb1' : d1._rx_buffer_bytes = p.length + 4 := by omega
  have htake : d1._rx_buffer.take (p.length + 4) = 36 :: p ++ [42, c1, c2] := by
    rw [← hb1', ht1, ht]
    simp
  obtain ⟨hck, hg1, hg2⟩ := frame_reads d1._rx_buffer p c1 c2 htake
  injection hd with hd1 hd2
  subst hd1
  refine ⟨rfl, rfl, hl1, htake, ?_⟩
  rw [← hd2, hb1', hck, hg1, hg2]
  simp only [hex_match_iff p hp c1 c2]

theorem IsPayload.lt {p : List Nat} (hp : IsPayload p) : ∀ x ∈ p, x < 256 :=
  fun x hx => (hp x hx).1

theorem IsPayload.snoc {p : List Nat} (hp : IsPayload p) {b : Nat}
    (hb : b < 256) (h1 : b ≠ 36) (h2 : b ≠ 42) : IsPayload (p ++ [b]) := by
  intro x hx
  rcases List.mem_append.1 hx with hx | hx
  · exact hp x hx
  · simp only [List.mem_singleton] at hx
    subst hx
    exact ⟨hb, h1, h2⟩

theorem IsPayload.nil : IsPayload [] := by
  intro x hx
  cases hx

/-- One call of `parseChar` keeps the description of the collected bytes, and
a positive return value means that the buffer starts with a complete
sentence of that length. -/
theorem parseChar_collected (d : Decoder) (b : Nat) (hb : b < 256) (hc : d.Collected)
    (d' : Decoder) (n : Nat) (h : parseChar d b = some (d', n)) :
    d'.Collected ∧ (0 < n → ∃ p, IsPayload p ∧ n = p.length + 4
      ∧ d'._rx_buffer.take n = sentence p) := by
  unfold Decoder.Collected at hc
  cases hs : d._decode_state with
  | UNINIT =>
    unfold parseChar at h
    rw [hs] at h
    simp only at h
    by_cases hb36 : b = 36
    · simp only [hb36, ↓reduceIte, Option.map_eq_some'] at h
      obtain ⟨d1, hpush, hd⟩ := h
      obtain ⟨hs1, hb1, -, -, ht1⟩ := push_spec _ d1 36 hpush
      injection hd with hd1 hd2
      subst hd1 hd2
      refine ⟨?_, by simp⟩
      unfold Decoder.Collected
      rw [hs1]
      refine ⟨[], IsPayload.nil, by simpa using hb1, ?_⟩
      rw [ht1]
      simp
    · simp only [hb36, ↓reduceIte, Option.some.injEq, Prod.mk.injEq] at h
      obtain ⟨rfl, rfl⟩ := h
      refine ⟨?_, by simp⟩
      unfold Decoder.Collected
      rw [hs]
      trivial
  | GOT_SYNC1 =>
    rw [hs] at hc
    obtain ⟨p, hp, hbytes, htake⟩ := hc
    unfold parseChar at h
    rw [hs] at h
    simp only at h
    by_cases hb36 : b = 36
    · subst hb36
      simp only [↓reduceIte] at h
      split at h
      · simp only [Option.some.injEq, Prod.mk.injEq] at h
        obtain ⟨rfl, rfl⟩ := h
        refine ⟨?_, by simp⟩
        unfold Decoder.Collected
        trivial
      · simp only [Option.map_eq_some'] at h
        obtain ⟨d2, hpush, hd⟩ := h
        obtain ⟨hs1, hb1, -, -, ht1⟩ := push_spec _ d2 36 hpush
        injection hd with hd1 hd2
        subst hd1 hd2
        refine ⟨?_, by simp⟩
        unfold Decoder.Collected
        rw [hs1]
        refine ⟨[], IsPayload.nil, by simpa using hb1, ?_⟩
        rw [ht1]
        simp
    · by_cases hb42 : b = 42
      · subst hb42
        simp only [show ¬ ((42 : Nat) = 36) by decide, ↓reduceIte] at h
        split at h
        · simp only [Option.some.injEq, Prod.mk.injEq] at h
          obtain ⟨rfl, rfl⟩ := h
          refine ⟨?_, by simp⟩
          unfold Decoder.Collected
          trivial
        · simp only [Option.map_eq_some'] at h
          obtain ⟨d2, hpush, hd⟩ := h
          obtain ⟨hs1, hb1, -, -, ht1⟩ := push_spec _ d2 42 hpush
          injection hd with hd1 hd2
          subst hd1 hd2
          refine ⟨?_, by simp⟩
          unfold Decoder.Collected
          rw [hs1]
          refine ⟨p, hp, by simp at hb1; omega, ?_⟩
          rw [ht1]
          simp only
          rw [htake]
      · simp only [hb36, hb42, ↓reduceIte] at h
        split at h
        · simp only [Option.some.injEq, Prod.mk.injEq] at h
          obtain ⟨rfl, rfl⟩ := h
          refine ⟨?_, by simp⟩
          unfold Decoder.Collected
          trivial
        · simp only [Option.map_eq_some'] at h
          obtain ⟨d2, hpush, hd⟩ := h
          obtain ⟨hs1, hb1, -, -, ht1⟩ := push_spec _ d2 b hpush
          injection hd with hd1 hd2
          subst hd1 hd2
          refine ⟨?_, by simp⟩
          unfold Decoder.Collected
          rw [hs1, hs]
          refine ⟨p ++ [b], hp.snoc hb hb36 hb42, by simp; omega, ?_⟩
          rw [ht1, htake]
          simp
  | GOT_NMEA =>
    rw [hs] at hc
    obtain ⟨p, hp, hbytes, htake⟩ := hc
    unfold parseChar at h
    rw [hs] at h
    simp only [Option.map_eq_some'] at h
    obtain ⟨d1, hpush, hd⟩ := h
    obtain ⟨-, hb1, -, -, ht1⟩ := push_spec _ d1 b hpush
    injection hd with hd1 hd2
    subst hd1 hd2
    refine ⟨?_, by simp⟩
    unfold Decoder.Collected
    refine ⟨p, b, hp, by simp; omega, ?_⟩
    simp only
    rw [ht1, htake]
    simp
  | GOT_FIRST_CS_BYTE =>
    rw [hs] at hc
    obtain ⟨p, c, hp, hbytes, htake⟩ := hc
    obtain ⟨hs', -, -, ht', hn⟩ := parseChar_last d p c b hs hp.lt hbytes htake d' n h
    refine ⟨?_, ?_⟩
    · unfold Decoder.Collected
      rw [hs']
      trivial
    · intro hpos
      by_cases hm : [c, b] = hexDigitsOf p
      · rw [if_pos hm] at hn
        refine ⟨p, hp, hn, ?_⟩
        rw [hn, ht']
        unfold sentence
        rw [← hm]
      · rw [if_neg hm] at hn
        omega

theorem feed_cons_some (d : Decoder) (b : Nat) (bs : List Nat) (d' : Decoder)
    (rs : List Nat) (h : feed d (b :: bs) = some (d', rs)) :
    ∃ d1 r rs1, parseChar d b = some (d1, r) ∧ feed d1 bs = some (d', rs1) ∧ rs = r :: rs1 := by
  simp only [feed] at h
  cases h1 : parseChar d b with
  | none => simp [h1] at h
  | some r1 =>
    obtain ⟨d1, n1⟩ := r1
    rw [h1] at h
    simp only at h
    cases h2 : feed d1 bs with
    | none => simp [h2] at h
    | some r2 =>
      obtain ⟨d2, rs2⟩ := r2
      rw [h2] at h
      simp only [Option.some.injEq, Prod.mk.injEq] at h
      obtain ⟨rfl, rfl⟩ := h
      exact ⟨d1, n1, rs2, rfl, h2, rfl⟩

theorem feed_collected (bs : List Nat) (hbs : ∀ x ∈ bs, x < 256) (d : Decoder)
    (hc : d.Collected) (d' : Decoder) (rs : List Nat) (h : feed d bs = some (d', rs)) :
    d'.Collected := by
  induction bs generalizing d rs with
  | nil =>
    simp only [feed, Option.some.injEq, Prod.mk.injEq] at h
    rw [← h.1]
    exact hc
  | cons b bs ih =>
    obtain ⟨d1, r, rs1, h1, h2, -⟩ := feed_cons_some d b bs d' rs h
    exact ih (fun x hx => hbs x (by simp [hx])) d1
      (parseChar_collected d b (hbs b (by simp)) hc d1 r h1).1 rs1 h2

theorem hexDigitsOf_eq (p : List Nat) :
    hexDigitsOf p = [(hexDigitsOf p).getD 0 0, (hexDigitsOf p).getD 1 0] := by
  simp [hexDigitsOf]

theorem sentence_length (p : List Nat) : (sentence p).length = p.length + 4 := by
  simp [sentence, hexDigitsOf]

/-- The index-wise reading of "the first `n` bytes of the buffer are the
sentence of payload `p`". -/
theorem frame_of_sentence (buf p : List Nat) (n : Nat) (hp : IsPayload p)
    (hn : n = p.length + 4) (h : buf.take n = sentence p) :
    4 ≤ n ∧ n ≤ buf.length ∧ buf.getD 0 0 = 36 ∧ buf.getD (n - 3) 0 = 42
    ∧ (∀ i, 1 ≤ i → i ≤ n - 4 → buf.getD i 0 ≠ 36 ∧ buf.getD i 0 ≠ 42)
    ∧ ((buf.take (n - 3)).drop 1).foldl (fun c x => c ^^^ x) 0 < 256
    ∧ [buf.getD (n - 2) 0, buf.getD (n - 1) 0]
        = hexDigitsOf ((buf.take (n - 3)).drop 1) := by
  subst hn
  have hlen : p.length + 4 ≤ buf.length := by
    have := congrArg List.length h
    rw [List.length_take, sentence_length] at this
    omega
  have h' : buf.take (p.length + 4)
      = 36 :: p ++ [42, (hexDigitsOf p).getD 0 0, (hexDigitsOf p).getD 1 0] := by
    rw [h, sentence]
    conv_lhs => rw [hexDigitsOf_eq p]
  obtain ⟨-, hg1, hg2⟩ := frame_reads buf p _ _ h'
  have hpay : (buf.take (p.length + 4 - 3)).drop 1 = p := by
    have := congrArg (List.take (p.length + 1)) h'
    rw [List.take_take] at this
    have e : min (p.length + 1) (p.length + 4) = p.length + 4 - 3 := by omega
    rw [e] at this
    rw [this]
    have e2 : 36 :: p ++ [42, (hexDigitsOf p).getD 0 0, (hexDigitsOf p).getD 1 0]
        = (36 :: p) ++ [42, (hexDigitsOf p).getD 0 0, (hexDigitsOf p).getD 1 0] := by simp
    rw [e2, List.take_append_of_le_length (by simp)]
    simp
  refine ⟨by omega, hlen, ?_, ?_, ?_, ?_, ?_⟩
  · rw [getD_of_take buf _ _ _ h' (by omega)]
    rfl
  · rw [getD_of_take buf _ _ _ h' (by omega)]
    have e : p.length + 4 - 3 = (36 :: p).length := by simp
    have e2 : 36 :: p ++ [42, (hexDigitsOf p).getD 0 0, (hexDigitsOf p).getD 1 0]
        = (36 :: p) ++ [42, (hexDigitsOf p).getD 0 0, (hexDigitsOf p).getD 1 0] := by simp
    rw [e, e2, List.getD_eq_getElem?_getD, List.getElem?_append_right (le_refl _)]
    simp
  · intro i hi1 hi2
    rw [getD_of_take buf _ _ _ h' (by omega)]
    obtain ⟨j, rfl⟩ : ∃ j, i = j + 1 := ⟨i - 1, by omega⟩
    have hj : j < p.length := by omega
    have hx : (36 :: p ++ [42, (hexDigitsOf p).getD 0 0, (hexDigitsOf p).getD 1 0]).getD (j + 1) 0
        = p[j] := by
      simp [List.getD_eq_getElem?_getD, List.getElem?_append_left hj,
        List.getElem?_eq_getElem hj]
    rw [hx]
    exact (hp _ (List.getElem_mem hj)).2
  · rw [hpay]
    exact xorFold_lt p 0 (by decide) hp.lt
  · rw [hpay, hg1, hg2]
    exact (hexDigitsOf_eq p).symm

/-- Claim C1 (decoder soundness). Feed any bytes, one at a time, to a decoder
that starts in state `UNINIT`. Whenever a call of `parseChar` returns a
positive `n`, the buffer holds a frame of exactly `n ≥ 4` bytes: byte 0 is
`$`, byte `n - 3` is `*`, no `$` or `*` occurs at the indices `1 .. n - 4`,
the XOR of the bytes `1 .. n - 4` is below 256, and the bytes `n - 2` and
`n - 1` are its two uppercase hexadecimal digits (high nibble first). -/
theorem parseChar_sound (d0 : Decoder) (h0 : d0._decode_state = .UNINIT)
    (bs : List Nat) (hbs : ∀ x ∈ bs, x < 256) (b : Nat) (hb : b < 256)
    (d : Decoder) (rs : List Nat) (hfeed : feed d0 bs = some (d, rs))
    (d' : Decoder) (n : Nat) (hstep : parseChar d b = some (d', n)) (hn : 0 < n) :
    4 ≤ n ∧ n ≤ d'._rx_buffer.length
    ∧ d'._rx_buffer.getD 0 0 = 36 ∧ d'._rx_buffer.getD (n - 3) 0 = 42
    ∧ (∀ i, 1 ≤ i → i ≤ n - 4 →
        d'._rx_buffer.getD i 0 ≠ 36 ∧ d'._rx_buffer.getD i 0 ≠ 42)
    ∧ ((d'._rx_buffer.take (n - 3)).drop 1).foldl (fun c x => c ^^^ x) 0 < 256
    ∧ [d'._rx_buffer.getD (n - 2) 0, d'._rx_buffer.getD (n - 1) 0]
        = hexDigitsOf ((d'._rx_buffer.take (n - 3)).drop 1) := by
  have hc0 : d0.Collected := by
    unfold Decoder.Collected
    rw [h0]
    trivial
  have hc := feed_collected bs hbs d0 hc0 d rs hfeed
  obtain ⟨p, hp, hnp, ht⟩ := (parseChar_collected d b hb hc d' n hstep).2 hn
  exact frame_of_sentence d'._rx_buffer p n hp hnp ht

/-- Witness for `parseChar_sound`: the bytes `$A*4` followed by `1` in a
buffer of capacity 8; the last call returns 5. -/
theorem parseChar_sound_witness :
    (feed ⟨.UNINIT, [0, 0, 0, 0, 0, 0, 0, 0], 0⟩ (bytes "$A*4")
        = some (⟨.GOT_FIRST_CS_BYTE, [36, 65, 42, 52, 0, 0, 0, 0], 4⟩, [0, 0, 0, 0])
      ∧ parseChar ⟨.GOT_FIRST_CS_BYTE, [36, 65, 42, 52, 0, 0, 0, 0], 4⟩ 49
        = some (⟨.UNINIT, [36, 65, 42, 52, 49, 0, 0, 0], 0⟩, 5))
    ∧ (4 ≤ 5 ∧ 5 ≤ [36, 65, 42, 52, 49, 0, 0, 0].length
      ∧ [36, 65, 42, 52, 49, 0, 0, 0].getD 0 0 = 36
      ∧ [36, 65, 42, 52, 49, 0, 0, 0].getD (5 - 3) 0 = 42
      ∧ (∀ i, 1 ≤ i → i ≤ 5 - 4 →
          [36, 65, 42, 52, 49, 0, 0, 0].getD i 0 ≠ 36
          ∧ [36, 65, 42, 52, 49, 0, 0, 0].getD i 0 ≠ 42)
      ∧ (([36, 65, 42, 52, 49, 0, 0, 0].take (5 - 3)).drop 1).foldl (fun c x => c ^^^ x) 0
          < 256
      ∧ [[36, 65, 42, 52, 49, 0, 0, 0].getD (5 - 2) 0,
          [36, 65, 42, 52, 49, 0, 0, 0].getD (5 - 1) 0]
        = hexDigitsOf (([36, 65, 42, 52, 49, 0, 0, 0].take (5 - 3)).drop 1)) :=
  ⟨⟨by decide, by decide⟩,
    parseChar_sound ⟨.UNINIT, [0, 0, 0, 0, 0, 0, 0, 0], 0⟩ rfl (bytes "$A*4") (by decide) 49
      (by decide) ⟨.GOT_FIRST_CS_BYTE, [36, 65, 42, 52, 0, 0, 0, 0], 4⟩ [0, 0, 0, 0] (by decide)
      ⟨.UNINIT, [36, 65, 42, 52, 49, 0, 0, 0], 0⟩ 5 (by decide) (by decide)⟩

/-! ### Forward steps of the decoder -/

theorem parseChar_dollar (d : Decoder)
    (hs : d._decode_state = .UNINIT ∨ d._decode_state = .GOT_SYNC1)
    (hcap : 6 ≤ d._rx_buffer.length) :
    parseChar d 36 = some (⟨.GOT_SYNC1, d._rx_buffer.set 0 36, 1⟩, 0) := by
  have h0 : 0 < d._rx_buffer.length := by omega
  have h5 : ¬ (d._rx_buffer.length - 5 = 0) := by omega
  rcases hs with hs | hs
  · simp [parseChar, hs, Decoder.push, h0]
  · simp [parseChar, hs, Decoder.push, h0, h5]

theorem parseChar_store (d : Decoder) (hs : d._decode_state = .GOT_SYNC1) (b : Nat)
    (hb36 : b ≠ 36) (hb42 : b ≠ 42) (hlt : d._rx_buffer_bytes + 6 ≤ d._rx_buffer.length) :
    parseChar d b
      = some (⟨.GOT_SYNC1, d._rx_buffer.set d._rx_buffer_bytes b, d._rx_buffer_bytes + 1⟩, 0) := by
  have h1 : ¬ (d._rx_buffer.length - 5 ≤ d._rx_buffer_bytes) := by omega
  have h2 : d._rx_buffer_bytes < d._rx_buffer.length := by omega
  simp [parseChar, hs, Decoder.push, hb36, hb42, h1, h2]

theorem parseChar_reset (d : Decoder) (hs : d._decode_state = .GOT_SYNC1) (b : Nat)
    (hb36 : b ≠ 36) (hge : d._rx_buffer.length ≤ d._rx_buffer_bytes + 5) :
    parseChar d b = some (⟨.UNINIT, d._rx_buffer, 0⟩, 0) := by
  have h1 : d._rx_buffer.length - 5 ≤ d._rx_buffer_bytes := by omega
  by_cases hb42 : b = 42
  · simp [parseChar, hs, hb42, h1]
  · simp [parseChar, hs, hb36, hb42, h1]

theorem parseChar_star (d : Decoder) (hs : d._decode_state = .GOT_SYNC1)
    (hlt : d._rx_buffer_bytes + 6 ≤ d._rx_buffer.length) :
    parseChar d 42
      = some (⟨.GOT_NMEA, d._rx_buffer.set d._rx_buffer_bytes 42, d._rx_buffer_bytes + 1⟩, 0) := by
  have h1 : ¬ (d._rx_buffer.length - 5 ≤ d._rx_buffer_bytes) := by omega
  have h2 : d._rx_buffer_bytes < d._rx_buffer.length := by omega
  simp [parseChar, hs, Decoder.push, h1, h2]

theorem parseChar_first_cs (d : Decoder) (hs : d._decode_state = .GOT_NMEA) (b : Nat)
    (hlt : d._rx_buffer_bytes < d._rx_buffer.length) :
    parseChar d b
      = some (⟨.GOT_FIRST_CS_BYTE, d._rx_buffer.set d._rx_buffer_bytes b,
          d._rx_buffer_bytes + 1⟩, 0) := by
  simp [parseChar, hs, Decoder.push, hlt]

theorem parseChar_second_cs (d : Decoder) (hs : d._decode_state = .GOT_FIRST_CS_BYTE)
    (b : Nat) (hlt : d._rx_buffer_bytes < d._rx_buffer.length) :
    ∃ n, parseChar d b = some (⟨.UNINIT, d._rx_buffer.set d._rx_buffer_bytes b, 0⟩, n) := by
  simp [parseChar, hs, Decoder.push, hlt]

theorem parseChar_idle (d : Decoder) (hs : d._decode_state = .UNINIT) (b : Nat)
    (hb36 : b ≠ 36) : parseChar d b = some (d, 0) := by
  simp [parseChar, hs, hb36]

theorem feed_cons_of (d d1 d2 : Decoder) (b r : Nat) (bs rs : List Nat)
    (h1 : parseChar d b = some (d1, r)) (h2 : feed d1 bs = some (d2, rs)) :
    feed d (b :: bs) = some (d2, r :: rs) := by
  simp [feed, h1, h2]

theorem feed_append_of (a b : List Nat) (d d1 d2 : Decoder) (r1 r2 : List Nat)
    (h1 : feed d a = some (d1, r1)) (h2 : feed d1 b = some (d2, r2)) :
    feed d (a ++ b) = some (d2, r1 ++ r2) := by
  induction a generalizing d r1 with
  | nil =>
    simp only [feed, Option.some.injEq, Prod.mk.injEq] at h1
    obtain ⟨rfl, rfl⟩ := h1
    simpa using h2
  | cons x a ih =>
    obtain ⟨dx, r, rs1, hx, ha, rfl⟩ := feed_cons_some d x a d1 r1 h1
    have := ih dx rs1 ha
    simpa using feed_cons_of d dx d2 x r (a ++ b) (rs1 ++ r2) hx this

theorem feed_idle (p : List Nat) (hp : ∀ x ∈ p, x ≠ 36) (d : Decoder)
    (hs : d._decode_state = .UNINIT) :
    feed d p = some (d, List.replicate p.length 0) := by
  induction p with
  | nil => rfl
  | cons b p ih =>
    have h1 := parseChar_idle d hs b (hp b (by simp))
    have h2 := ih (fun x hx => hp x (by simp [hx]))
    simpa [List.replicate_succ] using feed_cons_of d d d b 0 p _ h1 h2

/-- Payload bytes that fit are stored one after the other. -/
theorem feed_payload (p : List Nat) (hp : ∀ x ∈ p, x ≠ 36 ∧ x ≠ 42) (d : Decoder)
    (hs : d._decode_state = .GOT_SYNC1)
    (hlt : d._rx_buffer_bytes + p.length + 5 ≤ d._rx_buffer.length) :
    ∃ d1, feed d p = some (d1, List.replicate p.length 0)
      ∧ d1._decode_state = .GOT_SYNC1
      ∧ d1._rx_buffer_bytes = d._rx_buffer_bytes + p.length
      ∧ d1._rx_buffer.length = d._rx_buffer.length
      ∧ d1._rx_buffer.take d1._rx_buffer_bytes = d._rx_buffer.take d._rx_buffer_bytes ++ p := by
  induction p generalizing d with
  | nil => exact ⟨d, rfl, hs, rfl, rfl, by simp⟩
  | cons b p ih =>
    simp only [List.length_cons] at hlt
    have hb := hp b (by simp)
    have h1 := parseChar_store d hs b hb.1 hb.2 (by omega)
    obtain ⟨d1, hf, hs1, hb1, hl1, ht1⟩ :=
      ih (fun x hx => hp x (by simp [hx]))
        ⟨.GOT_SYNC1, d._rx_buffer.set d._rx_buffer_bytes b, d._rx_buffer_bytes + 1⟩ rfl
        (by simp only [List.length_set]; omega)
    refine ⟨d1, ?_, hs1, ?_, ?_, ?_⟩
    · simpa [List.replicate_succ] using feed_cons_of d _ d1 b 0 p _ h1 hf
    · simp only at hb1
      simp only [List.length_cons]
      omega
    · simpa using hl1
    · rw [ht1]
      simp only
      rw [take_succ_set _ _ _ (by omega)]
      simp

/-- Payload bytes that do not fit reset the decoder, and the rest of them is
ignored. -/
theorem feed_overflow (p : List Nat) (hp : ∀ x ∈ p, x ≠ 36 ∧ x ≠ 42) (d : Decoder)
    (hs : d._decode_state = .GOT_SYNC1)
    (hle : d._rx_buffer_bytes + 5 ≤ d._rx_buffer.length)
    (hgt : d._rx_buffer.length < d._rx_buffer_bytes + p.length + 5) :
    ∃ d1, feed d p = some (d1, List.replicate p.length 0)
      ∧ d1._decode_state = .UNINIT ∧ d1._rx_buffer_bytes = 0
      ∧ d1._rx_buffer.length = d._rx_buffer.length := by
  induction p generalizing d with
  | nil =>
    simp only [List.length_nil] at hgt
    omega
  | cons b p ih =>
    simp only [List.length_cons] at hgt
    have hb := hp b (by simp)
    by_cases hfull : d._rx_buffer.length ≤ d._rx_buffer_bytes + 5
    · have h1 := parseChar_reset d hs b hb.1 hfull
      have h2 := feed_idle p (fun x hx => (hp x (by simp [hx])).1)
        ⟨.UNINIT, d._rx_buffer, 0⟩ rfl
      refine ⟨⟨.UNINIT, d._rx_buffer, 0⟩, ?_, rfl, rfl, rfl⟩
      simpa [List.replicate_succ] using feed_cons_of d _ _ b 0 p _ h1 h2
    · have h1 := parseChar_store d hs b hb.1 hb.2 (by omega)
      obtain ⟨d1, hf, hs1, hb1, hl1⟩ := ih (fun x hx => hp x (by simp [hx]))
        ⟨.GOT_SYNC1, d._rx_buffer.set d._rx_buffer_bytes b, d._rx_buffer_bytes + 1⟩ rfl
        (by simp only [List.length_set]; omega) (by simp only [List.length_set]; omega)
      refine ⟨d1, ?_, hs1, hb1, by simpa using hl1⟩
      simpa [List.replicate_succ] using feed_cons_of d _ d1 b 0 p _ h1 hf

theorem replicate_frame (n x : Nat) :
    List.replicate (n + 3) 0 ++ [x] = [0] ++ (List.replicate n 0 ++ [0, 0, x]) := by
  have h : List.replicate (n + 3) 0 = [0] ++ (List.replicate n 0 ++ [0, 0]) := by
    rw [show n + 3 = 1 + (n + 2) by omega, List.replicate_add, List.replicate_add]
    rfl
  rw [h]
  simp

/-- A whole frame: `$`, a payload that fits, `*` and two further bytes. The
decoder returns 0 on every byte but the last, and on the last byte the
frame length exactly when the two bytes are the checksum of the payload. -/
theorem feed_frame (d : Decoder)
    (hs : d._decode_state = .UNINIT ∨ d._decode_state = .GOT_SYNC1)
    (p : List Nat) (hp : IsPayload p) (c1 c2 : Nat)
    (hlen : p.length + 7 ≤ d._rx_buffer.length) :
    ∃ d1, feed d (36 :: p ++ [42, c1, c2])
        = some (d1, List.replicate (p.length + 3) 0
            ++ [if [c1, c2] = hexDigitsOf p then p.length + 4 else 0])
      ∧ d1._decode_state = .UNINIT ∧ d1._rx_buffer_bytes = 0
      ∧ d1._rx_buffer.length = d._rx_buffer.length
      ∧ d1._rx_buffer.take (p.length + 4) = 36 :: p ++ [42, c1, c2] := by
  have hd := parseChar_dollar d hs (by omega)
  obtain ⟨d1, hf1, hs1, hb1, hl1, ht1⟩ := feed_payload p (fun x hx => (hp x hx).2)
    ⟨.GOT_SYNC1, d._rx_buffer.set 0 36, 1⟩ rfl (by simp only [List.length_set]; omega)
  simp only [List.length_set] at hb1 hl1 ht1
  have ht1' : d1._rx_buffer.take d1._rx_buffer_bytes = 36 :: p := by
    rw [ht1, take_succ_set _ _ _ (by omega)]
    simp
  have hstar := parseChar_star d1 hs1 (by omega)
  have hc1 := parseChar_first_cs
    ⟨.GOT_NMEA, d1._rx_buffer.set d1._rx_buffer_bytes 42, d1._rx_buffer_bytes + 1⟩ rfl c1
    (by simp only [List.length_set]; omega)
  simp only at hc1
  obtain ⟨n, hc2⟩ := parseChar_second_cs
    ⟨.GOT_FIRST_CS_BYTE,
      (d1._rx_buffer.set d1._rx_buffer_bytes 42).set (d1._rx_buffer_bytes + 1) c1,
      d1._rx_buffer_bytes + 1 + 1⟩ rfl c2 (by simp only [List.length_set]; omega)
  simp only at hc2
  have hlast := parseChar_last _ p c1 c2 rfl hp.lt (by simp only; omega)
    (by
      simp only
      rw [take_succ_set _ _ _ (by simp only [List.length_set]; omega),
        take_succ_set _ _ _ (by omega), ht1']
      simp) _ n hc2
  obtain ⟨-, -, hl, ht, hn⟩ := hlast
  refine ⟨_, ?_, rfl, rfl, ?_, ht⟩
  · have e : 36 :: p ++ [42, c1, c2] = [36] ++ (p ++ [42, c1, c2]) := by simp
    have e2 : List.replicate (p.length + 3) 0
          ++ [if [c1, c2] = hexDigitsOf p then p.length + 4 else 0]
        = [0] ++ (List.replicate p.length 0 ++ [0, 0, n]) := by
      rw [hn]
      exact replicate_frame _ _
    rw [e, e2]
    refine feed_append_of _ _ d _ _ _ _ (feed_cons_of _ _ _ _ _ _ _ hd rfl) ?_
    refine feed_append_of _ _ _ _ _ _ _ hf1 ?_
    exact feed_cons_of _ _ _ _ _ _ _ hstar
      (feed_cons_of _ _ _ _ _ _ _ hc1 (feed_cons_of _ _ _ _ _ _ _ hc2 rfl))
  · simp only [List.length_set] at hl ⊢
    omega

/-! ### The checksum separates payloads that differ in one byte -/

theorem xorFold_init (p : List Nat) (c : Nat) :
    p.foldl (fun c x => c ^^^ x) c = c ^^^ p.foldl (fun c x => c ^^^ x) 0 := by
  induction p generalizing c with
  | nil => simp
  | cons a p ih =>
    simp only [List.foldl_cons]
    rw [ih (c ^^^ a), ih (0 ^^^ a)]
    simp [Nat.xor_assoc]

theorem xorFold_split (a b : List Nat) (z : Nat) :
    (a ++ z :: b).foldl (fun c x => c ^^^ x) 0
      = (a.foldl (fun c x => c ^^^ x) 0 ^^^ z) ^^^ b.foldl (fun c x => c ^^^ x) 0 := by
  rw [List.foldl_append, List.foldl_cons, xorFold_init b]

theorem xorFold_set_ne (p : List Nat) (j x : Nat) (hj : j < p.length) (hx : x ≠ p[j]) :
    (p.set j x).foldl (fun c x => c ^^^ x) 0 ≠ p.foldl (fun c x => c ^^^ x) 0 := by
  have h1 : p.set j x = p.take j ++ x :: p.drop (j + 1) := by
    rw [List.set_eq_take_append_cons_drop, if_pos hj]
  have h2 : p = p.take j ++ p[j] :: p.drop (j + 1) := by
    conv_lhs => rw [← List.take_append_drop j p]
    rw [List.drop_eq_getElem_cons hj]
  intro h
  rw [h1] at h
  conv_rhs at h => rw [h2]
  rw [xorFold_split, xorFold_split] at h
  exact hx (Nat.xor_right_injective (Nat.xor_left_injective h))

theorem hexTable_inj (i j : Nat) (hi : i < 16) (hj : j < 16)
    (h : (bytes "0123456789ABCDEF").getD i 0 = (bytes "0123456789ABCDEF").getD j 0) :
    i = j := by
  have key : ∀ i < 16, ∀ j < 16,
      (bytes "0123456789ABCDEF").getD i 0 = (bytes "0123456789ABCDEF").getD j 0 → i = j := by
    decide
  exact key i hi j hj h

theorem hexDigitsOf_inj (p q : List Nat) (hp : ∀ x ∈ p, x < 256) (hq : ∀ x ∈ q, x < 256)
    (h : hexDigitsOf p = hexDigitsOf q) :
    p.foldl (fun c x => c ^^^ x) 0 = q.foldl (fun c x => c ^^^ x) 0 := by
  have h1 := xorFold_lt p 0 (by decide) hp
  have h2 := xorFold_lt q 0 (by decide) hq
  unfold hexDigitsOf at h
  simp only [List.cons.injEq, and_true] at h
  have e1 := hexTable_inj _ _ (by omega) (by omega) h.1
  have e2 := hexTable_inj _ _ (Nat.mod_lt _ (by decide)) (Nat.mod_lt _ (by decide)) h.2
  omega

theorem hexTable_ne_dollar (i : Nat) : (bytes "0123456789ABCDEF").getD i 0 ≠ 36 := by
  by_cases hi : i < 16
  · revert i
    decide
  · have : (bytes "0123456789ABCDEF").length ≤ i := by
      have : (bytes "0123456789ABCDEF").length = 16 := by decide
      omega
    rw [List.getD_eq_default _ _ this]
    decide

theorem hexDigitsOf_ne_dollar (p : List Nat) : ∀ x ∈ hexDigitsOf p, x ≠ 36 := by
  intro x hx
  unfold hexDigitsOf at hx
  simp only [List.mem_cons, List.mem_singleton, List.not_mem_nil, or_false] at hx
  rcases hx with hx | hx
  · rw [hx]
    exact hexTable_ne_dollar _
  · rw [hx]
    exact hexTable_ne_dollar _

theorem zeros_cons (n : Nat) : 0 :: List.replicate n 0 = List.replicate (n + 1) 0 := rfl

theorem zeros_append (a b : Nat) :
    List.replicate a 0 ++ List.replicate b 0 = List.replicate (a + b) 0 :=
  (List.replicate_add a b 0).symm

/-- A frame whose payload does not fit: the decoder resets and reports
nothing, whatever follows the `*`, as long as no `$` follows. -/
theorem feed_long (d : Decoder)
    (hs : d._decode_state = .UNINIT ∨ d._decode_state = .GOT_SYNC1)
    (hcap : 6 ≤ d._rx_buffer.length)
    (p : List Nat) (hp : ∀ x ∈ p, x ≠ 36 ∧ x ≠ 42) (t : List Nat) (ht : ∀ x ∈ t, x ≠ 36)
    (hlong : d._rx_buffer.length < p.length + 7) :
    ∃ d1, feed d (36 :: p ++ 42 :: t) = some (d1, List.replicate (p.length + t.length + 2) 0)
      ∧ d1._decode_state = .UNINIT ∧ d1._rx_buffer_bytes = 0
      ∧ d1._rx_buffer.length = d._rx_buffer.length := by
  have hd := parseChar_dollar d hs hcap
  have ht' : ∀ x ∈ 42 :: t, x ≠ 36 := by
    intro x hx
    rcases List.mem_cons.1 hx with hx | hx
    · rw [hx]
      decide
    · exact ht x hx
  by_cases hfit : p.length + 6 ≤ d._rx_buffer.length
  · obtain ⟨d1, hf1, hs1, hb1, hl1, -⟩ := feed_payload p hp
      ⟨.GOT_SYNC1, d._rx_buffer.set 0 36, 1⟩ rfl (by simp only [List.length_set]; omega)
    simp only [List.length_set] at hb1 hl1
    have hstar := parseChar_reset d1 hs1 42 (by decide) (by omega)
    have hidle := feed_idle t ht ⟨.UNINIT, d1._rx_buffer, 0⟩ rfl
    refine ⟨⟨.UNINIT, d1._rx_buffer, 0⟩, ?_, rfl, rfl, hl1⟩
    have := feed_cons_of _ _ _ _ _ _ _ hd
      (feed_append_of _ _ _ _ _ _ _ hf1 (feed_cons_of _ _ _ _ _ _ _ hstar hidle))
    rw [zeros_cons, zeros_append, zeros_cons] at this
    rw [List.cons_append, this]
    rfl
  · obtain ⟨d1, hf1, hs1, hb1, hl1⟩ := feed_overflow p hp
      ⟨.GOT_SYNC1, d._rx_buffer.set 0 36, 1⟩ rfl (by simp only [List.length_set]; omega)
      (by simp only [List.length_set]; omega)
    simp only [List.length_set] at hl1
    have hidle := feed_idle (42 :: t) ht' d1 hs1
    refine ⟨d1, ?_, hs1, hb1, hl1⟩
    have := feed_cons_of _ _ _ _ _ _ _ hd (feed_append_of _ _ _ _ _ _ _ hf1 hidle)
    rw [zeros_append, zeros_cons] at this
    rw [List.cons_append, this]
    rfl

theorem feed_sentence (d : Decoder)
    (hs : d._decode_state = .UNINIT ∨ d._decode_state = .GOT_SYNC1)
    (p : List Nat) (hp : IsPayload p)
    (hlen : (sentence p).length ≤ d._rx_buffer.length - 3) :
    ∃ d1, feed d (sentence p)
        = some (d1, List.replicate ((sentence p).length - 1) 0 ++ [(sentence p).length])
      ∧ d1._decode_state = .UNINIT ∧ d1._rx_buffer_bytes = 0
      ∧ d1._rx_buffer.length = d._rx_buffer.length
      ∧ d1._rx_buffer.take (sentence p).length = sentence p := by
  rw [sentence_length] at hlen ⊢
  obtain ⟨d1, hf, hs1, hb1, hl1, ht1⟩ :=
    feed_frame d hs p hp ((hexDigitsOf p).getD 0 0) ((hexDigitsOf p).getD 1 0) (by omega)
  rw [← hexDigitsOf_eq p, if_pos rfl] at hf
  have e : sentence p
      = 36 :: p ++ [42, (hexDigitsOf p).getD 0 0, (hexDigitsOf p).getD 1 0] := by
    rw [sentence]
    conv_lhs => rw [hexDigitsOf_eq p]
  rw [e]
  exact ⟨d1, hf, hs1, hb1, hl1, ht1⟩

/-- Claim C2 (decoder completeness). Start in state `UNINIT` or `GOT_SYNC1` and
feed the bytes of a sentence `$` + payload + `*` + two checksum characters,
where the payload holds neither `$` nor `*`, the two characters are the
uppercase hexadecimal digits of the XOR of the payload, and the sentence is
at most capacity - 3 bytes long. Then `parseChar` returns 0 on every byte
except the last, returns the sentence length on the last byte, and the
first bytes of the buffer are the sentence. -/
theorem parseChar_complete (d : Decoder)
    (hs : d._decode_state = .UNINIT ∨ d._decode_state = .GOT_SYNC1)
    (payload : List Nat) (hp : IsPayload payload)
    (hlen : (sentence payload).length ≤ d._rx_buffer.length - 3) :
    ∃ d1, feed d (sentence payload)
        = some (d1, List.replicate ((sentence payload).length - 1) 0
            ++ [(sentence payload).length])
      ∧ d1._rx_buffer.take (sentence payload).length = sentence payload := by
  obtain ⟨d1, hf, -, -, -, ht⟩ := feed_sentence d hs payload hp hlen
  exact ⟨d1, hf, ht⟩

/-- Witness for `parseChar_complete`: the sentence `$GPGGA*56` and a buffer
of 12 bytes. -/
theorem parseChar_complete_witness :
    (NMEA_DECODE.UNINIT = NMEA_DECODE.UNINIT ∨ NMEA_DECODE.UNINIT = NMEA_DECODE.GOT_SYNC1)
    ∧ IsPayload (bytes "GPGGA")
    ∧ (sentence (bytes "GPGGA")).length ≤ (List.replicate 12 0).length - 3
    ∧ sentence (bytes "GPGGA") = bytes "$GPGGA*56"
    ∧ ∃ d1, feed ⟨.UNINIT, List.replicate 12 0, 0⟩ (sentence (bytes "GPGGA"))
        = some (d1, List.replicate ((sentence (bytes "GPGGA")).length - 1) 0
            ++ [(sentence (bytes "GPGGA")).length])
      ∧ d1._rx_buffer.take (sentence (bytes "GPGGA")).length = sentence (bytes "GPGGA") :=
  ⟨by decide, by decide, by decide, by decide,
    parseChar_complete ⟨.UNINIT, List.replicate 12 0, 0⟩ (by decide) (bytes "GPGGA")
      (by decide) (by decide)⟩

theorem sentence_set (p : List Nat) (j x : Nat) (hj : j < p.length) :
    (sentence p).set (j + 1) x = 36 :: p.set j x ++ 42 :: hexDigitsOf p := by
  unfold sentence
  rw [List.cons_append, List.set_cons_succ, List.set_append_left _ _ hj, List.cons_append]

theorem sentence_getD (p : List Nat) (j : Nat) (hj : j < p.length) :
    (sentence p).getD (j + 1) 0 = p[j] := by
  unfold sentence
  rw [List.cons_append, List.getD_cons_succ, List.getD_eq_getElem?_getD,
    List.getElem?_append_left hj, List.getElem?_eq_getElem hj]
  rfl

theorem IsPayload.set {p : List Nat} (hp : IsPayload p) (j x : Nat)
    (hx : x < 256) (h1 : x ≠ 36) (h2 : x ≠ 42) : IsPayload (p.set j x) := by
  intro y hy
  rcases List.mem_or_eq_of_mem_set hy with hy | hy
  · exact hp y hy
  · rw [hy]
    exact ⟨hx, h1, h2⟩

/-- Claim C3 as it is written fails when the corrupted byte becomes
a framing character: in `$Ax41*3C` replace `x` by `*`; the decoder sees the
frame `$A*41`, whose checksum is right, and reports it. -/
theorem corruption_to_star_reports :
    IsPayload (bytes "Ax41") ∧ 1 ≤ 2 ∧ 2 ≤ (bytes "Ax41").length
    ∧ sentence (bytes "Ax41") = bytes "$Ax41*3C"
    ∧ 42 ≠ (sentence (bytes "Ax41")).getD 2 0
    ∧ (sentence (bytes "Ax41")).set 2 42 = bytes "$A*41*3C"
    ∧ (feed ⟨.UNINIT, List.replicate 16 0, 0⟩ ((sentence (bytes "Ax41")).set 2 42)).map
        Prod.snd = some [0, 0, 0, 0, 5, 0, 0, 0] := by
  decide

/-- Claim C3, amended (corruption is detected). Take a checksum-valid sentence
and a position strictly between its `$` and its `*`; replace the byte there
by a different byte that is neither `$` nor `*`, leave the checksum
characters as they were, and feed the result from state `UNINIT` into a
buffer of at least 6 bytes. Then `parseChar` returns 0 on every byte. -/
theorem corruption_detected (d : Decoder) (hs : d._decode_state = .UNINIT)
    (hcap : 6 ≤ d._rx_buffer.length)
    (payload : List Nat) (hp : IsPayload payload)
    (k : Nat) (hk1 : 1 ≤ k) (hk2 : k ≤ payload.length)
    (x : Nat) (hx : x < 256) (hne : x ≠ (sentence payload).getD k 0)
    (hx36 : x ≠ 36) (hx42 : x ≠ 42) :
    ∃ d1, feed d ((sentence payload).set k x)
      = some (d1, List.replicate (sentence payload).length 0) := by
  obtain ⟨j, rfl⟩ : ∃ j, k = j + 1 := ⟨k - 1, by omega⟩
  have hj : j < payload.length := by omega
  rw [sentence_getD payload j hj] at hne
  rw [sentence_set payload j x hj, sentence_length]
  have hp' : IsPayload (payload.set j x) := hp.set j x hx hx36 hx42
  have hxor := xorFold_set_ne payload j x hj hne
  have hhex : ¬ (hexDigitsOf payload = hexDigitsOf (payload.set j x)) := by
    intro h
    exact hxor (hexDigitsOf_inj _ _ hp.lt hp'.lt h).symm
  by_cases hfit : (payload.set j x).length + 7 ≤ d._rx_buffer.length
  · obtain ⟨d1, hf, -⟩ := feed_frame d (Or.inl hs) (payload.set j x) hp'
      ((hexDigitsOf payload).getD 0 0) ((hexDigitsOf payload).getD 1 0) hfit
    rw [← hexDigitsOf_eq payload, if_neg hhex] at hf
    refine ⟨d1, ?_⟩
    rw [hf, List.length_set]
    have e : ([0] : List Nat) = List.replicate 1 0 := rfl
    rw [e, zeros_append]
  · obtain ⟨d1, hf, -⟩ := feed_long d (Or.inl hs) hcap (payload.set j x)
      (fun y hy => (hp' y hy).2) (hexDigitsOf payload) (hexDigitsOf_ne_dollar payload)
      (by omega)
    refine ⟨d1, ?_⟩
    rw [hf, List.length_set]
    simp [hexDigitsOf]

/-- Witness for `corruption_detected`: in `$GPGGA*56` the `A` at position 5
becomes `B`. -/
theorem corruption_detected_witness :
    (6 ≤ (List.replicate 12 0).length ∧ IsPayload (bytes "GPGGA")
      ∧ 1 ≤ 5 ∧ 5 ≤ (bytes "GPGGA").length ∧ 66 < 256
      ∧ 66 ≠ (sentence (bytes "GPGGA")).getD 5 0 ∧ 66 ≠ 36 ∧ 66 ≠ 42)
    ∧ ∃ d1, feed ⟨.UNINIT, List.replicate 12 0, 0⟩ ((sentence (bytes "GPGGA")).set 5 66)
      = some (d1, List.replicate (sentence (bytes "GPGGA")).length 0) :=
  ⟨by decide,
    corruption_detected ⟨.UNINIT, List.replicate 12 0, 0⟩ rfl (by decide) (bytes "GPGGA")
      (by decide) 5 (by decide) (by decide) 66 (by decide) (by decide) (by decide)
      (by decide)⟩

/-- Claim C4 (overflow reset). In a buffer of at least 6 bytes, start in state
`UNINIT` or `GOT_SYNC1` and feed `$` followed by more than capacity - 5
bytes none of which is `$` or `*`. No call returns a frame, the decoder ends
in state `UNINIT` with byte count 0, and every checksum-valid sentence of at
most capacity - 3 bytes fed afterwards is reported on its last byte. -/
theorem overflow_reset (d : Decoder)
    (hs : d._decode_state = .UNINIT ∨ d._decode_state = .GOT_SYNC1)
    (hcap : 6 ≤ d._rx_buffer.length)
    (junk : List Nat) (hj : ∀ x ∈ junk, x ≠ 36 ∧ x ≠ 42)
    (hlong : d._rx_buffer.length - 5 < junk.length) :
    ∃ d1, feed d (36 :: junk) = some (d1, List.replicate (junk.length + 1) 0)
      ∧ d1._decode_state = .UNINIT ∧ d1._rx_buffer_bytes = 0
      ∧ ∀ q, IsPayload q → (sentence q).length ≤ d._rx_buffer.length - 3 →
          ∃ d2, feed d1 (sentence q)
            = some (d2, List.replicate ((sentence q).length - 1) 0
                ++ [(sentence q).length]) := by
  have hd := parseChar_dollar d hs hcap
  obtain ⟨d1, hf1, hs1, hb1, hl1⟩ := feed_overflow junk hj
    ⟨.GOT_SYNC1, d._rx_buffer.set 0 36, 1⟩ rfl (by simp only [List.length_set]; omega)
    (by simp only [List.length_set]; omega)
  simp only [List.length_set] at hl1
  refine ⟨d1, feed_cons_of _ _ _ _ _ _ _ hd hf1, hs1, hb1, ?_⟩
  intro q hq hlen
  obtain ⟨d2, hf2, -⟩ := feed_sentence d1 (Or.inl hs1) q hq (by rw [hl1]; exact hlen)
  exact ⟨d2, hf2⟩

/-- Witness for `overflow_reset`: a buffer of 12 bytes and 8 payload bytes
after the `$`. -/
theorem overflow_reset_witness :
    ((NMEA_DECODE.UNINIT = NMEA_DECODE.UNINIT ∨ NMEA_DECODE.UNINIT = NMEA_DECODE.GOT_SYNC1)
      ∧ 6 ≤ (List.replicate 12 0).length
      ∧ (∀ x ∈ bytes "GPGGA,12", x ≠ 36 ∧ x ≠ 42)
      ∧ (List.replicate 12 0).length - 5 < (bytes "GPGGA,12").length)
    ∧ ∃ d1, feed ⟨.UNINIT, List.replicate 12 0, 0⟩ (36 :: bytes "GPGGA,12")
        = some (d1, List.replicate ((bytes "GPGGA,12").length + 1) 0)
      ∧ d1._decode_state = .UNINIT ∧ d1._rx_buffer_bytes = 0
      ∧ ∀ q, IsPayload q → (sentence q).length ≤ (List.replicate 12 0).length - 3 →
          ∃ d2, feed d1 (sentence q)
            = some (d2, List.replicate ((sentence q).length - 1) 0
                ++ [(sentence q).length]) :=
  ⟨by decide,
    overflow_reset ⟨.UNINIT, List.replicate 12 0, 0⟩ (by decide) (by decide)
      (bytes "GPGGA,12") (by decide) (by decide)⟩

/-! ### The byte count never reaches the end of the buffer -/

theorem parseChar_bounded (d : Decoder) (b : Nat) (hcap : 6 ≤ d._rx_buffer.length)
    (hb : d.Bounded) :
    ∃ d1 n, parseChar d b = some (d1, n) ∧ d1.Bounded
      ∧ d1._rx_buffer.length = d._rx_buffer.length := by
  unfold Decoder.Bounded at hb
  cases hs : d._decode_state with
  | UNINIT =>
    by_cases hb36 : b = 36
    · subst hb36
      refine ⟨_, 0, parseChar_dollar d (Or.inl hs) hcap, ?_, by simp⟩
      simp only [Decoder.Bounded, List.length_set]
      omega
    · refine ⟨d, 0, parseChar_idle d hs b hb36, ?_, rfl⟩
      unfold Decoder.Bounded
      rw [hs] at hb ⊢
      exact hb
  | GOT_SYNC1 =>
    rw [hs] at hb
    simp only at hb
    by_cases hb36 : b = 36
    · subst hb36
      refine ⟨_, 0, parseChar_dollar d (Or.inr hs) hcap, ?_, by simp⟩
      simp only [Decoder.Bounded, List.length_set]
      omega
    · by_cases hfull : d._rx_buffer.length ≤ d._rx_buffer_bytes + 5
      · exact ⟨_, 0, parseChar_reset d hs b hb36 hfull, rfl, rfl⟩
      · by_cases hb42 : b = 42
        · subst hb42
          refine ⟨_, 0, parseChar_star d hs (by omega), ?_, by simp⟩
          simp only [Decoder.Bounded, List.length_set]
          omega
        · refine ⟨_, 0, parseChar_store d hs b hb36 hb42 (by omega), ?_, by simp⟩
          simp only [Decoder.Bounded, List.length_set]
          omega
  | GOT_NMEA =>
    rw [hs] at hb
    simp only at hb
    refine ⟨_, 0, parseChar_first_cs d hs b (by omega), ?_, by simp⟩
    simp only [Decoder.Bounded, List.length_set]
    omega
  | GOT_FIRST_CS_BYTE =>
    rw [hs] at hb
    simp only at hb
    obtain ⟨n, hn⟩ := parseChar_second_cs d hs b (by omega)
    exact ⟨_, n, hn, rfl, by simp⟩

theorem feed_bounded (bs : List Nat) (d : Decoder) (hcap : 6 ≤ d._rx_buffer.length)
    (hb : d.Bounded) :
    ∃ d1 rs, feed d bs = some (d1, rs) ∧ d1.Bounded
      ∧ d1._rx_buffer.length = d._rx_buffer.length := by
  induction bs generalizing d with
  | nil => exact ⟨d, [], rfl, hb, rfl⟩
  | cons b bs ih =>
    obtain ⟨d1, n, h1, hb1, hl1⟩ := parseChar_bounded d b hcap hb
    obtain ⟨d2, rs, h2, hb2, hl2⟩ := ih d1 (by omega) hb1
    exact ⟨d2, n :: rs, feed_cons_of _ _ _ _ _ _ _ h1 h2, hb2, by omega⟩

theorem Decoder.Bounded.le (d : Decoder) (hb : d.Bounded) :
    d._rx_buffer_bytes ≤ d._rx_buffer.length - 3 := by
  unfold Decoder.Bounded at hb
  cases hs : d._decode_state <;> rw [hs] at hb <;> simp only at hb <;> omega

/-- Claim C5 (frame-buffer bound). With a buffer of at least 6 bytes, feed any
byte sequence to a decoder in its initial state (`UNINIT`, byte count 0).
Every call is defined, which in this model says that each store of
`parseChar` was at an index below the capacity, and after every call the
byte count is at most capacity - 3; the capacity itself never changes. -/
theorem rx_buffer_bound (d0 : Decoder) (h0 : d0._decode_state = .UNINIT)
    (hb0 : d0._rx_buffer_bytes = 0) (hcap : 6 ≤ d0._rx_buffer.length) (bs : List Nat) :
    ∃ d rs, feed d0 bs = some (d, rs)
      ∧ d._rx_buffer_bytes ≤ d0._rx_buffer.length - 3
      ∧ d._rx_buffer.length = d0._rx_buffer.length := by
  have hB : d0.Bounded := by
    unfold Decoder.Bounded
    rw [h0]
    exact hb0
  obtain ⟨d, rs, hf, hb, hl⟩ := feed_bounded bs d0 hcap hB
  exact ⟨d, rs, hf, by rw [← hl]; exact Decoder.Bounded.le d hb, hl⟩

/-- Witness for `rx_buffer_bound`: a buffer of 6 bytes fed `$GP*00$`. -/
theorem rx_buffer_bound_witness :
    (NMEA_DECODE.UNINIT = NMEA_DECODE.UNINIT ∧ 0 = 0 ∧ 6 ≤ (List.replicate 6 0).length)
    ∧ ∃ d rs, feed ⟨.UNINIT, List.replicate 6 0, 0⟩ (bytes "$GP*00$") = some (d, rs)
      ∧ d._rx_buffer_bytes ≤ (List.replicate 6 0).length - 3
      ∧ d._rx_buffer.length = (List.replicate 6 0).length :=
  ⟨by decide,
    rx_buffer_bound ⟨.UNINIT, List.replicate 6 0, 0⟩ rfl rfl (by decide) (bytes "$GP*00$")⟩

/-! ## Properties of the sentence parser -/

theorem finish_zero (s : GPSDriverNMEA) : finish s 0 = (s, 0) := by
  simp [finish]

theorem tagIs_eq_false (buf : List Nat) (tag : String) :
    tagIs buf tag = false ↔ frameTag buf ≠ bytes tag := by
  unfold tagIs
  exact beq_eq_false_iff_ne

theorem tagIs_of_tag (buf : List Nat) (t u : String) (h : frameTag buf = bytes t) :
    tagIs buf u = (bytes t == bytes u) := by
  unfold tagIs
  rw [h]

/-- Claim C6 (frames that match no sentence case are no-ops). For every driver
state and buffer: if `len < 7`, or if the bytes 3..5 of the frame are none
of `ZDA`, `GGA`, `GNS`, `RMC`, `GST`, `GSA`, `GSV`, `VTG`, then
`handleMessage` returns 0 and the whole driver is as before: position
record, satellite-info record, both rate counters, the time of the last
time fix, and the list of `setClock` calls. -/
theorem handleMessage_no_case (E : Env) (s : GPSDriverNMEA) (len : Int)
    (h : len < 7 ∨
      frameTag s.decoder._rx_buffer
        ∉ [bytes "ZDA", bytes "GGA", bytes "GNS", bytes "RMC", bytes "GST", bytes "GSA",
            bytes "GSV", bytes "VTG"]) :
    handleMessage E s len = some (s, 0) := by
  unfold handleMessage
  by_cases hlen : len < 7
  · simp [hlen]
  · rcases h with h | h
    · exact absurd h hlen
    · simp only [List.mem_cons, List.mem_singleton, List.not_mem_nil, or_false,
        not_or] at h
      obtain ⟨h1, h2, h3, h4, h5, h6, h7, h8⟩ := h
      have t1 := (tagIs_eq_false _ _).2 h1
      have t2 := (tagIs_eq_false _ _).2 h2
      have t3 := (tagIs_eq_false _ _).2 h3
      have t4 := (tagIs_eq_false _ _).2 h4
      have t5 := (tagIs_eq_false _ _).2 h5
      have t6 := (tagIs_eq_false _ _).2 h6
      have t7 := (tagIs_eq_false _ _).2 h7
      have t8 := (tagIs_eq_false _ _).2 h8
      simp only [hlen, t1, t2, t3, t4, t5, t6, t7, t8, Bool.false_eq_true, false_and,
        ↓reduceIte, finish_zero]

/-- Witness for `handleMessage_no_case`: the frame `$GPXYZ,1*00`. -/
theorem handleMessage_no_case_witness :
    ((11 : Int) < 7 ∨
      frameTag (driverWith (bytes "$GPXYZ,1*00")).decoder._rx_buffer
        ∉ [bytes "ZDA", bytes "GGA", bytes "GNS", bytes "RMC", bytes "GST", bytes "GSA",
            bytes "GSV", bytes "VTG"])
    ∧ handleMessage exampleEnv (driverWith (bytes "$GPXYZ,1*00")) 11
      = some (driverWith (bytes "$GPXYZ,1*00"), 0) :=
  ⟨by decide,
    handleMessage_no_case exampleEnv (driverWith (bytes "$GPXYZ,1*00")) 11 (by decide)⟩

theorem tag_table :
    (bytes "ZDA" == bytes "GGA") = false ∧ (bytes "ZDA" == bytes "GNS") = false
    ∧ (bytes "ZDA" == bytes "RMC") = false ∧ (bytes "ZDA" == bytes "GST") = false
    ∧ (bytes "ZDA" == bytes "GSA") = false ∧ (bytes "ZDA" == bytes "GSV") = false
    ∧ (bytes "ZDA" == bytes "VTG") = false ∧ (bytes "ZDA" == bytes "ZDA") = true
    ∧ (bytes "GGA" == bytes "ZDA") = false ∧ (bytes "GGA" == bytes "GNS") = false
    ∧ (bytes "GGA" == bytes "RMC") = false ∧ (bytes "GGA" == bytes "GST") = false
    ∧ (bytes "GGA" == bytes "GSA") = false ∧ (bytes "GGA" == bytes "GSV") = false
    ∧ (bytes "GGA" == bytes "VTG") = false ∧ (bytes "GGA" == bytes "GGA") = true
    ∧ (bytes "VTG" == bytes "ZDA") = false ∧ (bytes "VTG" == bytes "GGA") = false
    ∧ (bytes "VTG" == bytes "GNS") = false ∧ (bytes "VTG" == bytes "RMC") = false
    ∧ (bytes "VTG" == bytes "GST") = false ∧ (bytes "VTG" == bytes "GSA") = false
    ∧ (bytes "VTG" == bytes "GSV") = false ∧ (bytes "VTG" == bytes "VTG") = true
    ∧ (bytes "GSV" == bytes "ZDA") = false ∧ (bytes "GSV" == bytes "GGA") = false
    ∧ (bytes "GSV" == bytes "GNS") = false ∧ (bytes "GSV" == bytes "RMC") = false
    ∧ (bytes "GSV" == bytes "GST") = false ∧ (bytes "GSV" == bytes "GSA") = false
    ∧ (bytes "GSV" == bytes "GSV") = true := by
  decide

/-- A frame whose tag fits a branch that asks for a comma count, with
another count, falls through every branch. -/
theorem handleMessage_wrong_count (E : Env) (s : GPSDriverNMEA) (len : Int)
    (h : (frameTag s.decoder._rx_buffer = bytes "ZDA"
          ∧ countCommas s.decoder._rx_buffer len ≠ 6)
      ∨ (frameTag s.decoder._rx_buffer = bytes "GGA"
          ∧ countCommas s.decoder._rx_buffer len ≠ 14)
      ∨ (frameTag s.decoder._rx_buffer = bytes "VTG"
          ∧ countCommas s.decoder._rx_buffer len ≠ 9)) :
    handleMessage E s len = some (s, 0) := by
  unfold handleMessage
  by_cases hlen : len < 7
  · simp [hlen]
  · obtain ⟨z1, z2, z3, z4, z5, z6, z7, z8, g1, g2, g3, g4, g5, g6, g7, g8,
      v1, v2, v3, v4, v5, v6, v7, v8, -⟩ := tag_table
    rcases h with ⟨ht, hc⟩ | ⟨ht, hc⟩ | ⟨ht, hc⟩
    · simp only [hlen, tagIs_of_tag _ _ _ ht, z1, z2, z3, z4, z5, z6, z7, z8, hc,
        Bool.false_eq_true, false_and, and_false, ↓reduceIte, finish_zero]
    · simp only [hlen, tagIs_of_tag _ _ _ ht, g1, g2, g3, g4, g5, g6, g7, g8, hc,
        Bool.false_eq_true, false_and, and_false, ↓reduceIte, finish_zero]
    · simp only [hlen, tagIs_of_tag _ _ _ ht, v1, v2, v3, v4, v5, v6, v7, v8, hc,
        Bool.false_eq_true, false_and, and_false, ↓reduceIte, finish_zero]

/-- A GSV frame of another talker than `GP`, or with a message number
outside `1 .. all_msg_num`, is left by one of the two `return 0`. -/
theorem handleMessage_gsv_rejected (E : Env) (s : GPSDriverNMEA) (len : Int)
    (ht : frameTag s.decoder._rx_buffer = bytes "GSV")
    (h : frameTalker s.decoder._rx_buffer ≠ bytes "$GP"
      ∨ (gsvHeader s.decoder._rx_buffer).2.1.1 < 1
      ∨ (gsvHeader s.decoder._rx_buffer).2.1.1 > (gsvHeader s.decoder._rx_buffer).1.1) :
    handleMessage E s len = some (s, 0) := by
  unfold handleMessage
  by_cases hlen : len < 7
  · simp [hlen]
  · obtain ⟨-, -, -, -, -, -, -, -, -, -, -, -, -, -, -, -,
      -, -, -, -, -, -, -, -, s1, s2, s3, s4, s5, s6, s7⟩ := tag_table
    simp only [hlen, tagIs_of_tag _ _ _ ht, s1, s2, s3, s4, s5, s6, s7,
      Bool.false_eq_true, false_and, ↓reduceIte]
    unfold handleGSV
    simp only []
    by_cases hp : frameTalker s.decoder._rx_buffer ≠ bytes "$GP"
    · rw [if_pos hp]
      rfl
    · have hm : (gsvHeader s.decoder._rx_buffer).2.1.1 < 1
          ∨ (gsvHeader s.decoder._rx_buffer).2.1.1 > (gsvHeader s.decoder._rx_buffer).1.1 := by
        rcases h with h | h
        · exact absurd h hp
        · exact h
      rw [if_neg hp, if_pos hm]
      rfl

/-- What the GGA branch does with the driver, as far as the claims about
it go: the call returns 1, and `fix_type` follows `fix_quality`. -/
theorem handleMessage_gga (E : Env) (s : GPSDriverNMEA) (len : Int) (hlen : 7 ≤ len)
    (ht : frameTag s.decoder._rx_buffer = bytes "GGA")
    (hc : countCommas s.decoder._rx_buffer len = 14) :
    handleMessage E s len = some (finish (handleGGA E s) 1) := by
  unfold handleMessage
  have hlen' : ¬ len < 7 := by omega
  obtain ⟨-, -, -, -, -, -, -, -, g1, g2, g3, g4, g5, g6, g7, g8, -⟩ := tag_table
  simp only [hlen', tagIs_of_tag _ _ _ ht, g1, g8, hc, Bool.false_eq_true, false_and,
    and_self, ↓reduceIte]

theorem takeWhile_append_stop (p : Nat → Bool) (a t : List Nat) (c : Nat) (hc : p c = false) :
    (a ++ c :: t).takeWhile p = a.takeWhile p := by
  induction a with
  | nil => simp [List.takeWhile, hc]
  | cons x a ih =>
    simp only [List.cons_append, List.takeWhile_cons, ih]

theorem takeWhile_length_le (p : Nat → Bool) (a : List Nat) :
    (a.takeWhile p).length ≤ a.length :=
  (List.takeWhile_sublist p).length_le

theorem signOf_le (a : List Nat) : (signOf a).2 ≤ a.length := by
  unfold signOf
  split <;> simp

theorem signOf_comma (a t : List Nat) : signOf (a ++ 44 :: t) = signOf a := by
  cases a with
  | nil => simp [signOf]
  | cons x a =>
    simp only [List.cons_append]
    unfold signOf
    split <;> simp_all

theorem strtol_comma (a t : List Nat) : strtol (a ++ 44 :: t) = strtol a := by
  unfold strtol
  have h1 : (a ++ 44 :: t).takeWhile isspace = a.takeWhile isspace :=
    takeWhile_append_stop _ _ _ _ (by decide)
  have hw := takeWhile_length_le isspace a
  have h2 : (a ++ 44 :: t).drop (a.takeWhile isspace).length
      = a.drop (a.takeWhile isspace).length ++ 44 :: t :=
    List.drop_append_of_le_length hw
  have hs := signOf_le (a.drop (a.takeWhile isspace).length)
  rw [List.length_drop] at hs
  have h3 : (a ++ 44 :: t).drop
        ((a.takeWhile isspace).length + (signOf (a.drop (a.takeWhile isspace).length)).2)
      = a.drop ((a.takeWhile isspace).length
          + (signOf (a.drop (a.takeWhile isspace).length)).2) ++ 44 :: t :=
    List.drop_append_of_le_length (by omega)
  simp only [h1, h2, signOf_comma, h3, takeWhile_append_stop isdigit _ _ 44 (by decide)]

theorem expOf_comma (a t : List Nat) : expOf (a ++ 44 :: t) = expOf a := by
  cases a with
  | nil => simp [expOf]
  | cons c r =>
    simp only [List.cons_append, expOf]
    have hs := signOf_le r
    have h1 : (r ++ 44 :: t).drop (signOf r).2 = r.drop (signOf r).2 ++ 44 :: t :=
      List.drop_append_of_le_length hs
    simp only [signOf_comma, h1, takeWhile_append_stop isdigit _ _ 44 (by decide)]

theorem dot_comma (a t : List Nat) :
    ((a ++ 44 :: t).head? == some 46) = (a.head? == some 46) := by
  cases a with
  | nil => rfl
  | cons x a => rfl

theorem frac_comma (a t : List Nat) :
    (if (a.head? == some 46) = true then ((a ++ 44 :: t).drop 1).takeWhile isdigit else [])
      = (if (a.head? == some 46) = true then (a.drop 1).takeWhile isdigit else []) := by
  cases a with
  | nil => simp
  | cons x a =>
    simp only [List.cons_append, List.drop_succ_cons, List.drop_zero,
      takeWhile_append_stop isdigit _ _ 44 (by decide)]

theorem frac_le (a : List Nat) :
    (if (a.head? == some 46) = true then
        1 + (if (a.head? == some 46) = true then (a.drop 1).takeWhile isdigit else []).length
      else 0) ≤ a.length := by
  cases a with
  | nil => simp
  | cons x a =>
    split
    · simp only [List.drop_succ_cons, List.drop_zero, List.length_cons]
      have := takeWhile_length_le isdigit a
      omega
    · omega

theorem strtod_comma (a t : List Nat) : strtod (a ++ 44 :: t) = strtod a := by
  unfold strtod
  have h1 : (a ++ 44 :: t).takeWhile isspace = a.takeWhile isspace :=
    takeWhile_append_stop _ _ _ _ (by decide)
  have hw := takeWhile_length_le isspace a
  have h2 : (a ++ 44 :: t).drop (a.takeWhile isspace).length
      = a.drop (a.takeWhile isspace).length ++ 44 :: t :=
    List.drop_append_of_le_length hw
  have hs := signOf_le (a.drop (a.takeWhile isspace).length)
  rw [List.length_drop] at hs
  have h3 : (a ++ 44 :: t).drop
        ((a.takeWhile isspace).length + (signOf (a.drop (a.takeWhile isspace).length)).2)
      = a.drop ((a.takeWhile isspace).length
          + (signOf (a.drop (a.takeWhile isspace).length)).2) ++ 44 :: t :=
    List.drop_append_of_le_length (by omega)
  simp only [h1, h2, signOf_comma, h3, takeWhile_append_stop isdigit _ _ 44 (by decide)]
  generalize a.drop ((a.takeWhile isspace).length
    + (signOf (a.drop (a.takeWhile isspace).length)).2) = a1
  have hi := takeWhile_length_le isdigit a1
  have h4 : (a1 ++ 44 :: t).drop (a1.takeWhile isdigit).length
      = a1.drop (a1.takeWhile isdigit).length ++ 44 :: t :=
    List.drop_append_of_le_length hi
  simp only [h4, dot_comma, frac_comma]
  generalize a1.drop (a1.takeWhile isdigit).length = a2
  have hf := frac_le a2
  have h5 : (a2 ++ 44 :: t).drop
        (if (a2.head? == some 46) = true then
          1 + (if (a2.head? == some 46) = true then (a2.drop 1).takeWhile isdigit
            else []).length
        else 0)
      = a2.drop
        (if (a2.head? == some 46) = true then
          1 + (if (a2.head? == some 46) = true then (a2.drop 1).takeWhile isdigit
            else []).length
        else 0) ++ 44 :: t :=
    List.drop_append_of_le_length hf
  simp only [h5, expOf_comma]

theorem drop_of_mem_comma (x tail : List Nat) (n : Nat) (h : 44 ∈ x.drop n) :
    n < x.length ∧ ∃ a t, x.drop n = a ++ 44 :: t ∧ (x ++ tail).drop n = a ++ 44 :: (t ++ tail) := by
  have hn : n < x.length := by
    by_contra hge
    rw [List.drop_eq_nil_of_le (by omega)] at h
    cases h
  obtain ⟨a, t, hat⟩ := List.append_of_mem h
  refine ⟨hn, a, t, hat, ?_⟩
  rw [List.drop_append_of_le_length (by omega), hat]
  simp

theorem getD_append_lt (x tail : List Nat) (n : Nat) (h : n < x.length) :
    (x ++ tail).getD n 0 = x.getD n 0 := by
  simp [List.getD_eq_getElem?_getD, List.getElem?_append_left h]

/-- A `strtod` field statement gives the same result in a longer buffer when
a comma follows the cursor in the shorter one. -/
theorem fieldD_append (x tail : List Nat) (p : Nat) (d : ℚ) (h : 44 ∈ x.drop (p + 1)) :
    fieldD (x ++ tail) p d = fieldD x p d := by
  obtain ⟨hn, a, t, h1, h2⟩ := drop_of_mem_comma x tail (p + 1) h
  unfold fieldD
  rw [getD_append_lt x tail _ hn, h1, h2, strtod_comma, strtod_comma]

theorem fieldL_append (x tail : List Nat) (p : Nat) (d : Int) (h : 44 ∈ x.drop (p + 1)) :
    fieldL (x ++ tail) p d = fieldL x p d := by
  obtain ⟨hn, a, t, h1, h2⟩ := drop_of_mem_comma x tail (p + 1) h
  unfold fieldL
  rw [getD_append_lt x tail _ hn, h1, h2, strtol_comma, strtol_comma]

theorem fieldC_append (x tail : List Nat) (p : Nat) (d : Nat) (h : 44 ∈ x.drop (p + 1)) :
    fieldC (x ++ tail) p d = fieldC x p d := by
  obtain ⟨hn, -⟩ := drop_of_mem_comma x tail (p + 1) h
  unfold fieldC
  rw [getD_append_lt x tail _ hn]

/-! ### The GGA example sentence -/

theorem ggaFields_reference (tail : List Nat) :
    ggaFields (ggaReference ++ tail) = ggaFields ggaReference := by
  unfold ggaFields
  simp (disch := decide) only [fieldD_append, fieldC_append, fieldL_append]

theorem ggaReference_values :
    (ggaFields ggaReference).lat = 372346587704 / 100000000
    ∧ (ggaFields ggaReference).ns = 78
    ∧ (ggaFields ggaReference).lon = 1220226957864 / 100000000
    ∧ (ggaFields ggaReference).ew = 87
    ∧ (ggaFields ggaReference).fix_quality = 2
    ∧ (ggaFields ggaReference).hdop = 6 / 5
    ∧ (ggaFields ggaReference).alt = 18893 / 1000 := by
  decide!

theorem ggaReference_converted :
    degMin (372346587704 / 100000000) = 373910979
    ∧ degMin (-(1220226957864 / 100000000)) = -1220378263
    ∧ altOfDouble (18893 / 1000) = 18893 :=
  ⟨by decide!, by decide!, by decide!⟩

theorem ggaReference_frame (buf : List Nat) (h : buf.take 87 = ggaReference) :
    frameTag buf = bytes "GGA" ∧ countCommas buf 87 = 14
    ∧ ggaFields buf = ggaFields ggaReference := by
  have e : buf = ggaReference ++ buf.drop 87 := by
    rw [← h]
    exact (List.take_append_drop 87 buf).symm
  refine ⟨?_, ?_, ?_⟩
  · unfold frameTag
    rw [getD_of_take buf _ 87 3 h (by decide), getD_of_take buf _ 87 4 h (by decide),
      getD_of_take buf _ 87 5 h (by decide)]
    decide
  · unfold countCommas
    rw [show ((87 : Int).toNat) = 87 from rfl, h]
    decide
  · rw [e]
    exact ggaFields_reference _

/-- What parsing the GGA example sentence stores, for every environment and
every driver whose buffer starts with the sentence. -/
theorem ggaReference_parsed (E : Env) (s : GPSDriverNMEA)
    (h : s.decoder._rx_buffer.take 87 = ggaReference) :
    ∃ s1, handleMessage E s 87 = some (s1, 1)
      ∧ s1._gps_position.lat = 373910979 ∧ s1._gps_position.lon = -1220378263
      ∧ s1._gps_position.alt = 18893 ∧ s1._gps_position.hdop = 6 / 5
      ∧ s1._gps_position.fix_type = 4 := by
  obtain ⟨ht, hc, hf⟩ := ggaReference_frame s.decoder._rx_buffer h
  obtain ⟨v1, v2, v3, v4, v5, v6, v7⟩ := ggaReference_values
  obtain ⟨c1, c2, c3⟩ := ggaReference_converted
  refine ⟨(finish (handleGGA E s) 1).1, ?_, ?_, ?_, ?_, ?_, ?_⟩
  · rw [handleMessage_gga E s 87 (by decide) ht hc]
    simp [finish]
  all_goals
    simp only [finish, handleGGA, show (1 : Int) > 0 by decide, ↓reduceIte, hf, v1, v2, v3,
      v4, v5, v6, v7, show ¬ ((78 : Nat) = 83) by decide, c1, c2, c3]
    try decide

theorem ggaReference_sentence :
    ggaReference
      = sentence (bytes
          "GPGGA,172814.0,3723.46587704,N,12202.26957864,W,2,6,1.2,18.893,M,-25.669,M,2.0,0031")
    ∧ IsPayload (bytes
          "GPGGA,172814.0,3723.46587704,N,12202.26957864,W,2,6,1.2,18.893,M,-25.669,M,2.0,0031")
    ∧ ggaReference.length = 87 := by
  decide!

/-- Claim C9 (GGA reference sentence: latitude, altitude, HDOP). For every
environment and every driver whose decoder is in state `UNINIT` with a
buffer of at least 90 bytes: feeding the sentence
`$GPGGA,172814.0,3723.46587704,N,12202.26957864,W,2,6,1.2,18.893,M,-25.669,M,2.0,0031*4F`
byte by byte makes `parseChar` return 0 on the first 86 bytes and the
length 87 on the last one, and `handleMessage` on that frame returns 1 and
stores a latitude within one unit of 37.39109795e7, the altitude 18893 and
the HDOP 1.2 (the value of the text, which the `float` member holds
rounded). -/
theorem gga_reference_decoded (E : Env) (s : GPSDriverNMEA)
    (hs : s.decoder._decode_state = .UNINIT) (hcap : 90 ≤ s.decoder._rx_buffer.length) :
    ∃ d s1, feed s.decoder ggaReference = some (d, List.replicate 86 0 ++ [87])
      ∧ handleMessage E { s with decoder := d } 87 = some (s1, 1)
      ∧ |(s1._gps_position.lat : ℚ) - 3739109795 / 10| ≤ 1
      ∧ s1._gps_position.alt = 18893
      ∧ s1._gps_position.hdop = 6 / 5 := by
  obtain ⟨e, hp, hl⟩ := ggaReference_sentence
  obtain ⟨d, hf, -, -, -, ht⟩ := feed_sentence s.decoder (Or.inl hs) _ hp
    (by rw [← e, hl]; omega)
  rw [← e, hl] at hf ht
  obtain ⟨s1, h1, hlat, -, halt, hhdop, -⟩ := ggaReference_parsed E { s with decoder := d } ht
  refine ⟨d, s1, hf, h1, ?_, halt, hhdop⟩
  rw [hlat]
  norm_num [abs_le]

/-- Witness for `gga_reference_decoded`: a driver with a buffer of 90
bytes. -/
theorem gga_reference_decoded_witness :
    ((driverWith (List.replicate 90 0)).decoder._decode_state = .UNINIT
      ∧ 90 ≤ (driverWith (List.replicate 90 0)).decoder._rx_buffer.length)
    ∧ ∃ d s1, feed (driverWith (List.replicate 90 0)).decoder ggaReference
        = some (d, List.replicate 86 0 ++ [87])
      ∧ handleMessage exampleEnv { driverWith (List.replicate 90 0) with decoder := d } 87
        = some (s1, 1)
      ∧ |(s1._gps_position.lat : ℚ) - 3739109795 / 10| ≤ 1
      ∧ s1._gps_position.alt = 18893
      ∧ s1._gps_position.hdop = 6 / 5 :=
  ⟨⟨rfl, by decide⟩,
    gga_reference_decoded exampleEnv (driverWith (List.replicate 90 0)) rfl (by decide)⟩

/-- Claim C10 as it is written fails: the longitude stored for the
GGA example sentence is -1220378263, which is 66666.8 units away from
-122.04449298e7. -/
theorem gga_reference_longitude_differs :
    ∃ s1, handleMessage exampleEnv (driverWith ggaReference) 87 = some (s1, 1)
      ∧ s1._gps_position.lon = -1220378263
      ∧ ¬ (|(s1._gps_position.lon : ℚ) - (-12204449298 / 10)| ≤ 1) := by
  obtain ⟨s1, h1, -, hlon, -⟩ :=
    ggaReference_parsed exampleEnv (driverWith ggaReference) (by decide)
  refine ⟨s1, h1, hlon, ?_⟩
  rw [hlon]
  norm_num [abs_le]

/-- Claim C10, amended (GGA reference sentence: longitude). For every
environment and every driver whose buffer starts with the sentence
`$GPGGA,172814.0,3723.46587704,N,12202.26957864,W,2,6,1.2,18.893,M,-25.669,M,2.0,0031*4F`,
`handleMessage` stores the longitude -1220378263, which is within one unit
of -122.03782631e7: 122 degrees and 2.26957864 minutes, negative because of
the hemisphere `W`. -/
theorem gga_reference_longitude (E : Env) (s : GPSDriverNMEA)
    (h : s.decoder._rx_buffer.take 87 = ggaReference) :
    ∃ s1, handleMessage E s 87 = some (s1, 1)
      ∧ s1._gps_position.lon = -1220378263
      ∧ |(s1._gps_position.lon : ℚ) - (-12203782631 / 10)| ≤ 1 := by
  obtain ⟨s1, h1, -, hlon, -⟩ := ggaReference_parsed E s h
  refine ⟨s1, h1, hlon, ?_⟩
  rw [hlon]
  norm_num [abs_le]

/-- Witness for `gga_reference_longitude`: the buffer holds the sentence and
nothing else. -/
theorem gga_reference_longitude_witness :
    (driverWith ggaReference).decoder._rx_buffer.take 87 = ggaReference
    ∧ ∃ s1, handleMessage exampleEnv (driverWith ggaReference) 87 = some (s1, 1)
      ∧ s1._gps_position.lon = -1220378263
      ∧ |(s1._gps_position.lon : ℚ) - (-12203782631 / 10)| ≤ 1 :=
  ⟨by decide, gga_reference_longitude exampleEnv (driverWith ggaReference) (by decide)⟩

/-! ### The branch that each tag selects -/

theorem tag_table_rest :
    (bytes "GNS" == bytes "ZDA") = false ∧ (bytes "GNS" == bytes "GGA") = false
    ∧ (bytes "GNS" == bytes "GNS") = true
    ∧ (bytes "RMC" == bytes "ZDA") = false ∧ (bytes "RMC" == bytes "GGA") = false
    ∧ (bytes "RMC" == bytes "GNS") = false ∧ (bytes "RMC" == bytes "RMC") = true
    ∧ (bytes "GST" == bytes "ZDA") = false ∧ (bytes "GST" == bytes "GGA") = false
    ∧ (bytes "GST" == bytes "GNS") = false ∧ (bytes "GST" == bytes "RMC") = false
    ∧ (bytes "GST" == bytes "GST") = true
    ∧ (bytes "GSA" == bytes "ZDA") = false ∧ (bytes "GSA" == bytes "GGA") = false
    ∧ (bytes "GSA" == bytes "GNS") = false ∧ (bytes "GSA" == bytes "RMC") = false
    ∧ (bytes "GSA" == bytes "GST") = false ∧ (bytes "GSA" == bytes "GSA") = true := by
  decide

theorem handleMessage_zda (E : Env) (s : GPSDriverNMEA) (len : Int) (hlen : 7 ≤ len)
    (ht : frameTag s.decoder._rx_buffer = bytes "ZDA")
    (hc : countCommas s.decoder._rx_buffer len = 6) :
    handleMessage E s len = some (finish (handleZDA E s) 0) := by
  unfold handleMessage
  have hlen' : ¬ len < 7 := by omega
  obtain ⟨-, -, -, -, -, -, -, z8, -⟩ := tag_table
  simp only [hlen', tagIs_of_tag _ _ _ ht, z8, hc, and_self, ↓reduceIte]

theorem handleMessage_gns (E : Env) (s : GPSDriverNMEA) (len : Int) (hlen : 7 ≤ len)
    (ht : frameTag s.decoder._rx_buffer = bytes "GNS") :
    handleMessage E s len = (handleGNS E s).map fun s1 => finish s1 0 := by
  unfold handleMessage
  have hlen' : ¬ len < 7 := by omega
  obtain ⟨n1, n2, n3, -⟩ := tag_table_rest
  simp only [hlen', tagIs_of_tag _ _ _ ht, n1, n2, n3, Bool.false_eq_true, false_and,
    ↓reduceIte]

theorem handleMessage_rmc (E : Env) (s : GPSDriverNMEA) (len : Int) (hlen : 7 ≤ len)
    (ht : frameTag s.decoder._rx_buffer = bytes "RMC") :
    handleMessage E s len = some (finish (handleRMC E s) 0) := by
  unfold handleMessage
  have hlen' : ¬ len < 7 := by omega
  obtain ⟨-, -, -, r1, r2, r3, r4, -⟩ := tag_table_rest
  simp only [hlen', tagIs_of_tag _ _ _ ht, r1, r2, r3, r4, Bool.false_eq_true, false_and,
    ↓reduceIte]

theorem handleMessage_gst (E : Env) (s : GPSDriverNMEA) (len : Int) (hlen : 7 ≤ len)
    (ht : frameTag s.decoder._rx_buffer = bytes "GST") :
    handleMessage E s len = some (finish (handleGST E s) 0) := by
  unfold handleMessage
  have hlen' : ¬ len < 7 := by omega
  obtain ⟨-, -, -, -, -, -, -, g1, g2, g3, g4, g5, -⟩ := tag_table_rest
  simp only [hlen', tagIs_of_tag _ _ _ ht, g1, g2, g3, g4, g5, Bool.false_eq_true, false_and,
    ↓reduceIte]

theorem handleMessage_gsa (E : Env) (s : GPSDriverNMEA) (len : Int) (hlen : 7 ≤ len)
    (ht : frameTag s.decoder._rx_buffer = bytes "GSA") :
    handleMessage E s len = some (finish (handleGSA E s) 0) := by
  unfold handleMessage
  have hlen' : ¬ len < 7 := by omega
  obtain ⟨-, -, -, -, -, -, -, -, -, -, -, -, a1, a2, a3, a4, a5, a6⟩ := tag_table_rest
  simp only [hlen', tagIs_of_tag _ _ _ ht, a1, a2, a3, a4, a5, a6, Bool.false_eq_true,
    false_and, ↓reduceIte]

theorem handleMessage_gsv (E : Env) (s : GPSDriverNMEA) (len : Int) (hlen : 7 ≤ len)
    (ht : frameTag s.decoder._rx_buffer = bytes "GSV") :
    handleMessage E s len = (handleGSV E s).map fun s1 => (s1, 0) := by
  unfold handleMessage
  have hlen' : ¬ len < 7 := by omega
  obtain ⟨-, -, -, -, -, -, -, -, -, -, -, -, -, -, -, -,
    -, -, -, -, -, -, -, -, s1, s2, s3, s4, s5, s6, s7⟩ := tag_table
  simp only [hlen', tagIs_of_tag _ _ _ ht, s1, s2, s3, s4, s5, s6, s7,
    Bool.false_eq_true, false_and, ↓reduceIte]

theorem handleMessage_vtg (E : Env) (s : GPSDriverNMEA) (len : Int) (hlen : 7 ≤ len)
    (ht : frameTag s.decoder._rx_buffer = bytes "VTG")
    (hc : countCommas s.decoder._rx_buffer len = 9) :
    handleMessage E s len = some (finish (handleVTG E s) 0) := by
  unfold handleMessage
  have hlen' : ¬ len < 7 := by omega
  obtain ⟨-, -, -, -, -, -, -, -, -, -, -, -, -, -, -, -,
    v1, v2, v3, v4, v5, v6, v7, v8, -⟩ := tag_table
  simp only [hlen', tagIs_of_tag _ _ _ ht, v1, v2, v3, v4, v5, v6, v7, v8, hc,
    Bool.false_eq_true, false_and, and_self, ↓reduceIte]

/-! ### The satellite record is optional -/

/-- Claim C19 (an absent satellite sink is tolerated). For every
environment, every driver whose satellite-info record is absent, every
`len` and every frame with the tag `GSV`, whatever its talker and its
fields: `handleMessage` has a defined result (no array is left), returns 0
and leaves the whole driver as it was, so the position record, both rate
counters, the time marker and the absent record are unchanged. -/
theorem gsv_absent_sink (E : Env) (s : GPSDriverNMEA) (len : Int)
    (ht : frameTag s.decoder._rx_buffer = bytes "GSV") (hn : s._satellite_info = none) :
    handleMessage E s len = some (s, 0) := by
  by_cases hlen : len < 7
  · unfold handleMessage
    simp [hlen]
  · rw [handleMessage_gsv E s len (by omega) ht]
    unfold handleGSV
    simp only [hn]
    split_ifs <;> rfl

/-- Witness for `gsv_absent_sink`: the GSV example sentence of the source
in a driver without a satellite record. -/
theorem gsv_absent_sink_witness :
    (frameTag
        (driverWith (bytes
          "$GPGSV,4,1,13,02,02,213,,03,-3,000,,11,00,121,,14,13,172,05*67")).decoder._rx_buffer
        = bytes "GSV"
      ∧ (driverWith (bytes
          "$GPGSV,4,1,13,02,02,213,,03,-3,000,,11,00,121,,14,13,172,05*67"))._satellite_info
        = none)
    ∧ handleMessage exampleEnv
        (driverWith (bytes "$GPGSV,4,1,13,02,02,213,,03,-3,000,,11,00,121,,14,13,172,05*67")) 62
      = some
        (driverWith (bytes "$GPGSV,4,1,13,02,02,213,,03,-3,000,,11,00,121,,14,13,172,05*67"),
          0) :=
  ⟨⟨by decide, rfl⟩,
    gsv_absent_sink exampleEnv
      (driverWith (bytes "$GPGSV,4,1,13,02,02,213,,03,-3,000,,11,00,121,,14,13,172,05*67")) 62
      (by decide) rfl⟩

/-! ### Time: the ZDA and the RMC branch -/

theorem handleZDA_eq (E : Env) (s : GPSDriverNMEA) :
    handleZDA E s
      = stampTime E s (zdaTimeinfo s.decoder._rx_buffer)
          (clockOf (zdaFields s.decoder._rx_buffer).1).2.2 := rfl

theorem handleRMC_eq (E : Env) (s : GPSDriverNMEA) :
    handleRMC E s
      = stampTime E (rmcStore E s) (rmcTimeinfo s.decoder._rx_buffer)
          (clockOf (rmcFields s.decoder._rx_buffer).nmea_time).2.2 := rfl

theorem toInt_of_nonneg (x : ℚ) (hx : 0 ≤ x) : toInt x = ⌊x⌋ := by
  unfold toInt
  rw [Rat.floor_def, Int.tdiv_eq_ediv (Rat.num_nonneg.2 hx) (by exact_mod_cast Nat.zero_le _)]

theorem toInt_neg (x : ℚ) : toInt (-x) = -toInt x := by
  unfold toInt
  rw [Rat.neg_num, Rat.neg_den, Int.neg_tdiv]

/-- What is left of a number after its integer part is taken away has the
integer part 0: the value of
`static_cast<uint64_t>((nmea_sec - static_cast<uint64_t>(nmea_sec)))`. -/
theorem toInt_frac (x : ℚ) : toInt (x - (toInt x : ℚ)) = 0 := by
  rcases le_total 0 x with hx | hx
  · rw [toInt_of_nonneg x hx, toInt_of_nonneg _ (by linarith [Int.floor_le x])]
    rw [Int.floor_eq_iff]
    constructor
    · simp [Int.floor_le x]
    · have := Int.lt_floor_add_one x
      push_cast
      linarith
  · have h1 : toInt x = -⌊-x⌋ := by
      have := toInt_neg (-x)
      rw [neg_neg] at this
      rw [this, toInt_of_nonneg (-x) (by linarith)]
    have h2 : x - ((toInt x : Int) : ℚ) = -((-x) - (⌊-x⌋ : ℚ)) := by
      rw [h1]
      push_cast
      ring
    rw [h2, toInt_neg, toInt_of_nonneg _ (by linarith [Int.floor_le (-x)]), neg_eq_zero,
      Int.floor_eq_iff]
    constructor
    · simp [Int.floor_le (-x)]
    · have := Int.lt_floor_add_one (-x)
      push_cast
      linarith

theorem stampTime_above (E : Env) (s : GPSDriverNMEA) (t : tm) (x : ℚ)
    (h : E.mktime t > E.GPS_EPOCH_SECS) :
    stampTime E s t x
      = { s with
          clock_calls := { tv_sec := E.mktime t, tv_nsec := 0 } :: s.clock_calls
          _gps_position := { s._gps_position with time_utc_usec := E.mktime t * 1000000 }
          _last_timestamp_time := E.gps_absolute_time } := by
  unfold stampTime
  simp only [h, ↓reduceIte, toInt_frac, zero_mul, add_zero]

theorem stampTime_below (E : Env) (s : GPSDriverNMEA) (t : tm) (x : ℚ)
    (h : ¬ E.mktime t > E.GPS_EPOCH_SECS) :
    stampTime E s t x
      = { s with
          _gps_position := { s._gps_position with time_utc_usec := 0 }
          _last_timestamp_time := E.gps_absolute_time } := by
  unfold stampTime
  simp only [h, ↓reduceIte]

/-- Claim C14 as it is written fails: the sub-second part of the time is
lost. For every environment, driver and `len ≥ 7`, and every ZDA frame with 6
commas whose epoch `mktime t` exceeds the floor: `handleMessage` stores
`time_utc_usec = epoch * 1000000`, a whole multiple of 1000000, and hands
`setClock` the nanoseconds 0, whatever the fraction of the seconds in the
time field is. (`usecs` is the integer part of a number in `[0, 1)`, times
1000000.) -/
theorem zda_time_utc_whole_seconds (E : Env) (s : GPSDriverNMEA) (len : Int) (hlen : 7 ≤ len)
    (ht : frameTag s.decoder._rx_buffer = bytes "ZDA")
    (hc : countCommas s.decoder._rx_buffer len = 6)
    (he : E.mktime (zdaTimeinfo s.decoder._rx_buffer) > E.GPS_EPOCH_SECS) :
    ∃ s1, handleMessage E s len = some (s1, 0)
      ∧ s1._gps_position.time_utc_usec
        = E.mktime (zdaTimeinfo s.decoder._rx_buffer) * 1000000
      ∧ s1.clock_calls
        = ⟨E.mktime (zdaTimeinfo s.decoder._rx_buffer), 0⟩ :: s.clock_calls := by
  refine ⟨handleZDA E s, ?_, ?_⟩
  · rw [handleMessage_zda E s len hlen ht hc, finish_zero]
  · rw [handleZDA_eq, stampTime_above _ _ _ _ he]
    exact ⟨rfl, rfl⟩

/-- Witness for `zda_time_utc_whole_seconds`: for the ZDA sentence
`$GPZDA,172809.456,12,07,2016,00,00*55` on a host in the zone UTC the epoch
is 1468344489, and the stored time is 1468344489000000, not
1468344489456000. -/
theorem zda_time_utc_whole_seconds_witness :
    ((7 : Int) ≤ 37
      ∧ frameTag (driverWith (bytes "$GPZDA,172809.456,12,07,2016,00,00*55")).decoder._rx_buffer
        = bytes "ZDA"
      ∧ countCommas
          (driverWith (bytes "$GPZDA,172809.456,12,07,2016,00,00*55")).decoder._rx_buffer 37
        = 6
      ∧ utcEnv.mktime
          (zdaTimeinfo
            (driverWith (bytes "$GPZDA,172809.456,12,07,2016,00,00*55")).decoder._rx_buffer)
        > utcEnv.GPS_EPOCH_SECS)
    ∧ (zdaFields
          (driverWith (bytes "$GPZDA,172809.456,12,07,2016,00,00*55")).decoder._rx_buffer).1
        = 172809456 / 1000
    ∧ utcEnv.mktime
        (zdaTimeinfo
          (driverWith (bytes "$GPZDA,172809.456,12,07,2016,00,00*55")).decoder._rx_buffer)
      = 1468344489
    ∧ ∃ s1, handleMessage utcEnv (driverWith (bytes "$GPZDA,172809.456,12,07,2016,00,00*55")) 37
        = some (s1, 0)
      ∧ s1._gps_position.time_utc_usec = 1468344489000000
      ∧ s1._gps_position.time_utc_usec ≠ 1468344489 * 1000000 + 456000 := by
  have he : utcEnv.mktime
        (zdaTimeinfo
          (driverWith (bytes "$GPZDA,172809.456,12,07,2016,00,00*55")).decoder._rx_buffer)
      = 1468344489 := by
    decide!
  refine ⟨⟨by decide, by decide, by decide, by rw [he]; decide⟩, by decide!, he, ?_⟩
  obtain ⟨s1, h1, h2, -⟩ :=
    zda_time_utc_whole_seconds utcEnv
      (driverWith (bytes "$GPZDA,172809.456,12,07,2016,00,00*55")) 37 (by decide) (by decide)
      (by decide) (by rw [he]; decide)
  rw [he] at h2
  exact ⟨s1, h1, by rw [h2]; decide, by rw [h2]; decide⟩

/-- Claim C15 as it is written fails: the RMC branch fills the calendar
structure otherwise than the ZDA branch. For every RMC buffer with the time
`hhmmss` and the date `DDMMYY`, and every ZDA buffer with the same time, the
day `DD`, the month `MM` and the year `2000 + YY`: the two structures agree
in day, hour, minute and second, but the RMC branch hands `mktime` the year
field `YY + 2000` where the ZDA branch hands it `YY + 100` (years since
1900), and the month field `MM` where the ZDA branch hands it `MM - 1`
(months since January); so the two structures are never equal. -/
theorem rmc_calendar_differs_from_zda (bufR bufZ : List Nat)
    (htime : (zdaFields bufZ).1 = (rmcFields bufR).nmea_time)
    (hday : (zdaFields bufZ).2.1 = (dateOf (rmcFields bufR).nmea_date).1)
    (hmonth : (zdaFields bufZ).2.2.1 = (dateOf (rmcFields bufR).nmea_date).2.1)
    (hyear : (zdaFields bufZ).2.2.2 = 2000 + (dateOf (rmcFields bufR).nmea_date).2.2) :
    (rmcTimeinfo bufR).tm_mday = (zdaTimeinfo bufZ).tm_mday
    ∧ (rmcTimeinfo bufR).tm_hour = (zdaTimeinfo bufZ).tm_hour
    ∧ (rmcTimeinfo bufR).tm_min = (zdaTimeinfo bufZ).tm_min
    ∧ (rmcTimeinfo bufR).tm_sec = (zdaTimeinfo bufZ).tm_sec
    ∧ (rmcTimeinfo bufR).tm_year = (dateOf (rmcFields bufR).nmea_date).2.2 + 2000
    ∧ (zdaTimeinfo bufZ).tm_year = (dateOf (rmcFields bufR).nmea_date).2.2 + 100
    ∧ (rmcTimeinfo bufR).tm_mon = (dateOf (rmcFields bufR).nmea_date).2.1
    ∧ (zdaTimeinfo bufZ).tm_mon = (dateOf (rmcFields bufR).nmea_date).2.1 - 1
    ∧ rmcTimeinfo bufR ≠ zdaTimeinfo bufZ := by
  have hy : (zdaTimeinfo bufZ).tm_year = (dateOf (rmcFields bufR).nmea_date).2.2 + 100 := by
    show (zdaFields bufZ).2.2.2 - 1900 = _
    rw [hyear]
    ring
  have hm : (zdaTimeinfo bufZ).tm_mon = (dateOf (rmcFields bufR).nmea_date).2.1 - 1 := by
    show (zdaFields bufZ).2.2.1 - 1 = _
    rw [hmonth]
  refine ⟨hday.symm, ?_, ?_, ?_, rfl, hy, rfl, hm, ?_⟩
  · show (clockOf _).1 = (clockOf _).1
    rw [htime]
  · show (clockOf _).2.1 = (clockOf _).2.1
    rw [htime]
  · show toInt (clockOf _).2.2 = toInt (clockOf _).2.2
    rw [htime]
  · intro h
    have h1 : (rmcTimeinfo bufR).tm_mon = (zdaTimeinfo bufZ).tm_mon := by rw [h]
    rw [hm] at h1
    have h2 : (rmcTimeinfo bufR).tm_mon = (dateOf (rmcFields bufR).nmea_date).2.1 := rfl
    omega

/-- Witness for `rmc_calendar_differs_from_zda`: the sentences
`$GPRMC,172809.456,A,3723.46587704,N,12202.26957864,W,10.0,90.0,120716,,,A*7D`
and `$GPZDA,172809.456,12,07,2016,00,00*55`. The RMC branch hands `mktime`
the year field 2016 and the month field 7, the ZDA branch 116 and 6; on a
host in the zone UTC the epochs are 61429166889 and 1468344489. -/
theorem rmc_calendar_differs_from_zda_witness :
    ((zdaFields (bytes "$GPZDA,172809.456,12,07,2016,00,00*55")).1
        = (rmcFields (bytes
            "$GPRMC,172809.456,A,3723.46587704,N,12202.26957864,W,10.0,90.0,120716,,,A*7D")).nmea_time
      ∧ (zdaFields (bytes "$GPZDA,172809.456,12,07,2016,00,00*55")).2.1
        = (dateOf (rmcFields (bytes
            "$GPRMC,172809.456,A,3723.46587704,N,12202.26957864,W,10.0,90.0,120716,,,A*7D")).nmea_date).1
      ∧ (zdaFields (bytes "$GPZDA,172809.456,12,07,2016,00,00*55")).2.2.1
        = (dateOf (rmcFields (bytes
            "$GPRMC,172809.456,A,3723.46587704,N,12202.26957864,W,10.0,90.0,120716,,,A*7D")).nmea_date).2.1
      ∧ (zdaFields (bytes "$GPZDA,172809.456,12,07,2016,00,00*55")).2.2.2
        = 2000 + (dateOf (rmcFields (bytes
            "$GPRMC,172809.456,A,3723.46587704,N,12202.26957864,W,10.0,90.0,120716,,,A*7D")).nmea_date).2.2)
    ∧ rmcTimeinfo (bytes
        "$GPRMC,172809.456,A,3723.46587704,N,12202.26957864,W,10.0,90.0,120716,,,A*7D")
      = ⟨2016, 7, 12, 17, 28, 9, 0⟩
    ∧ zdaTimeinfo (bytes "$GPZDA,172809.456,12,07,2016,00,00*55") = ⟨116, 6, 12, 17, 28, 9, 0⟩
    ∧ utcEnv.mktime ⟨2016, 7, 12, 17, 28, 9, 0⟩ = 61429166889
    ∧ utcEnv.mktime ⟨116, 6, 12, 17, 28, 9, 0⟩ = 1468344489
    ∧ rmcTimeinfo (bytes
        "$GPRMC,172809.456,A,3723.46587704,N,12202.26957864,W,10.0,90.0,120716,,,A*7D")
      ≠ zdaTimeinfo (bytes "$GPZDA,172809.456,12,07,2016,00,00*55") :=
  ⟨⟨by decide!, by decide!, by decide!, by decide!⟩, by decide!, by decide!, by decide!,
    by decide!,
    (rmc_calendar_differs_from_zda
      (bytes "$GPRMC,172809.456,A,3723.46587704,N,12202.26957864,W,10.0,90.0,120716,,,A*7D")
      (bytes "$GPZDA,172809.456,12,07,2016,00,00*55")
      (by decide!) (by decide!) (by decide!) (by decide!)).2.2.2.2.2.2.2.2⟩

/-! ### The loop of the GSV branch -/

theorem gsvBlock_eq (buf : List Nat) (b y p : Nat) (si : satellite_info_s) :
    gsvBlock buf (b : Int) y p si
      = if y < 4 ∧ si.InRange (y + b) then
          some
            ({ si with
                svid := si.svid.set (y + b) (gsvRead buf p).1.svid
                used := si.used.set (y + b) (decide ((gsvRead buf p).1.snr > 0))
                snr := si.snr.set (y + b) (gsvRead buf p).1.snr
                elevation := si.elevation.set (y + b) (gsvRead buf p).1.elevation
                azimuth := si.azimuth.set (y + b) (gsvRead buf p).1.azimuth },
              (gsvRead buf p).2)
        else none := by
  unfold gsvBlock satellite_info_s.InRange
  have h0 : (0 : Int) ≤ (y : Int) + (b : Int) := by omega
  have ht : ((y : Int) + (b : Int)).toNat = y + b := by omega
  have hl : ∀ m : Nat, ((y : Int) + (b : Int) < (m : Int)) ↔ y + b < m := by
    intro m
    omega
  simp only [h0, ht, hl, true_and]
  rfl

theorem gsvCursor_succ (buf : List Nat) (p j : Nat) :
    gsvCursor buf p (j + 1) = gsvCursor buf (gsvRead buf p).2 j := by
  unfold gsvCursor
  rw [Function.iterate_succ_apply]

theorem gsvLoop_defined (buf : List Nat) (b : Nat) :
    ∀ (n y p : Nat) (si : satellite_info_s),
      (gsvLoop buf (b : Int) n y p si).isSome
        ↔ (n = 0 ∨ (y + n ≤ 4 ∧ si.InRange (y + n - 1 + b))) := by
  intro n
  induction n with
  | zero => intro y p si; simp [gsvLoop]
  | succ n ih =>
    intro y p si
    rw [gsvLoop, gsvBlock_eq]
    by_cases hg : y < 4 ∧ si.InRange (y + b)
    · rw [if_pos hg]
      simp only [ih]
      unfold satellite_info_s.InRange at *
      simp only [List.length_set]
      constructor
      · rintro (h | h)
        · subst h
          right
          refine ⟨by omega, ?_⟩
          have e : y + (0 + 1) - 1 + b = y + b := by omega
          rw [e]
          exact hg.2
        · right
          refine ⟨by omega, ?_⟩
          have e : y + (n + 1) - 1 + b = y + 1 + n - 1 + b := by omega
          rw [e]
          exact h.2
      · rintro (h | h)
        · omega
        · by_cases hn : n = 0
          · left; exact hn
          · right
            refine ⟨by omega, ?_⟩
            have e : y + (n + 1) - 1 + b = y + 1 + n - 1 + b := by omega
            rw [← e]
            exact h.2
    · rw [if_neg hg]
      simp only [Option.isSome_none, Bool.false_eq_true, false_iff]
      unfold satellite_info_s.InRange at *
      intro h
      apply hg
      rcases h with h | h
      · omega
      · refine ⟨by omega, ?_⟩
        obtain ⟨-, h1, h2, h3, h4, h5⟩ := h
        refine ⟨?_, ?_, ?_, ?_, ?_⟩ <;> omega

/-- What the loop of the GSV branch does when it comes to its end: count,
timestamp and array sizes stay, pass `j` puts its block into slot
`y + j + b`, and every other slot stays as it was. -/
theorem gsvLoop_spec (buf : List Nat) (b : Nat) :
    ∀ (n y p : Nat) (si res : satellite_info_s),
      gsvLoop buf (b : Int) n y p si = some res →
      res.count = si.count ∧ res.timestamp = si.timestamp ∧ si.SameSize res
      ∧ (∀ j, j < n → res.Holds (y + j + b) (gsvRead buf (gsvCursor buf p j)).1)
      ∧ (∀ k, k < y + b ∨ y + n + b ≤ k → si.SameSlot res k) := by
  intro n
  induction n with
  | zero =>
    intro y p si res h
    simp only [gsvLoop, Option.some.injEq] at h
    subst h
    refine ⟨rfl, rfl, ⟨rfl, rfl, rfl, rfl, rfl⟩, ?_, ?_⟩
    · intro j hj
      omega
    · intro k _
      exact ⟨rfl, rfl, rfl, rfl, rfl⟩
  | succ n ih =>
    intro y p si res h
    rw [gsvLoop, gsvBlock_eq] at h
    by_cases hg : y < 4 ∧ si.InRange (y + b)
    · rw [if_pos hg] at h
      obtain ⟨h1, h2, h3, h4, h5⟩ := ih _ _ _ _ h
      obtain ⟨-, r1, r2, r3, r4, r5⟩ := hg
      refine ⟨h1, h2, ?_, ?_, ?_⟩
      · unfold satellite_info_s.SameSize at *
        simpa only [List.length_set] using h3
      · intro j hj
        cases j with
        | zero =>
          have hs := h5 (y + b) (Or.inl (by omega))
          unfold satellite_info_s.SameSlot at hs
          unfold satellite_info_s.Holds
          simp only [add_zero]
          obtain ⟨s1, s2, s3, s4, s5⟩ := hs
          rw [s1, s2, s3, s4, s5]
          simp only [r1, r2, r3, r4, r5, gsvCursor,
            Function.iterate_zero, id, List.getElem?_set_self, and_self]
        | succ j =>
          have := h4 j (by omega)
          rw [gsvCursor_succ]
          have e : y + (j + 1) + b = y + 1 + j + b := by omega
          rw [e]
          exact this
      · intro k hk
        have hs := h5 k (by omega)
        have hne : y + b ≠ k := by omega
        unfold satellite_info_s.SameSlot at *
        obtain ⟨s1, s2, s3, s4, s5⟩ := hs
        rw [s1, s2, s3, s4, s5]
        simp only [List.getElem?_set_ne hne, and_self]
    · rw [if_neg hg] at h
      cases h

/-! ### Well-formed fields -/

/-! ### Rounding to `double` and `float` -/

theorem pow2_eq_zpow (e : Int) : pow2 e = (2 : ℚ) ^ e := by
  unfold pow2
  split_ifs with h
  · conv_rhs => rw [← Int.toNat_of_nonneg h]
    rw [zpow_natCast]
  · have h2 : 0 ≤ -e := by omega
    have e2 : e = -((-e).toNat : Int) := by rw [Int.toNat_of_nonneg h2]; ring
    conv_rhs => rw [e2]
    rw [zpow_neg, zpow_natCast, one_div]

theorem pow2_pos (e : Int) : 0 < pow2 e := by
  rw [pow2_eq_zpow]
  positivity

theorem ilog2_neg (x : ℚ) : ilog2 (-x) = ilog2 x := by
  unfold ilog2
  simp only [Rat.neg_num, Rat.neg_den, Int.natAbs_neg]

theorem roundEven_floor (x : ℚ) :
    roundEven x = if x - (⌊x⌋ : ℚ) < 1 / 2 then ⌊x⌋
      else if 1 / 2 < x - (⌊x⌋ : ℚ) then ⌊x⌋ + 1
      else if ⌊x⌋ % 2 = 0 then ⌊x⌋ else ⌊x⌋ + 1 := by
  unfold roundEven
  rw [← Rat.floor_def]

theorem roundEven_neg (x : ℚ) : roundEven (-x) = -roundEven x := by
  rw [roundEven_floor, roundEven_floor]
  by_cases hi : (⌊x⌋ : ℚ) = x
  · have h1 : ⌊-x⌋ = -⌊x⌋ := by
      rw [← hi]
      rw [← Int.cast_neg, Int.floor_intCast, Int.floor_intCast]
    rw [h1]
    have h2 : x - (⌊x⌋ : ℚ) = 0 := by rw [hi]; ring
    have h3 : -x - ((-⌊x⌋ : Int) : ℚ) = 0 := by push_cast; rw [hi]; ring
    rw [h2, h3]
    norm_num
  · have hlt : (⌊x⌋ : ℚ) < x := lt_of_le_of_ne (Int.floor_le x) hi
    have hlt2 : x < (⌊x⌋ : ℚ) + 1 := Int.lt_floor_add_one x
    have h1 : ⌊-x⌋ = -⌊x⌋ - 1 := by
      rw [Int.floor_eq_iff]
      push_cast
      constructor <;> linarith
    rw [h1]
    have h3 : -x - ((-⌊x⌋ - 1 : Int) : ℚ) = 1 - (x - (⌊x⌋ : ℚ)) := by push_cast; ring
    rw [h3]
    set r := x - (⌊x⌋ : ℚ) with hr
    set f := ⌊x⌋ with hf
    rcases lt_trichotomy r (1 / 2) with h | h | h
    · have h4 : ¬ (1 - r < 1 / 2) := by linarith
      have h5 : 1 / 2 < 1 - r := by linarith
      rw [if_pos h, if_neg h4, if_pos h5]
      ring
    · have h4 : ¬ (1 - r < 1 / 2) := by rw [h]; norm_num
      have h5 : ¬ (1 / 2 < 1 - r) := by rw [h]; norm_num
      have h6 : ¬ (r < 1 / 2) := by rw [h]; norm_num
      have h7 : ¬ (1 / 2 < r) := by rw [h]; norm_num
      rw [if_neg h4, if_neg h5, if_neg h6, if_neg h7]
      by_cases he : f % 2 = 0
      · have he2 : ¬ ((-f - 1) % 2 = 0) := by omega
        rw [if_pos he, if_neg he2]
        ring
      · have he2 : (-f - 1) % 2 = 0 := by omega
        rw [if_neg he, if_pos he2]
        ring
    · have h4 : 1 - r < 1 / 2 := by linarith
      have h6 : ¬ (r < 1 / 2) := by linarith
      rw [if_pos h4, if_neg h6, if_pos h]
      ring

theorem roundTo_neg (p : Nat) (emin : Int) (x : ℚ) :
    roundTo p emin (-x) = -roundTo p emin x := by
  unfold roundTo
  by_cases h : x = 0
  · simp [h]
  · have h2 : ¬ (-x = 0) := by simpa using h
    rw [if_neg h, if_neg h2]
    simp only [ilog2_neg, neg_div, roundEven_neg]
    push_cast
    ring

theorem toDouble_neg (x : ℚ) : toDouble (-x) = -toDouble x := roundTo_neg _ _ x

theorem toFloat_neg (x : ℚ) : toFloat (-x) = -toFloat x := roundTo_neg _ _ x

theorem degMin_neg (x : ℚ) : degMin (-x) = -degMin x := by
  unfold degMin
  simp only [toDouble_neg, neg_mul, toInt_neg, Int.cast_neg, sub_neg_eq_add]
  have e : ∀ a i : ℚ, -a + i = -(a - i) := by intro a i; ring
  have e2 : ∀ a i : ℚ, -i + -a = -(i + a) := by intro a i; ring
  simp only [e, e2, toDouble_neg, neg_mul, neg_div, toInt_neg, sub_neg_eq_add]

theorem log2Fuel_spec : ∀ (fuel n : Nat), n ≤ fuel → 0 < n →
    2 ^ log2Fuel fuel n ≤ n ∧ n < 2 ^ (log2Fuel fuel n + 1)
  | 0, n, h, h0 => by omega
  | fuel + 1, n, h, h0 => by
    unfold log2Fuel
    split_ifs with h2
    · have : n = 1 := by omega
      subst this
      simp
    · have ih := log2Fuel_spec fuel (n / 2) (by omega) (by omega)
      obtain ⟨i1, i2⟩ := ih
      rw [pow_succ, pow_succ]
      constructor <;> omega

theorem pow2_add (a b : Int) : pow2 (a + b) = pow2 a * pow2 b := by
  rw [pow2_eq_zpow, pow2_eq_zpow, pow2_eq_zpow, zpow_add₀ (by norm_num)]

theorem pow2_le_pow2 {a b : Int} (h : a ≤ b) : pow2 a ≤ pow2 b := by
  rw [pow2_eq_zpow, pow2_eq_zpow]
  exact zpow_le_zpow_right₀ (by norm_num) h

theorem pow2_lt_pow2_iff {a b : Int} : pow2 a < pow2 b ↔ a < b := by
  rw [pow2_eq_zpow, pow2_eq_zpow]
  exact zpow_lt_zpow_iff_right₀ (by norm_num)

theorem abs_eq_natAbs_div (x : ℚ) : |x| = (x.num.natAbs : ℚ) / (x.den : ℚ) := by
  conv_lhs => rw [← Rat.num_div_den x]
  rw [abs_div, Nat.abs_cast, Nat.cast_natAbs, Int.cast_abs]

/-- The binary exponent is the one of the definition's comment. -/
theorem ilog2_spec (x : ℚ) (hx : x ≠ 0) :
    pow2 (ilog2 x) ≤ |x| ∧ |x| < pow2 (ilog2 x + 1) := by
  have hN : 0 < x.num.natAbs := Int.natAbs_pos.2 (Rat.num_ne_zero.2 hx)
  have hD : 0 < x.den := x.den_pos
  obtain ⟨n1, n2⟩ := log2Fuel_spec _ _ (le_refl x.num.natAbs) hN
  obtain ⟨d1, d2⟩ := log2Fuel_spec _ _ (le_refl x.den) hD
  have hDq : (0 : ℚ) < (x.den : ℚ) := by exact_mod_cast hD
  have n1q : (2 : ℚ) ^ log2Fuel x.num.natAbs x.num.natAbs ≤ (x.num.natAbs : ℚ) := by
    exact_mod_cast n1
  have n2q : (x.num.natAbs : ℚ) < (2 : ℚ) ^ (log2Fuel x.num.natAbs x.num.natAbs + 1) := by
    exact_mod_cast n2
  have d1q : (2 : ℚ) ^ log2Fuel x.den x.den ≤ (x.den : ℚ) := by exact_mod_cast d1
  have d2q : (x.den : ℚ) < (2 : ℚ) ^ (log2Fuel x.den x.den + 1) := by exact_mod_cast d2
  rw [abs_eq_natAbs_div]
  unfold ilog2
  set lN := log2Fuel x.num.natAbs x.num.natAbs with hlN
  set lD := log2Fuel x.den x.den with hlD
  have hpN : (0 : ℚ) < 2 ^ lN := by positivity
  have hpD : (0 : ℚ) < 2 ^ lD := by positivity
  have e0 : pow2 ((lN : Int) - (lD : Int)) = (2 : ℚ) ^ lN / 2 ^ lD := by
    rw [pow2_eq_zpow, zpow_sub₀ (by norm_num), zpow_natCast, zpow_natCast]
  dsimp only
  split_ifs with h
  · constructor
    · rw [le_div_iff₀ hDq]
      exact h
    · rw [pow2_add, e0, div_lt_iff₀ hDq]
      have : pow2 1 = 2 := by norm_num [pow2]
      rw [this]
      rw [pow_succ] at n2q
      have h3 : (2 : ℚ) ^ lN / 2 ^ lD * 2 * (x.den : ℚ) = 2 ^ lN * 2 * ((x.den : ℚ) / 2 ^ lD) := by
        field_simp
      rw [h3]
      have h4 : 1 ≤ (x.den : ℚ) / 2 ^ lD := by
        rw [le_div_iff₀ hpD]
        linarith
      nlinarith
  · constructor
    · have e1 : (lN : Int) - (lD : Int) - 1 = ((lN : Int) - (lD : Int)) + (-1) := by ring
      rw [e1, pow2_add, e0, le_div_iff₀ hDq]
      have : pow2 (-1) = 1 / 2 := by norm_num [pow2]
      rw [this]
      rw [pow_succ] at d2q
      have h3 : (2 : ℚ) ^ lN / 2 ^ lD * (1 / 2) * (x.den : ℚ)
          = 2 ^ lN * ((x.den : ℚ) / (2 ^ lD * 2)) := by
        field_simp
      rw [h3]
      have h4 : (x.den : ℚ) / (2 ^ lD * 2) ≤ 1 := by
        rw [div_le_iff₀ (by positivity)]
        linarith
      nlinarith
    · have e1 : (lN : Int) - (lD : Int) - 1 + 1 = (lN : Int) - (lD : Int) := by ring
      rw [e1, div_lt_iff₀ hDq]
      exact not_le.1 h

theorem ilog2_lt (x : ℚ) (hx : x ≠ 0) (k : Int) (h : |x| < pow2 k) : ilog2 x < k :=
  pow2_lt_pow2_iff.1 (lt_of_le_of_lt (ilog2_spec x hx).1 h)

theorem roundEven_bounds (y : ℚ) :
    (⌊y⌋ : ℚ) ≤ (roundEven y : ℚ) ∧ (roundEven y : ℚ) ≤ (⌊y⌋ : ℚ) + 1
    ∧ |(roundEven y : ℚ) - y| ≤ 1 / 2 := by
  rw [roundEven_floor]
  have h1 := Int.floor_le y
  have h2 := Int.lt_floor_add_one y
  split_ifs with a b c
  · refine ⟨le_refl _, by linarith, ?_⟩
    rw [abs_le]
    constructor <;> linarith
  · refine ⟨by push_cast; linarith, by push_cast; linarith, ?_⟩
    rw [abs_le]
    push_cast
    constructor <;> linarith
  · refine ⟨le_refl _, by linarith, ?_⟩
    rw [abs_le]
    constructor <;> linarith
  · refine ⟨by push_cast; linarith, by push_cast; linarith, ?_⟩
    rw [abs_le]
    push_cast
    constructor <;> linarith

/-- The error of a rounding is at most half a unit in the last place. -/
theorem roundTo_err (p : Nat) (emin : Int) (x : ℚ) (k : Int) (hx : |x| < pow2 k)
    (hk : emin ≤ k - p) : |roundTo p emin x - x| ≤ pow2 (k - p) / 2 := by
  unfold roundTo
  by_cases h0 : x = 0
  · rw [if_pos h0, h0]
    simp only [sub_zero, abs_zero]
    exact le_of_lt (div_pos (pow2_pos _) (by norm_num))
  · rw [if_neg h0]
    dsimp only
    have hl := ilog2_lt x h0 k hx
    set q := max (ilog2 x - ((p : Int) - 1)) emin with hq
    have hqk : q ≤ k - p := max_le (by omega) hk
    have hp := pow2_pos q
    have e : x = x / pow2 q * pow2 q := by field_simp
    have h3 := (roundEven_bounds (x / pow2 q)).2.2
    have e2 : (roundEven (x / pow2 q) : ℚ) * pow2 q - x
        = ((roundEven (x / pow2 q) : ℚ) - x / pow2 q) * pow2 q := by
      rw [sub_mul, ← e]
    rw [e2, abs_mul, abs_of_pos hp]
    have h4 := pow2_le_pow2 hqk
    have h5 : |(roundEven (x / pow2 q) : ℚ) - x / pow2 q| * pow2 q ≤ 1 / 2 * pow2 q :=
      mul_le_mul_of_nonneg_right h3 (le_of_lt hp)
    linarith

/-- A rounding does not step over an integer, as long as the last place is
a unit or finer. -/
theorem roundTo_ge_int (p : Nat) (emin : Int) (x : ℚ) (m : Int) (hx : |x| < pow2 p)
    (he : emin ≤ 0) (h : (m : ℚ) ≤ x) : (m : ℚ) ≤ roundTo p emin x := by
  unfold roundTo
  by_cases h0 : x = 0
  · rw [if_pos h0]
    rw [h0] at h
    exact h
  · rw [if_neg h0]
    dsimp only
    have hl := ilog2_lt x h0 p hx
    set q := max (ilog2 x - ((p : Int) - 1)) emin with hq
    have hq0 : q ≤ 0 := max_le (by omega) he
    have hp := pow2_pos q
    obtain ⟨n, hn⟩ : ∃ n : Nat, q = -(n : Int) := ⟨(-q).toNat, by omega⟩
    have e1 : pow2 q = 1 / 2 ^ n := by
      rw [hn, pow2_eq_zpow, zpow_neg, zpow_natCast, one_div]
    have e2 : x / pow2 q = x * 2 ^ n := by
      rw [e1]
      field_simp
    have h3 : ((m * 2 ^ n : Int) : ℚ) ≤ x / pow2 q := by
      rw [e2]
      push_cast
      exact mul_le_mul_of_nonneg_right h (by positivity)
    have h4 : m * 2 ^ n ≤ ⌊x / pow2 q⌋ := Int.le_floor.2 h3
    have h5 := (roundEven_bounds (x / pow2 q)).1
    have h6 : ((m * 2 ^ n : Int) : ℚ) ≤ (roundEven (x / pow2 q) : ℚ) :=
      le_trans (by exact_mod_cast h4) h5
    have h7 : ((m * 2 ^ n : Int) : ℚ) * pow2 q ≤ (roundEven (x / pow2 q) : ℚ) * pow2 q :=
      mul_le_mul_of_nonneg_right h6 (le_of_lt hp)
    have h8 : ((m * 2 ^ n : Int) : ℚ) * pow2 q = m := by
      rw [e1]
      push_cast
      field_simp
    rw [h8] at h7
    exact h7

theorem roundTo_le_int (p : Nat) (emin : Int) (x : ℚ) (m : Int) (hx : |x| < pow2 p)
    (he : emin ≤ 0) (h : x ≤ (m : ℚ)) : roundTo p emin x ≤ (m : ℚ) := by
  have h1 := roundTo_ge_int p emin (-x) (-m) (by rw [abs_neg]; exact hx) he
    (by push_cast; linarith)
  rw [roundTo_neg] at h1
  push_cast at h1
  linarith

theorem toDouble_err (x : ℚ) (k : Int) (hx : |x| < pow2 k) (hk : -1021 ≤ k) :
    |toDouble x - x| ≤ pow2 (k - 54) := by
  have h := roundTo_err 53 (-1074) x k hx (by push_cast; omega)
  have e : pow2 (k - (53 : Nat)) / 2 = pow2 (k - 54) := by
    have e1 : k - 54 = (k - ((53 : Nat) : Int)) + (-1) := by push_cast; ring
    have e2 : pow2 (-1) = 1 / 2 := by decide!
    rw [e1, pow2_add, e2]
    ring
  rw [e] at h
  exact h

theorem toDouble_ge_int (x : ℚ) (m : Int) (hx : |x| < 9007199254740992)
    (h : (m : ℚ) ≤ x) : (m : ℚ) ≤ toDouble x :=
  roundTo_ge_int 53 (-1074) x m
    (by rw [show pow2 ((53 : Nat) : Int) = 9007199254740992 by decide!]; exact hx) (by decide) h

theorem toDouble_le_int (x : ℚ) (m : Int) (hx : |x| < 9007199254740992)
    (h : x ≤ (m : ℚ)) : toDouble x ≤ (m : ℚ) :=
  roundTo_le_int 53 (-1074) x m
    (by rw [show pow2 ((53 : Nat) : Int) = 9007199254740992 by decide!]; exact hx) (by decide) h

theorem toDouble_nonneg (x : ℚ) (hx : |x| < 9007199254740992) (h : 0 ≤ x) :
    0 ≤ toDouble x := by
  have := toDouble_ge_int x 0 hx (by push_cast; exact h)
  push_cast at this
  exact this

theorem toDouble_hundredth : toDouble (1 / 100) = 5764607523034235 / 576460752303423488 := by
  decide!

theorem floor_near (g G : ℚ) (h1 : g - G < 1) (h2 : G - g < 1) : |⌊g⌋ - ⌊G⌋| ≤ 1 := by
  have a1 := Int.floor_le g
  have a2 := Int.lt_floor_add_one g
  have b1 := Int.floor_le G
  have b2 := Int.lt_floor_add_one G
  have c1 : (⌊g⌋ : ℚ) < (⌊G⌋ : ℚ) + 2 := by linarith
  have c2 : (⌊G⌋ : ℚ) < (⌊g⌋ : ℚ) + 2 := by linarith
  have d1 : ⌊g⌋ < ⌊G⌋ + 2 := by exact_mod_cast c1
  have d2 : ⌊G⌋ < ⌊g⌋ + 2 := by exact_mod_cast c2
  rw [abs_le]
  constructor <;> omega

set_option maxHeartbeats 1000000 in
/-- The conversion in `double` arithmetic is within one unit of the exact
one, for a coordinate of `d ≤ 180` degrees and `0 ≤ m < 60` minutes. -/
theorem degMin_near_conv (d : Nat) (m : ℚ) (hd : d ≤ 180) (hm0 : 0 ≤ m) (hm : m < 60) :
    |degMin (100 * (d : ℚ) + m) - conv (100 * (d : ℚ) + m)| ≤ 1 := by
  have hdq : (d : ℚ) ≤ 180 := by exact_mod_cast hd
  have hd0 : (0 : ℚ) ≤ (d : ℚ) := Nat.cast_nonneg d
  set x : ℚ := 100 * (d : ℚ) + m with hx
  -- the exact side
  have hc : toInt (x / 100) = (d : Int) := by
    rw [toInt_of_nonneg _ (by linarith), Int.floor_eq_iff]
    push_cast
    constructor <;> linarith
  have hconv : conv x = ⌊((d : ℚ) + (x / 100 - (d : ℚ)) * 100 / 60) * 10 ^ 7⌋ := by
    unfold conv
    rw [hc, toInt_of_nonneg]
    · push_cast
      rfl
    · push_cast
      have : 0 ≤ (x / 100 - (d : ℚ)) * 100 / 60 := by linarith
      nlinarith
  -- the side of the code
  have p8 : pow2 8 = 256 := by decide!
  have p15 : pow2 15 = 32768 := by decide!
  have p0 : pow2 0 = 1 := by decide!
  have p6 : pow2 6 = 64 := by decide!
  have p1 : pow2 1 = 2 := by decide!
  have p31 : pow2 31 = 2147483648 := by decide!
  have q15 : pow2 (15 - 54) = 1 / 549755813888 := by decide!
  have q8 : pow2 (8 - 54) = 1 / 70368744177664 := by decide!
  have q0 : pow2 (0 - 54) = 1 / 18014398509481984 := by decide!
  have q6 : pow2 (6 - 54) = 1 / 281474976710656 := by decide!
  have q1 : pow2 (1 - 54) = 1 / 9007199254740992 := by decide!
  have q31 : pow2 (31 - 54) = 1 / 8388608 := by decide!
  -- lat
  have L0 : |x| < 32768 := by rw [abs_lt]; constructor <;> linarith
  have L1 : (100 * (d : ℚ)) ≤ toDouble x := by
    have := toDouble_ge_int x (100 * (d : Int)) (lt_trans L0 (by norm_num))
      (by push_cast; linarith)
    push_cast at this
    exact this
  have L2 := toDouble_err x 15 (by rw [p15]; exact L0) (by decide)
  rw [q15, abs_le] at L2
  obtain ⟨L2a, L2b⟩ := L2
  set lat := toDouble x with hlat
  -- a
  have A0 : |lat * (5764607523034235 / 576460752303423488)| < 256 := by
    rw [abs_lt]; constructor <;> linarith
  have A1 : (d : ℚ) ≤ toDouble (lat * (5764607523034235 / 576460752303423488)) := by
    have := toDouble_ge_int (lat * (5764607523034235 / 576460752303423488)) (d : Int)
      (lt_trans A0 (by norm_num)) (by push_cast; linarith)
    push_cast at this
    exact this
  have A2 := toDouble_err (lat * (5764607523034235 / 576460752303423488)) 8
    (by rw [p8]; exact A0) (by decide)
  rw [q8, abs_le] at A2
  obtain ⟨A2a, A2b⟩ := A2
  set a := toDouble (lat * (5764607523034235 / 576460752303423488)) with ha
  have A3a : -(4 / 10 ^ 14) ≤ a - x / 100 := by linarith
  have A3b : a - x / 100 ≤ 4 / 10 ^ 14 := by linarith
  have hi : toInt a = (d : Int) := by
    rw [toInt_of_nonneg _ (by linarith), Int.floor_eq_iff]
    push_cast
    constructor <;> linarith
  -- a - i
  have F1 := toDouble_err (a - (d : ℚ)) 0
    (by rw [p0, abs_lt]; constructor <;> linarith) (by decide)
  rw [q0, abs_le] at F1
  obtain ⟨F1a, F1b⟩ := F1
  have N1 := toDouble_nonneg (a - (d : ℚ)) (by rw [abs_lt]; constructor <;> linarith)
    (by linarith)
  set f1 := toDouble (a - (d : ℚ)) with hf1
  -- * 100.0
  have F2 := toDouble_err (f1 * 100) 6
    (by rw [p6, abs_lt]; constructor <;> linarith) (by decide)
  rw [q6, abs_le] at F2
  obtain ⟨F2a, F2b⟩ := F2
  have N2 := toDouble_nonneg (f1 * 100) (by rw [abs_lt]; constructor <;> linarith)
    (by linarith)
  set f2 := toDouble (f1 * 100) with hf2
  -- / 60.0
  have F3 := toDouble_err (f2 / 60) 1
    (by rw [p1, abs_lt]; constructor <;> linarith) (by decide)
  rw [q1, abs_le] at F3
  obtain ⟨F3a, F3b⟩ := F3
  have N3 := toDouble_nonneg (f2 / 60) (by rw [abs_lt]; constructor <;> linarith)
    (by linarith)
  set f3 := toDouble (f2 / 60) with hf3
  -- the sum
  have F4 := toDouble_err ((d : ℚ) + f3) 8
    (by rw [p8, abs_lt]; constructor <;> linarith) (by decide)
  rw [q8, abs_le] at F4
  obtain ⟨F4a, F4b⟩ := F4
  have N4 := toDouble_nonneg ((d : ℚ) + f3) (by rw [abs_lt]; constructor <;> linarith)
    (by linarith)
  set f4 := toDouble ((d : ℚ) + f3) with hf4
  -- * 10000000
  have F5 := toDouble_err (f4 * 10000000) 31
    (by rw [p31, abs_lt]; constructor <;> linarith) (by decide)
  rw [q31, abs_le] at F5
  obtain ⟨F5a, F5b⟩ := F5
  have F50 := toDouble_nonneg (f4 * 10000000) (by rw [abs_lt]; constructor <;> linarith)
    (by linarith)
  set f5 := toDouble (f4 * 10000000) with hf5
  have hdeg : degMin x = ⌊f5⌋ := by
    unfold degMin
    dsimp only
    rw [toDouble_hundredth, ← hlat, ← ha, hi]
    push_cast
    rw [← hf1, ← hf2, ← hf3, ← hf4, ← hf5, toInt_of_nonneg _ F50]
  rw [hdeg, hconv]
  apply floor_near <;> linarith

theorem toFloat_err (x : ℚ) (k : Int) (hx : |x| < pow2 k) (hk : -125 ≤ k) :
    |toFloat x - x| ≤ pow2 (k - 25) := by
  have h := roundTo_err 24 (-149) x k hx (by push_cast; omega)
  have e : pow2 (k - (24 : Nat)) / 2 = pow2 (k - 25) := by
    have e1 : k - 25 = (k - ((24 : Nat) : Int)) + (-1) := by push_cast; ring
    have e2 : pow2 (-1) = 1 / 2 := by decide!
    rw [e1, pow2_add, e2]
    ring
  rw [e] at h
  exact h

theorem toFloat_nonneg (x : ℚ) (hx : |x| < 16777216) (h : 0 ≤ x) : 0 ≤ toFloat x := by
  have := roundTo_ge_int 24 (-149) x 0
    (by rw [show pow2 ((24 : Nat) : Int) = 16777216 by decide!]; exact hx) (by decide)
    (by push_cast; exact h)
  push_cast at this
  exact this

theorem altOfFloat_neg (x : ℚ) : altOfFloat (-x) = -altOfFloat x := by
  unfold altOfFloat
  simp only [toDouble_neg, toFloat_neg, neg_mul, toInt_neg]

theorem altOfFloat_near_of_nonneg (x : ℚ) (h0 : 0 ≤ x) (h : x ≤ 16000) :
    |altOfFloat x - toInt (x * 1000)| ≤ 1 := by
  have D0 : |x| < 9007199254740992 := by rw [abs_lt]; constructor <;> linarith
  have D1 := toDouble_nonneg x D0 h0
  have D2 : toDouble x ≤ 16000 := by
    have := toDouble_le_int x 16000 D0 (by push_cast; exact h)
    push_cast at this
    exact this
  have D4 : |x| < pow2 14 := by
    rw [show pow2 14 = 16384 by decide!, abs_lt]
    constructor <;> linarith
  have D3 := toDouble_err x 14 D4 (by decide)
  rw [show pow2 (14 - 54) = 1 / 1099511627776 by decide!, abs_le] at D3
  obtain ⟨D3a, D3b⟩ := D3
  set y1 := toDouble x with hy1
  have F0 : |y1| < 16777216 := by rw [abs_lt]; constructor <;> linarith
  have F1 := toFloat_nonneg y1 F0 D1
  have F4 : |y1| < pow2 14 := by
    rw [show pow2 14 = 16384 by decide!, abs_lt]
    constructor <;> linarith
  have F3 := toFloat_err y1 14 F4 (by decide)
  rw [show pow2 (14 - 25) = 1 / 2048 by decide!, abs_le] at F3
  obtain ⟨F3a, F3b⟩ := F3
  set y2 := toFloat y1 with hy2
  have G0 : |y2 * 1000| < 16777216 := by rw [abs_lt]; constructor <;> linarith
  have G1 := toFloat_nonneg (y2 * 1000) G0 (by linarith)
  have G4 : |y2 * 1000| < pow2 24 := by
    rw [show pow2 24 = 16777216 by decide!]
    exact G0
  have G3 := toFloat_err (y2 * 1000) 24 G4 (by decide)
  rw [show pow2 (24 - 25) = 1 / 2 by decide!, abs_le] at G3
  obtain ⟨G3a, G3b⟩ := G3
  set y3 := toFloat (y2 * 1000) with hy3
  have e1 : altOfFloat x = ⌊y3⌋ := by
    unfold altOfFloat
    rw [← hy1, ← hy2, ← hy3, toInt_of_nonneg _ G1]
  rw [e1, toInt_of_nonneg _ (by linarith)]
  apply floor_near <;> linarith

/-- The altitude of the GNS branch is within one unit of the exact product,
for an altitude field of at most 16000 in absolute value. -/
theorem altOfFloat_near (x : ℚ) (h : |x| ≤ 16000) :
    |altOfFloat x - toInt (x * 1000)| ≤ 1 := by
  rw [abs_le] at h
  rcases le_total 0 x with h0 | h0
  · exact altOfFloat_near_of_nonneg x h0 h.2
  · have := altOfFloat_near_of_nonneg (-x) (by linarith) (by linarith)
    rw [altOfFloat_neg, neg_mul, toInt_neg] at this
    rw [← abs_neg]
    have e : -(altOfFloat x - toInt (x * 1000)) = -altOfFloat x - -toInt (x * 1000) := by ring
    rw [e]
    exact this

theorem conv_neg (x : ℚ) : conv (-x) = -conv x := by
  unfold conv
  have e : -x / 100 = -(x / 100) := by ring
  rw [e, toInt_neg (x / 100)]
  refine Eq.trans ?_ (toInt_neg _)
  congr 1
  push_cast
  ring

theorem sign_apply (f : Field) (c d : Nat) (x : ℚ) (hf : f.IsChar) (hd : d ≠ c) :
    (if f.charOr d = c then -x else x) = f.sign c * x := by
  unfold Field.sign
  cases f with
  | char a =>
    simp only [Field.charOr, Field.char.injEq]
    split_ifs <;> ring
  | empty => simp [Field.charOr, hd]
  | int _ _ => exact absurd hf (by simp [Field.IsChar])
  | dec _ _ _ => exact absurd hf (by simp [Field.IsChar])
  | text _ => exact absurd hf (by simp [Field.IsChar])

/-! ### The library functions on well-formed numbers -/

theorem isdigit_not_space (d : Nat) (hd : isdigit d = true) : isspace d = false := by
  unfold isdigit at hd
  unfold isspace
  simp only [Bool.and_eq_true, decide_eq_true_eq] at hd
  simp only [Bool.or_eq_false_iff, beq_eq_false_iff_ne, ne_eq, Bool.and_eq_false_iff,
    decide_eq_false_iff_not, not_le]
  omega

theorem signOf_digit (d : Nat) (r : List Nat) (hd : isdigit d = true) :
    signOf (d :: r) = (false, 0) := by
  unfold isdigit at hd
  simp only [Bool.and_eq_true, decide_eq_true_eq] at hd
  unfold signOf
  split
  · rename_i h
    simp only [List.cons.injEq] at h
    omega
  · rename_i h
    simp only [List.cons.injEq] at h
    omega
  · rfl

theorem takeWhile_digits (ds r : List Nat) (c : Nat) (hds : ∀ x ∈ ds, isdigit x = true)
    (hc : isdigit c = false) : (ds ++ c :: r).takeWhile isdigit = ds := by
  rw [takeWhile_append_stop isdigit ds r c hc]
  exact List.takeWhile_eq_self_iff.2 hds

theorem isdigit_stop (c : Nat) (hc : c = 44 ∨ c = 42) : isdigit c = false := by
  rcases hc with rfl | rfl <;> decide

theorem expOf_stop (c : Nat) (r : List Nat) (hc : c = 44 ∨ c = 42) : expOf (c :: r) = (0, 0) := by
  rcases hc with rfl | rfl <;> simp [expOf]

theorem strtol_digits (ds r : List Nat) (c : Nat) (hne : ds ≠ [])
    (hds : ∀ x ∈ ds, isdigit x = true) (hc : c = 44 ∨ c = 42) :
    strtol (ds ++ c :: r) = ((natOfDigits ds : Int), ds.length) := by
  obtain ⟨d, ds1, rfl⟩ := List.exists_cons_of_ne_nil hne
  have hd : isdigit d = true := hds d (List.mem_cons_self _ _)
  have hw : ((d :: ds1) ++ c :: r).takeWhile isspace = [] := by
    simp [List.takeWhile_cons, isdigit_not_space d hd]
  unfold strtol
  simp only [hw, List.length_nil, List.drop_zero, zero_add]
  rw [show (d :: ds1) ++ c :: r = d :: (ds1 ++ c :: r) from rfl, signOf_digit d _ hd]
  simp only [List.drop_zero]
  rw [show d :: (ds1 ++ c :: r) = (d :: ds1) ++ c :: r from rfl,
    takeWhile_digits _ _ _ hds (isdigit_stop c hc)]
  simp

theorem strtol_minus_digits (ds r : List Nat) (c : Nat) (hne : ds ≠ [])
    (hds : ∀ x ∈ ds, isdigit x = true) (hc : c = 44 ∨ c = 42) :
    strtol (45 :: (ds ++ c :: r)) = (-(natOfDigits ds : Int), 1 + ds.length) := by
  have hw : (45 :: (ds ++ c :: r)).takeWhile isspace = [] := by
    simp [List.takeWhile_cons, show isspace 45 = false by decide]
  unfold strtol
  simp only [hw, List.length_nil, List.drop_zero, zero_add]
  rw [show signOf (45 :: (ds ++ c :: r)) = (true, 1) from rfl]
  simp only [List.drop_succ_cons, List.drop_zero]
  rw [takeWhile_digits _ _ _ hds (isdigit_stop c hc)]
  simp [hne]

theorem strtol_stop (r : List Nat) : strtol (42 :: r) = (0, 0) := by
  simp [strtol, List.takeWhile_cons, show isspace 42 = false by decide, signOf,
    show isdigit 42 = false by decide]

theorem strtod_stop (r : List Nat) : strtod (42 :: r) = (0, 0) := by
  simp [strtod, List.takeWhile_cons, show isspace 42 = false by decide, signOf,
    show isdigit 42 = false by decide]

/-- The function `strtol` on a well-formed integer field that ends at a
separator: the value of the field, and its length. -/
theorem strtol_field (f : Field) (r : List Nat) (c : Nat) (hf : f.IsInt) (hne : f ≠ .empty)
    (hc : c = 44 ∨ c = 42) :
    strtol (f.bytes ++ c :: r) = (f.intValue, f.bytes.length) := by
  cases f with
  | empty => exact absurd rfl hne
  | int neg ds =>
    obtain ⟨h1, h2⟩ := hf
    cases neg with
    | false =>
      simp only [Field.bytes, Field.intValue, Bool.false_eq_true, ↓reduceIte, List.nil_append,
        one_mul]
      exact strtol_digits ds r c h1 h2 hc
    | true =>
      simp only [Field.bytes, Field.intValue, ↓reduceIte, List.singleton_append,
        List.cons_append, List.length_cons, neg_mul, one_mul, List.nil_append]
      rw [strtol_minus_digits ds r c h1 h2 hc, add_comm]
  | char _ => exact absurd hf (by simp [Field.IsInt])
  | dec _ _ _ => exact absurd hf (by simp [Field.IsInt])
  | text _ => exact absurd hf (by simp [Field.IsInt])

theorem pow10_zero : pow10 0 = 1 := by
  simp [pow10]

theorem strtod_digits (ip r : List Nat) (c : Nat) (hne : ip ≠ [])
    (hip : ∀ x ∈ ip, isdigit x = true) (hc : c = 44 ∨ c = 42) :
    strtod (ip ++ c :: r) = ((natOfDigits ip : ℚ), ip.length) := by
  obtain ⟨d, ds1, rfl⟩ := List.exists_cons_of_ne_nil hne
  have hd : isdigit d = true := hip d (List.mem_cons_self _ _)
  have hc46 : (c == 46) = false := by rcases hc with rfl | rfl <;> decide
  have hw : ((d :: ds1) ++ c :: r).takeWhile isspace = [] := by
    simp [List.takeWhile_cons, isdigit_not_space d hd]
  unfold strtod
  simp only [hw, List.length_nil, List.drop_zero, zero_add]
  rw [show (d :: ds1) ++ c :: r = d :: (ds1 ++ c :: r) from rfl, signOf_digit d _ hd]
  simp only [List.drop_zero]
  rw [show d :: (ds1 ++ c :: r) = (d :: ds1) ++ c :: r from rfl,
    takeWhile_digits _ _ _ hip (isdigit_stop c hc), List.drop_left]
  simp [hc46, expOf_stop c r hc, pow10_zero]

theorem strtod_minus_digits (ip r : List Nat) (c : Nat) (hne : ip ≠ [])
    (hip : ∀ x ∈ ip, isdigit x = true) (hc : c = 44 ∨ c = 42) :
    strtod (45 :: (ip ++ c :: r)) = (-(natOfDigits ip : ℚ), 1 + ip.length) := by
  have hc46 : (c == 46) = false := by rcases hc with rfl | rfl <;> decide
  have hw : (45 :: (ip ++ c :: r)).takeWhile isspace = [] := by
    simp [List.takeWhile_cons, show isspace 45 = false by decide]
  unfold strtod
  simp only [hw, List.length_nil, List.drop_zero, zero_add]
  rw [show signOf (45 :: (ip ++ c :: r)) = (true, 1) from rfl]
  simp only [List.drop_succ_cons, List.drop_zero]
  rw [takeWhile_digits _ _ _ hip (isdigit_stop c hc), List.drop_left]
  simp [hc46, expOf_stop c r hc, pow10_zero, hne]

theorem strtod_point (ip fp r : List Nat) (c : Nat) (hne : ip ≠ [])
    (hip : ∀ x ∈ ip, isdigit x = true) (hfp : ∀ x ∈ fp, isdigit x = true)
    (hc : c = 44 ∨ c = 42) :
    strtod (ip ++ 46 :: (fp ++ c :: r))
      = ((natOfDigits (ip ++ fp) : ℚ) / 10 ^ fp.length, ip.length + 1 + fp.length) := by
  obtain ⟨d, ds1, rfl⟩ := List.exists_cons_of_ne_nil hne
  have hd : isdigit d = true := hip d (List.mem_cons_self _ _)
  have hw : ((d :: ds1) ++ 46 :: (fp ++ c :: r)).takeWhile isspace = [] := by
    simp [List.takeWhile_cons, isdigit_not_space d hd]
  unfold strtod
  simp only [hw, List.length_nil, List.drop_zero, zero_add]
  rw [show (d :: ds1) ++ 46 :: (fp ++ c :: r) = d :: (ds1 ++ 46 :: (fp ++ c :: r)) from rfl,
    signOf_digit d _ hd]
  simp only [List.drop_zero]
  rw [show d :: (ds1 ++ 46 :: (fp ++ c :: r)) = (d :: ds1) ++ 46 :: (fp ++ c :: r) from rfl,
    takeWhile_digits _ _ _ hip (show isdigit 46 = false by decide), List.drop_left]
  simp only [List.head?_cons, beq_self_eq_true, ↓reduceIte, List.drop_succ_cons,
    List.drop_zero, takeWhile_digits _ _ _ hfp (isdigit_stop c hc)]
  rw [show 46 :: (fp ++ c :: r) = (46 :: fp) ++ c :: r from rfl,
    show 1 + fp.length = (46 :: fp).length by simp [add_comm], List.drop_left]
  simp [expOf_stop c r hc, pow10_zero]
  omega

theorem strtod_minus_point (ip fp r : List Nat) (c : Nat) (hne : ip ≠ [])
    (hip : ∀ x ∈ ip, isdigit x = true) (hfp : ∀ x ∈ fp, isdigit x = true)
    (hc : c = 44 ∨ c = 42) :
    strtod (45 :: (ip ++ 46 :: (fp ++ c :: r)))
      = (-((natOfDigits (ip ++ fp) : ℚ) / 10 ^ fp.length), 1 + ip.length + 1 + fp.length) := by
  have hw : (45 :: (ip ++ 46 :: (fp ++ c :: r))).takeWhile isspace = [] := by
    simp [List.takeWhile_cons, show isspace 45 = false by decide]
  unfold strtod
  simp only [hw, List.length_nil, List.drop_zero, zero_add]
  rw [show signOf (45 :: (ip ++ 46 :: (fp ++ c :: r))) = (true, 1) from rfl]
  simp only [List.drop_succ_cons, List.drop_zero]
  rw [takeWhile_digits _ _ _ hip (show isdigit 46 = false by decide), List.drop_left]
  simp only [List.head?_cons, beq_self_eq_true, ↓reduceIte, List.drop_succ_cons,
    List.drop_zero, takeWhile_digits _ _ _ hfp (isdigit_stop c hc)]
  rw [show 46 :: (fp ++ c :: r) = (46 :: fp) ++ c :: r from rfl,
    show 1 + fp.length = (46 :: fp).length by simp [add_comm], List.drop_left]
  simp [expOf_stop c r hc, pow10_zero, hne]
  omega

/-- The function `strtod` on a well-formed numeric field that ends at a
separator: the value of the field, and its length. -/
theorem strtod_field (f : Field) (r : List Nat) (c : Nat) (hf : f.IsNum) (hne : f ≠ .empty)
    (hc : c = 44 ∨ c = 42) :
    strtod (f.bytes ++ c :: r) = (f.value, f.bytes.length) := by
  cases f with
  | empty => exact absurd rfl hne
  | int neg ds =>
    obtain ⟨h1, h2⟩ := hf
    cases neg with
    | false =>
      simp only [Field.bytes, Field.value, Bool.false_eq_true, ↓reduceIte, List.nil_append,
        one_mul]
      exact strtod_digits ds r c h1 h2 hc
    | true =>
      simp only [Field.bytes, Field.value, ↓reduceIte, List.singleton_append,
        List.cons_append, List.length_cons, neg_mul, one_mul, List.nil_append]
      rw [strtod_minus_digits ds r c h1 h2 hc, add_comm]
  | dec neg ip fp =>
    obtain ⟨h1, h2, h3⟩ := hf
    cases neg with
    | false =>
      simp only [Field.bytes, Field.value, Bool.false_eq_true, ↓reduceIte, List.nil_append,
        one_mul, List.append_assoc, List.cons_append, List.length_append, List.length_cons]
      rw [strtod_point ip fp r c h1 h2 h3 hc]
      congr 1
      omega
    | true =>
      simp only [Field.bytes, Field.value, ↓reduceIte, List.singleton_append,
        List.cons_append, List.length_cons, neg_mul, one_mul, List.nil_append,
        List.append_assoc, List.length_append]
      rw [strtod_minus_point ip fp r c h1 h2 h3 hc]
      congr 1
      omega
  | char _ => exact absurd hf (by simp [Field.IsNum])
  | text _ => exact absurd hf (by simp [Field.IsNum])

/-! ### The field statements on well-formed fields -/

theorem getD_of_drop (buf r : List Nat) (q c : Nat) (h : buf.drop q = c :: r) :
    buf.getD q 0 = c := by
  have h1 : (buf.drop q)[0]? = some c := by rw [h]; simp
  rw [List.getElem?_drop, add_zero] at h1
  rw [List.getD_eq_getElem?_getD, h1]
  rfl

theorem drop_add_of (buf a r : List Nat) (q : Nat) (h : buf.drop q = a ++ r) :
    buf.drop (q + a.length) = r := by
  rw [← List.drop_drop, h, List.drop_left]

theorem join_head (fs : List Field) (c : Nat) (rest : List Nat) (hc : c = 44 ∨ c = 42) :
    ∃ c1 r1, joinFields fs ++ c :: rest = c1 :: r1 ∧ (c1 = 44 ∨ c1 = 42) := by
  cases fs with
  | nil => exact ⟨c, rest, rfl, hc⟩
  | cons f fs => exact ⟨44, _, rfl, Or.inl rfl⟩

theorem join_head_comma (fs : List Field) (rest : List Nat) :
    ∃ r1, joinFields fs ++ 44 :: rest = 44 :: r1 := by
  cases fs with
  | nil => exact ⟨rest, rfl⟩
  | cons f fs => exact ⟨_, rfl⟩

theorem join_cons (f : Field) (fs : List Field) (t : List Nat) :
    joinFields (f :: fs) ++ t = 44 :: (f.bytes ++ (joinFields fs ++ t)) := by
  simp [joinFields]

theorem num_head (f : Field) (hf : f.IsNum) (hne : f ≠ .empty) :
    ∃ x t, f.bytes = x :: t ∧ x ≠ 44 := by
  cases f with
  | empty => exact absurd rfl hne
  | int neg ds =>
    obtain ⟨h1, h2⟩ := hf
    obtain ⟨d, ds1, rfl⟩ := List.exists_cons_of_ne_nil h1
    have hd := h2 d (List.mem_cons_self _ _)
    cases neg with
    | false =>
      refine ⟨d, ds1, rfl, ?_⟩
      rintro rfl
      exact absurd hd (by decide)
    | true => exact ⟨45, d :: ds1, rfl, by decide⟩
  | dec neg ip fp =>
    obtain ⟨h1, h2, -⟩ := hf
    obtain ⟨d, ds1, rfl⟩ := List.exists_cons_of_ne_nil h1
    have hd := h2 d (List.mem_cons_self _ _)
    cases neg with
    | false =>
      refine ⟨d, ds1 ++ 46 :: fp, rfl, ?_⟩
      rintro rfl
      exact absurd hd (by decide)
    | true => exact ⟨45, d :: ds1 ++ 46 :: fp, rfl, by decide⟩
  | char _ => exact absurd hf (by simp [Field.IsNum])
  | text _ => exact absurd hf (by simp [Field.IsNum])

theorem IsInt.isNum (f : Field) (hf : f.IsInt) : f.IsNum := by
  cases f <;> simp_all [Field.IsInt, Field.IsNum]

theorem fieldD_bytes (buf r : List Nat) (p c : Nat) (f : Field) (hf : f.IsNum)
    (hc : c = 44 ∨ c = 42) (h : buf.drop (p + 1) = f.bytes ++ c :: r) :
    fieldD buf p 0 = (f.value, p + 1 + f.bytes.length) := by
  unfold fieldD
  by_cases hne : f = .empty
  · subst hne
    simp only [Field.bytes, List.nil_append] at h
    rw [getD_of_drop _ _ _ _ h, h]
    rcases hc with rfl | rfl
    · simp [Field.value, Field.bytes]
    · simp [Field.value, Field.bytes, strtod_stop]
  · obtain ⟨x, t, hx, hx44⟩ := num_head f hf hne
    have hg : buf.getD (p + 1) 0 = x := by
      apply getD_of_drop buf (t ++ c :: r)
      rw [h, hx]
      rfl
    rw [hg, if_pos hx44, h, strtod_field f r c hf hne hc]

theorem fieldL_bytes (buf r : List Nat) (p c : Nat) (f : Field) (hf : f.IsInt)
    (hc : c = 44 ∨ c = 42) (h : buf.drop (p + 1) = f.bytes ++ c :: r) :
    fieldL buf p 0 = (f.intValue, p + 1 + f.bytes.length) := by
  unfold fieldL
  by_cases hne : f = .empty
  · subst hne
    simp only [Field.bytes, List.nil_append] at h
    rw [getD_of_drop _ _ _ _ h, h]
    rcases hc with rfl | rfl
    · simp [Field.intValue, Field.bytes]
    · simp [Field.intValue, Field.bytes, strtol_stop]
  · obtain ⟨x, t, hx, hx44⟩ := num_head f (IsInt.isNum f hf) hne
    have hg : buf.getD (p + 1) 0 = x := by
      apply getD_of_drop buf (t ++ c :: r)
      rw [h, hx]
      rfl
    rw [hg, if_pos hx44, h, strtol_field f r c hf hne hc]

theorem fieldC_bytes (buf r : List Nat) (p d : Nat) (f : Field) (hf : f.IsChar)
    (h : buf.drop (p + 1) = f.bytes ++ 44 :: r) :
    fieldC buf p d = (f.charOr d, p + 1 + f.bytes.length) := by
  unfold fieldC
  cases f with
  | empty =>
    simp only [Field.bytes, List.nil_append] at h
    rw [getD_of_drop _ _ _ _ h]
    simp [Field.charOr, Field.bytes]
  | char a =>
    have ha : a ≠ 44 := hf
    have hg : buf.getD (p + 1) 0 = a := getD_of_drop buf _ _ _ h
    rw [hg, if_pos ha]
    simp [Field.charOr, Field.bytes]
  | int _ _ => exact absurd hf (by simp [Field.IsChar])
  | dec _ _ _ => exact absurd hf (by simp [Field.IsChar])
  | text _ => exact absurd hf (by simp [Field.IsChar])

theorem scanComma_bytes (buf r : List Nat) (p : Nat) (f : Field) (hf : f.IsText)
    (h : buf.drop (p + 1) = f.bytes ++ 44 :: r) :
    scanComma buf p = some (p + 1 + f.bytes.length) := by
  unfold scanComma
  cases f with
  | text cs =>
    have hcs : 44 ∉ cs := hf
    simp only [Field.bytes] at h ⊢
    rw [h, if_pos (by simp), List.indexOf_append_of_not_mem hcs]
    simp
  | empty => exact absurd hf (by simp [Field.IsText])
  | int _ _ => exact absurd hf (by simp [Field.IsText])
  | dec _ _ _ => exact absurd hf (by simp [Field.IsText])
  | char _ => exact absurd hf (by simp [Field.IsText])

/-- A `strtod` field statement with the cursor on the separator before a
well-formed numeric field: the value of the field, and the cursor on the
separator after it. -/
theorem fieldD_join (buf rest : List Nat) (p c : Nat) (f : Field) (fs : List Field)
    (hf : f.IsNum) (hc : c = 44 ∨ c = 42)
    (h : buf.drop p = joinFields (f :: fs) ++ c :: rest) :
    fieldD buf p 0 = (f.value, p + 1 + f.bytes.length)
    ∧ buf.drop (p + 1 + f.bytes.length) = joinFields fs ++ c :: rest := by
  rw [join_cons] at h
  have h1 : buf.drop (p + 1) = f.bytes ++ (joinFields fs ++ c :: rest) :=
    drop_add_of buf [44] _ p h
  obtain ⟨c1, r1, e, hc1⟩ := join_head fs c rest hc
  rw [e] at h1
  refine ⟨fieldD_bytes buf r1 p c1 f hf hc1 h1, ?_⟩
  rw [e]
  exact drop_add_of buf f.bytes _ (p + 1) h1

theorem fieldL_join (buf rest : List Nat) (p c : Nat) (f : Field) (fs : List Field)
    (hf : f.IsInt) (hc : c = 44 ∨ c = 42)
    (h : buf.drop p = joinFields (f :: fs) ++ c :: rest) :
    fieldL buf p 0 = (f.intValue, p + 1 + f.bytes.length)
    ∧ buf.drop (p + 1 + f.bytes.length) = joinFields fs ++ c :: rest := by
  rw [join_cons] at h
  have h1 : buf.drop (p + 1) = f.bytes ++ (joinFields fs ++ c :: rest) :=
    drop_add_of buf [44] _ p h
  obtain ⟨c1, r1, e, hc1⟩ := join_head fs c rest hc
  rw [e] at h1
  refine ⟨fieldL_bytes buf r1 p c1 f hf hc1 h1, ?_⟩
  rw [e]
  exact drop_add_of buf f.bytes _ (p + 1) h1

theorem fieldC_join (buf rest : List Nat) (p d : Nat) (f : Field) (fs : List Field)
    (hf : f.IsChar) (h : buf.drop p = joinFields (f :: fs) ++ 44 :: rest) :
    fieldC buf p d = (f.charOr d, p + 1 + f.bytes.length)
    ∧ buf.drop (p + 1 + f.bytes.length) = joinFields fs ++ 44 :: rest := by
  rw [join_cons] at h
  have h1 : buf.drop (p + 1) = f.bytes ++ (joinFields fs ++ 44 :: rest) :=
    drop_add_of buf [44] _ p h
  obtain ⟨r1, e⟩ := join_head_comma fs rest
  rw [e] at h1
  refine ⟨fieldC_bytes buf r1 p d f hf h1, ?_⟩
  rw [e]
  exact drop_add_of buf f.bytes _ (p + 1) h1

theorem scanComma_join (buf rest : List Nat) (p : Nat) (f : Field) (fs : List Field)
    (hf : f.IsText) (h : buf.drop p = joinFields (f :: fs) ++ 44 :: rest) :
    scanComma buf p = some (p + 1 + f.bytes.length)
    ∧ buf.drop (p + 1 + f.bytes.length) = joinFields fs ++ 44 :: rest := by
  rw [join_cons] at h
  have h1 : buf.drop (p + 1) = f.bytes ++ (joinFields fs ++ 44 :: rest) :=
    drop_add_of buf [44] _ p h
  obtain ⟨r1, e⟩ := join_head_comma fs rest
  rw [e] at h1
  refine ⟨scanComma_bytes buf r1 p f hf h1, ?_⟩
  rw [e]
  exact drop_add_of buf f.bytes _ (p + 1) h1

/-! ### Latitude and longitude -/

/-- The GGA branch on a well-formed sentence: what its first five field
statements read. -/
theorem ggaFields_join (buf rest : List Nat) (time lat ns lon ew : Field)
    (h1 : time.IsNum) (h2 : lat.IsNum) (h3 : ns.IsChar) (h4 : lon.IsNum) (h5 : ew.IsChar)
    (h : buf.drop 6 = joinFields [time, lat, ns, lon, ew] ++ 44 :: rest) :
    (ggaFields buf).lat = lat.value ∧ (ggaFields buf).ns = ns.charOr 63
    ∧ (ggaFields buf).lon = lon.value ∧ (ggaFields buf).ew = ew.charOr 63 := by
  obtain ⟨e1, d1⟩ := fieldD_join buf rest 6 44 _ _ h1 (Or.inl rfl) h
  obtain ⟨e2, d2⟩ := fieldD_join buf rest _ 44 _ _ h2 (Or.inl rfl) d1
  obtain ⟨e3, d3⟩ := fieldC_join buf rest _ 63 _ _ h3 d2
  obtain ⟨e4, d4⟩ := fieldD_join buf rest _ 44 _ _ h4 (Or.inl rfl) d3
  obtain ⟨e5, -⟩ := fieldC_join buf rest _ 63 _ _ h5 d4
  unfold ggaFields
  simp only [e1, e2, e3, e4, e5, and_self]

/-- The GNS branch on a well-formed sentence: what its first five field
statements read, and where the scan of the positioning mode ends. -/
theorem gns_join (buf rest : List Nat) (time lat ns lon ew mode : Field)
    (h1 : time.IsNum) (h2 : lat.IsNum) (h3 : ns.IsChar) (h4 : lon.IsNum) (h5 : ew.IsChar)
    (h6 : mode.IsText)
    (h : buf.drop 6 = joinFields [time, lat, ns, lon, ew, mode] ++ 44 :: rest) :
    ∃ p1 p2 p3 p4 p5 p6, fieldD buf 6 0 = (time.value, p1) ∧ fieldD buf p1 0 = (lat.value, p2)
      ∧ fieldC buf p2 63 = (ns.charOr 63, p3) ∧ fieldD buf p3 0 = (lon.value, p4)
      ∧ fieldC buf p4 63 = (ew.charOr 63, p5) ∧ scanComma buf p5 = some p6
      ∧ buf.drop p6 = 44 :: rest := by
  obtain ⟨e1, d1⟩ := fieldD_join buf rest 6 44 _ _ h1 (Or.inl rfl) h
  obtain ⟨e2, d2⟩ := fieldD_join buf rest _ 44 _ _ h2 (Or.inl rfl) d1
  obtain ⟨e3, d3⟩ := fieldC_join buf rest _ 63 _ _ h3 d2
  obtain ⟨e4, d4⟩ := fieldD_join buf rest _ 44 _ _ h4 (Or.inl rfl) d3
  obtain ⟨e5, d5⟩ := fieldC_join buf rest _ 63 _ _ h5 d4
  obtain ⟨e6, d6⟩ := scanComma_join buf rest _ _ _ h6 d5
  exact ⟨_, _, _, _, _, _, e1, e2, e3, e4, e5, e6, d6⟩

/-- The RMC branch on a well-formed sentence: what its first eight field
statements read. -/
theorem rmcFields_join (buf rest : List Nat) (time status lat ns lon ew spd cog : Field)
    (h1 : time.IsNum) (h2 : status.IsChar) (h3 : lat.IsNum) (h4 : ns.IsChar)
    (h5 : lon.IsNum) (h6 : ew.IsChar) (h7 : spd.IsNum) (h8 : cog.IsNum)
    (h : buf.drop 6 = joinFields [time, status, lat, ns, lon, ew, spd, cog] ++ 44 :: rest) :
    (rmcFields buf).nmea_time = time.value
    ∧ (rmcFields buf).lat = lat.value ∧ (rmcFields buf).ns = ns.charOr 63
    ∧ (rmcFields buf).lon = lon.value ∧ (rmcFields buf).ew = ew.charOr 63
    ∧ (rmcFields buf).ground_speed_K = spd.value ∧ (rmcFields buf).A_track = cog.value := by
  obtain ⟨e1, d1⟩ := fieldD_join buf rest 6 44 _ _ h1 (Or.inl rfl) h
  obtain ⟨e2, d2⟩ := fieldC_join buf rest _ 0 _ _ h2 d1
  obtain ⟨e3, d3⟩ := fieldD_join buf rest _ 44 _ _ h3 (Or.inl rfl) d2
  obtain ⟨e4, d4⟩ := fieldC_join buf rest _ 63 _ _ h4 d3
  obtain ⟨e5, d5⟩ := fieldD_join buf rest _ 44 _ _ h5 (Or.inl rfl) d4
  obtain ⟨e6, d6⟩ := fieldC_join buf rest _ 63 _ _ h6 d5
  obtain ⟨e7, d7⟩ := fieldD_join buf rest _ 44 _ _ h7 (Or.inl rfl) d6
  obtain ⟨e8, -⟩ := fieldD_join buf rest _ 44 _ _ h8 (Or.inl rfl) d7
  unfold rmcFields
  simp only [e1, e2, e3, e4, e5, e6, e7, e8, and_self]

/-- The timestamp block changes `time_utc_usec`, `_last_timestamp_time` and
the list of `setClock` calls, and nothing else. -/
theorem stampTime_keeps (E : Env) (s : GPSDriverNMEA) (t : tm) (x : ℚ) :
    (stampTime E s t x)._gps_position
      = { s._gps_position with
          time_utc_usec := if E.mktime t > E.GPS_EPOCH_SECS then E.mktime t * 1000000 else 0 }
    ∧ (stampTime E s t x).decoder = s.decoder
    ∧ (stampTime E s t x)._satellite_info = s._satellite_info
    ∧ (stampTime E s t x)._rate_count_lat_lon = s._rate_count_lat_lon
    ∧ (stampTime E s t x)._rate_count_vel = s._rate_count_vel
    ∧ (stampTime E s t x)._last_timestamp_time = E.gps_absolute_time := by
  by_cases he : E.mktime t > E.GPS_EPOCH_SECS
  · rw [stampTime_above _ _ _ _ he, if_pos he]
    exact ⟨rfl, rfl, rfl, rfl, rfl, rfl⟩
  · rw [stampTime_below _ _ _ _ he, if_neg he]
    exact ⟨rfl, rfl, rfl, rfl, rfl, rfl⟩

theorem finish_fst (s : GPSDriverNMEA) (ret : Int) :
    (finish s ret).2 = ret
    ∧ (finish s ret).1._gps_position.lat = s._gps_position.lat
    ∧ (finish s ret).1._gps_position.lon = s._gps_position.lon := by
  unfold finish
  split <;> exact ⟨rfl, rfl, rfl⟩

theorem degMin_near_conv_sign (f : Field) (c d : Nat) (m : ℚ) (hd : d ≤ 180) (hm0 : 0 ≤ m)
    (hm : m < 60) :
    |degMin (f.sign c * (100 * (d : ℚ) + m)) - conv (f.sign c * (100 * (d : ℚ) + m))| ≤ 1 := by
  unfold Field.sign
  split_ifs
  · rw [neg_one_mul, degMin_neg, conv_neg, ← abs_neg]
    have e : -(-degMin (100 * (d : ℚ) + m) - -conv (100 * (d : ℚ) + m))
        = degMin (100 * (d : ℚ) + m) - conv (100 * (d : ℚ) + m) := by ring
    rw [e]
    exact degMin_near_conv d m hd hm0 hm
  · rw [one_mul]
    exact degMin_near_conv d m hd hm0 hm

theorem coordinate_of_sign (ns : Field) (c : Nat) (v : ℚ) (hns : ns.IsChar)
    (hc : (63 : Nat) ≠ c) :
    degMin (if ns.charOr 63 = c then -v else v) = degMin (ns.sign c * v)
    ∧ (ns = .char c → degMin (ns.sign c * v) = -degMin v)
    ∧ (ns ≠ .char c → degMin (ns.sign c * v) = degMin v) := by
  refine ⟨?_, ?_, ?_⟩
  · rw [sign_apply ns c 63 v hns hc]
  · intro h
    rw [Field.sign, if_pos h, neg_one_mul, degMin_neg]
  · intro h
    rw [Field.sign, if_neg h, one_mul]

theorem abs_sin_le_of_small (d : ℝ) (hd : |d| ≤ 1) : |Real.sin d| ≤ |d| := by
  have hpi : (1 : ℝ) ≤ Real.pi := by linarith [Real.pi_gt_three]
  rcases le_total 0 d with h | h
  · have h1 := Real.sin_le h
    have h2 : 0 ≤ Real.sin d :=
      Real.sin_nonneg_of_nonneg_of_le_pi h (by linarith [le_of_abs_le hd])
    rw [abs_of_nonneg h2, abs_of_nonneg h]
    exact h1
  · have h1 := Real.le_sin h
    have h2 : Real.sin d ≤ 0 :=
      Real.sin_nonpos_of_nonnpos_of_neg_pi_le h (by linarith [neg_le_of_abs_le hd])
    rw [abs_of_nonpos h2, abs_of_nonpos h]
    linarith

/-- A quarter turn at 10 knots, with `M_PI_F`, `cosf` and `sinf` accurate to
1e-6 at the angle: the north velocity is within 1e-5 of 0 and the east
velocity within 1e-4 of 5.1444. -/
theorem quarter_turn_bounds (P c sn : ℝ) (hP : |P - Real.pi| ≤ 1 / 1000000)
    (hc : |c - Real.cos (90 * P / 180)| ≤ 1 / 1000000)
    (hs : |sn - Real.sin (90 * P / 180)| ≤ 1 / 1000000) :
    |10 / (19438445 / 10000000) * c| ≤ 1 / 100000
    ∧ |10 / (19438445 / 10000000) * sn - 51444 / 10000| ≤ 1 / 10000 := by
  have e : 90 * P / 180 = Real.pi / 2 - (Real.pi - P) / 2 := by ring
  rw [e, Real.cos_pi_div_two_sub] at hc
  rw [e, Real.sin_pi_div_two_sub] at hs
  obtain ⟨p1, p2⟩ := abs_le.1 hP
  have hd : |(Real.pi - P) / 2| ≤ 1 / 2000000 := by
    rw [abs_le]
    constructor <;> linarith
  have h1 := abs_sin_le_of_small ((Real.pi - P) / 2) (by linarith)
  have h2 := Real.one_sub_sq_div_two_le_cos (x := (Real.pi - P) / 2)
  have h3 := Real.cos_le_one ((Real.pi - P) / 2)
  have h4 : ((Real.pi - P) / 2) ^ 2 ≤ (1 / 2000000) ^ 2 := by
    rw [← sq_abs]
    exact pow_le_pow_left₀ (abs_nonneg _) hd 2
  obtain ⟨c1, c2⟩ := abs_le.1 hc
  obtain ⟨s1, s2⟩ := abs_le.1 hs
  obtain ⟨d1, d2⟩ := abs_le.1 (h1.trans hd)
  constructor
  · rw [abs_le]
    constructor <;> linarith
  · rw [abs_le]
    constructor <;> linarith

/-! ### Velocity: the RMC and the VTG branch -/

/-- The VTG branch on a well-formed sentence: what its first five field
statements read. -/
theorem vtg_join (buf rest : List Nat) (cog t mcog m spd : Field)
    (h1 : cog.IsNum) (h2 : t.IsChar) (h3 : mcog.IsNum) (h4 : m.IsChar) (h5 : spd.IsNum)
    (h : buf.drop 6 = joinFields [cog, t, mcog, m, spd] ++ 44 :: rest) :
    ∃ p1 p2 p3 p4 p5, fieldD buf 6 0 = (cog.value, p1) ∧ fieldC buf p1 0 = (t.charOr 0, p2)
      ∧ fieldD buf p2 0 = (mcog.value, p3) ∧ fieldC buf p3 0 = (m.charOr 0, p4)
      ∧ fieldD buf p4 0 = (spd.value, p5) := by
  obtain ⟨e1, d1⟩ := fieldD_join buf rest 6 44 _ _ h1 (Or.inl rfl) h
  obtain ⟨e2, d2⟩ := fieldC_join buf rest _ 0 _ _ h2 d1
  obtain ⟨e3, d3⟩ := fieldD_join buf rest _ 44 _ _ h3 (Or.inl rfl) d2
  obtain ⟨e4, d4⟩ := fieldC_join buf rest _ 0 _ _ h4 d3
  obtain ⟨e5, -⟩ := fieldD_join buf rest _ 44 _ _ h5 (Or.inl rfl) d4
  exact ⟨_, _, _, _, _, e1, e2, e3, e4, e5⟩

/-- Claim C16 (velocity decomposition shared by RMC and VTG). For every
environment, driver and `len ≥ 7`, and every buffer that holds a well-formed
RMC sentence, or a well-formed VTG sentence with 9 commas, with the ground
speed field `k` (knots) and the true track field `t` (degrees):
`handleMessage` returns 0 and stores `vel_m_s = k / 1.9438445`,
`cog_rad = t * M_PI_F / 180`, `vel_n_m_s = vel_m_s * cosf(cog_rad)` and
`vel_e_m_s = vel_m_s * sinf(cog_rad)`, sets `vel_ned_valid` and increments
the velocity rate counter by one; so both sentence types store the same for
the same `k` and `t`. For `t = 90` and `k = 10`, when `M_PI_F`, `cosf` and
`sinf` are accurate to 1e-6 at that angle, the north velocity is within 1e-5
of 0 and the east velocity within 1e-4 of 5.1444. -/
theorem velocity_decomposition (E : Env) (s : GPSDriverNMEA) (len : Int) (hlen : 7 ≤ len)
    (k t time status lat ns lon ew tT mcog mM : Field) (rest : List Nat)
    (hw : k.IsNum ∧ t.IsNum)
    (h : (frameTag s.decoder._rx_buffer = bytes "RMC"
          ∧ (time.IsNum ∧ status.IsChar ∧ lat.IsNum ∧ ns.IsChar ∧ lon.IsNum ∧ ew.IsChar)
          ∧ s.decoder._rx_buffer.drop 6
            = joinFields [time, status, lat, ns, lon, ew, k, t] ++ 44 :: rest)
      ∨ (frameTag s.decoder._rx_buffer = bytes "VTG"
          ∧ countCommas s.decoder._rx_buffer len = 9
          ∧ (tT.IsChar ∧ mcog.IsNum ∧ mM.IsChar)
          ∧ s.decoder._rx_buffer.drop 6
            = joinFields [t, tT, mcog, mM, k] ++ 44 :: rest)) :
    ∃ s1, handleMessage E s len = some (s1, 0)
      ∧ s1._gps_position.vel_m_s = k.value / (19438445 / 10000000)
      ∧ s1._gps_position.cog_rad = t.value * E.M_PI_F / 180
      ∧ s1._gps_position.vel_n_m_s
        = s1._gps_position.vel_m_s * E.cosf s1._gps_position.cog_rad
      ∧ s1._gps_position.vel_e_m_s
        = s1._gps_position.vel_m_s * E.sinf s1._gps_position.cog_rad
      ∧ s1._gps_position.vel_ned_valid = true
      ∧ s1._rate_count_vel = s._rate_count_vel + 1
      ∧ (t.value = 90 → k.value = 10 →
          |(E.M_PI_F : ℝ) - Real.pi| ≤ 1 / 1000000 →
          |(E.cosf (90 * E.M_PI_F / 180) : ℝ) - Real.cos (90 * (E.M_PI_F : ℝ) / 180)|
            ≤ 1 / 1000000 →
          |(E.sinf (90 * E.M_PI_F / 180) : ℝ) - Real.sin (90 * (E.M_PI_F : ℝ) / 180)|
            ≤ 1 / 1000000 →
          |(s1._gps_position.vel_n_m_s : ℝ)| ≤ 1 / 100000
          ∧ |(s1._gps_position.vel_e_m_s : ℝ) - 51444 / 10000| ≤ 1 / 10000) := by
  obtain ⟨wk, wt⟩ := hw
  have key : ∃ s1, handleMessage E s len = some (s1, 0)
      ∧ s1._gps_position.vel_m_s = k.value / (19438445 / 10000000)
      ∧ s1._gps_position.cog_rad = t.value * E.M_PI_F / 180
      ∧ s1._gps_position.vel_n_m_s
        = s1._gps_position.vel_m_s * E.cosf s1._gps_position.cog_rad
      ∧ s1._gps_position.vel_e_m_s
        = s1._gps_position.vel_m_s * E.sinf s1._gps_position.cog_rad
      ∧ s1._gps_position.vel_ned_valid = true
      ∧ s1._rate_count_vel = s._rate_count_vel + 1 := by
    rcases h with ⟨ht, ⟨w1, w2, w3, w4, w5, w6⟩, hb⟩ | ⟨ht, hc, ⟨w2, w3, w4⟩, hb⟩
    · obtain ⟨-, -, -, -, -, v6, v7⟩ :=
        rmcFields_join _ rest _ _ _ _ _ _ _ _ w1 w2 w3 w4 w5 w6 wk wt hb
      refine ⟨handleRMC E s, ?_, ?_⟩
      · rw [handleMessage_rmc E s len hlen ht, finish_zero]
      · rw [handleRMC_eq, (stampTime_keeps _ _ _ _).1, (stampTime_keeps _ _ _ _).2.2.2.2.1,
          ← v6, ← v7]
        exact ⟨rfl, rfl, rfl, rfl, rfl, rfl⟩
    · obtain ⟨p1, p2, p3, p4, p5, e1, e2, e3, e4, e5⟩ :=
        vtg_join _ rest _ _ _ _ _ wt w2 w3 w4 wk hb
      refine ⟨handleVTG E s, ?_, ?_⟩
      · rw [handleMessage_vtg E s len hlen ht hc, finish_zero]
      · unfold handleVTG
        simp only [e1, e2, e3, e4, e5, and_self]
  obtain ⟨s1, k0, k1, k2, k3, k4, k5, k6⟩ := key
  refine ⟨s1, k0, k1, k2, k3, k4, k5, k6, ?_⟩
  intro ht hk hP hc hs
  rw [k3, k4, k1, k2, ht, hk]
  push_cast
  exact quarter_turn_bounds _ _ _ hP hc hs

theorem quarterTurnEnv_accurate :
    |((quarterTurnEnv.M_PI_F : ℚ) : ℝ) - Real.pi| ≤ 1 / 1000000
    ∧ |((quarterTurnEnv.cosf (90 * quarterTurnEnv.M_PI_F / 180) : ℚ) : ℝ)
        - Real.cos (90 * ((quarterTurnEnv.M_PI_F : ℚ) : ℝ) / 180)| ≤ 1 / 1000000
    ∧ |((quarterTurnEnv.sinf (90 * quarterTurnEnv.M_PI_F / 180) : ℚ) : ℝ)
        - Real.sin (90 * ((quarterTurnEnv.M_PI_F : ℚ) : ℝ) / 180)| ≤ 1 / 1000000 := by
  have e1 : ((quarterTurnEnv.M_PI_F : ℚ) : ℝ) = 3141592 / 1000000 := by
    show (((3141592 / 1000000 : ℚ)) : ℝ) = 3141592 / 1000000
    push_cast
    rfl
  have e2 : ((quarterTurnEnv.cosf (90 * quarterTurnEnv.M_PI_F / 180) : ℚ) : ℝ) = 0 := by
    show (((0 : ℚ)) : ℝ) = 0
    push_cast
    rfl
  have e3 : ((quarterTurnEnv.sinf (90 * quarterTurnEnv.M_PI_F / 180) : ℚ) : ℝ) = 1 := by
    show (((1 : ℚ)) : ℝ) = 1
    push_cast
    rfl
  rw [e1, e2, e3]
  have g1 := Real.pi_gt_d6
  have g2 := Real.pi_lt_d6
  have e : (90 : ℝ) * (3141592 / 1000000) / 180
      = Real.pi / 2 - (Real.pi - 3141592 / 1000000) / 2 := by ring
  rw [e, Real.cos_pi_div_two_sub, Real.sin_pi_div_two_sub]
  have hd : |(Real.pi - 3141592 / 1000000) / 2| ≤ 1 / 2000000 := by
    rw [abs_le]
    constructor <;> linarith
  have h1 := abs_sin_le_of_small ((Real.pi - 3141592 / 1000000) / 2) (by linarith)
  have h2 := Real.one_sub_sq_div_two_le_cos (x := (Real.pi - 3141592 / 1000000) / 2)
  have h3 := Real.cos_le_one ((Real.pi - 3141592 / 1000000) / 2)
  have h4 : ((Real.pi - 3141592 / 1000000) / 2) ^ 2 ≤ (1 / 2000000) ^ 2 := by
    rw [← sq_abs]
    exact pow_le_pow_left₀ (abs_nonneg _) hd 2
  obtain ⟨d1, d2⟩ := abs_le.1 (h1.trans hd)
  refine ⟨?_, ?_, ?_⟩
  · rw [abs_le]
    constructor <;> linarith
  · rw [abs_le]
    constructor <;> linarith
  · rw [abs_le]
    constructor <;> linarith

/-- Witness for `velocity_decomposition`: the RMC sentence
`$GPRMC,172809.456,A,3723.46587704,N,12202.26957864,W,10.0,90.0,120716,,,A*7D`
with 10 knots on the track 90 degrees. -/
theorem velocity_decomposition_witness :
    ((7 : Int) ≤ 76
      ∧ ((Field.dec false (bytes "10") (bytes "0")).IsNum
        ∧ (Field.dec false (bytes "90") (bytes "0")).IsNum)
      ∧ frameTag
          (driverWith (bytes
            "$GPRMC,172809.456,A,3723.46587704,N,12202.26957864,W,10.0,90.0,120716,,,A*7D")).decoder._rx_buffer
        = bytes "RMC"
      ∧ ((Field.dec false (bytes "172809") (bytes "456")).IsNum
        ∧ (Field.char 65).IsChar
        ∧ (Field.dec false (bytes "3723") (bytes "46587704")).IsNum
        ∧ (Field.char 78).IsChar
        ∧ (Field.dec false (bytes "12202") (bytes "26957864")).IsNum
        ∧ (Field.char 87).IsChar)
      ∧ (driverWith (bytes
            "$GPRMC,172809.456,A,3723.46587704,N,12202.26957864,W,10.0,90.0,120716,,,A*7D")).decoder._rx_buffer.drop 6
        = joinFields [.dec false (bytes "172809") (bytes "456"), .char 65,
            .dec false (bytes "3723") (bytes "46587704"), .char 78,
            .dec false (bytes "12202") (bytes "26957864"), .char 87,
            .dec false (bytes "10") (bytes "0"), .dec false (bytes "90") (bytes "0")]
          ++ 44 :: bytes "120716,,,A*7D"
      ∧ (Field.dec false (bytes "90") (bytes "0")).value = 90
      ∧ (Field.dec false (bytes "10") (bytes "0")).value = 10
      ∧ |((quarterTurnEnv.M_PI_F : ℚ) : ℝ) - Real.pi| ≤ 1 / 1000000
      ∧ |((quarterTurnEnv.cosf (90 * quarterTurnEnv.M_PI_F / 180) : ℚ) : ℝ)
          - Real.cos (90 * ((quarterTurnEnv.M_PI_F : ℚ) : ℝ) / 180)| ≤ 1 / 1000000
      ∧ |((quarterTurnEnv.sinf (90 * quarterTurnEnv.M_PI_F / 180) : ℚ) : ℝ)
          - Real.sin (90 * ((quarterTurnEnv.M_PI_F : ℚ) : ℝ) / 180)| ≤ 1 / 1000000)
    ∧ ∃ s1, handleMessage quarterTurnEnv
          (driverWith (bytes
            "$GPRMC,172809.456,A,3723.46587704,N,12202.26957864,W,10.0,90.0,120716,,,A*7D")) 76
        = some (s1, 0)
      ∧ s1._gps_position.vel_m_s = 10 / (19438445 / 10000000)
      ∧ s1._gps_position.cog_rad = 90 * quarterTurnEnv.M_PI_F / 180
      ∧ s1._gps_position.vel_ned_valid = true
      ∧ s1._rate_count_vel = 1
      ∧ |(s1._gps_position.vel_n_m_s : ℝ)| ≤ 1 / 100000
      ∧ |(s1._gps_position.vel_e_m_s : ℝ) - 51444 / 10000| ≤ 1 / 10000 := by
  have hw : (Field.dec false (bytes "10") (bytes "0")).IsNum
      ∧ (Field.dec false (bytes "90") (bytes "0")).IsNum := by
    decide
  have hw2 : (Field.dec false (bytes "172809") (bytes "456")).IsNum
      ∧ (Field.char 65).IsChar
      ∧ (Field.dec false (bytes "3723") (bytes "46587704")).IsNum
      ∧ (Field.char 78).IsChar
      ∧ (Field.dec false (bytes "12202") (bytes "26957864")).IsNum
      ∧ (Field.char 87).IsChar := by
    decide
  have hb : (driverWith (bytes
        "$GPRMC,172809.456,A,3723.46587704,N,12202.26957864,W,10.0,90.0,120716,,,A*7D")).decoder._rx_buffer.drop 6
      = joinFields [.dec false (bytes "172809") (bytes "456"), .char 65,
          .dec false (bytes "3723") (bytes "46587704"), .char 78,
          .dec false (bytes "12202") (bytes "26957864"), .char 87,
          .dec false (bytes "10") (bytes "0"), .dec false (bytes "90") (bytes "0")]
        ++ 44 :: bytes "120716,,,A*7D" := by
    decide
  have ht : (Field.dec false (bytes "90") (bytes "0")).value = 90 := by decide!
  have hk : (Field.dec false (bytes "10") (bytes "0")).value = 10 := by decide!
  obtain ⟨a1, a2, a3⟩ := quarterTurnEnv_accurate
  obtain ⟨s1, h0, h1, h2, -, -, h5, h6, h7⟩ :=
    velocity_decomposition quarterTurnEnv
      (driverWith (bytes
        "$GPRMC,172809.456,A,3723.46587704,N,12202.26957864,W,10.0,90.0,120716,,,A*7D")) 76
      (by decide) _ _ _ _ _ _ _ _ .empty .empty .empty _ hw
      (Or.inl ⟨by decide, hw2, hb⟩)
  obtain ⟨h8, h9⟩ := h7 ht hk a1 a2 a3
  rw [hk] at h1
  rw [ht] at h2
  exact ⟨⟨by decide, hw, by decide, hw2, hb, ht, hk, a1, a2, a3⟩, s1, h0, h1, h2, h5, h6,
    h8, h9⟩

/-! ### The GSV branch -/

/-- The GSV branch for a `$GP` sentence whose message number lies in
`1 .. all_msg_num`, with a satellite record: the record is not cleared, count
and timestamp are set on the last message, and the loop runs. -/
theorem handleGSV_run (E : Env) (s : GPSDriverNMEA) (si : satellite_info_s)
    (hp : frameTalker s.decoder._rx_buffer = bytes "$GP") (hsi : s._satellite_info = some si)
    (h1 : 1 ≤ (gsvHeader s.decoder._rx_buffer).2.1.1)
    (h2 : (gsvHeader s.decoder._rx_buffer).2.1.1 ≤ (gsvHeader s.decoder._rx_buffer).1.1) :
    handleGSV E s
      = (gsvLoop s.decoder._rx_buffer
          ((4 * ((gsvHeader s.decoder._rx_buffer).2.1.1.toNat - 1) : Nat) : Int)
          (if (gsvHeader s.decoder._rx_buffer).2.1.1 = (gsvHeader s.decoder._rx_buffer).1.1
            then (gsvHeader s.decoder._rx_buffer).2.2.1
              - ((gsvHeader s.decoder._rx_buffer).2.1.1 - 1) * 4
            else 4).toNat
          0 (gsvHeader s.decoder._rx_buffer).2.2.2
          (if (gsvHeader s.decoder._rx_buffer).2.1.1 = (gsvHeader s.decoder._rx_buffer).1.1
            then { si with count := E.SAT_INFO_MAX_SATELLITES, timestamp := E.gps_absolute_time }
            else si)).map fun si2 => { s with _satellite_info := some si2 } := by
  unfold handleGSV
  have hn : ¬ ((gsvHeader s.decoder._rx_buffer).2.1.1 < 1
      ∨ (gsvHeader s.decoder._rx_buffer).2.1.1 > (gsvHeader s.decoder._rx_buffer).1.1) := by
    omega
  have h0 : ¬ ((gsvHeader s.decoder._rx_buffer).2.1.1 = 0) := by omega
  have hb : ((gsvHeader s.decoder._rx_buffer).2.1.1 - 1) * 4
      = ((4 * ((gsvHeader s.decoder._rx_buffer).2.1.1.toNat - 1) : Nat) : Int) := by
    omega
  simp only [hp, ne_eq, not_true_eq_false, ↓reduceIte, hn, hsi, h0, false_and, hb,
    decide_eq_true_eq]

theorem SameSize.inRange (si si1 : satellite_info_s) (h : si.SameSize si1) (k : Nat) :
    si1.InRange k ↔ si.InRange k := by
  obtain ⟨h1, h2, h3, h4, h5⟩ := h
  unfold satellite_info_s.InRange
  rw [h1, h2, h3, h4, h5]

theorem satellite_info_ext (a b : satellite_info_s) (h1 : b.count = a.count)
    (h2 : b.timestamp = a.timestamp) (hs : a.SameSize b) (h : ∀ k, a.SameSlot b k) : b = a := by
  obtain ⟨ta, ca, a1, a2, a3, a4, a5⟩ := a
  obtain ⟨tb, cb, b1, b2, b3, b4, b5⟩ := b
  simp only at h1 h2
  subst h1 h2
  have e1 : b1 = a1 := List.ext_getElem? fun k => (h k).1
  have e2 : b2 = a2 := List.ext_getElem? fun k => (h k).2.1
  have e3 : b3 = a3 := List.ext_getElem? fun k => (h k).2.2.1
  have e4 : b4 = a4 := List.ext_getElem? fun k => (h k).2.2.2.1
  have e5 : b5 = a5 := List.ext_getElem? fun k => (h k).2.2.2.2
  rw [e1, e2, e3, e4, e5]

/-- The loop of the GSV branch, run again on its own result, changes
nothing. -/
theorem gsvLoop_idem (buf : List Nat) (b n y p : Nat) (si res : satellite_info_s)
    (h : gsvLoop buf (b : Int) n y p si = some res) :
    gsvLoop buf (b : Int) n y p res = some res := by
  obtain ⟨c1, c2, c3, c4, c5⟩ := gsvLoop_spec buf b n y p si res h
  have hd : (gsvLoop buf (b : Int) n y p res).isSome := by
    rw [gsvLoop_defined, SameSize.inRange si res c3, ← gsvLoop_defined buf b n y p si, h]
    rfl
  obtain ⟨res2, h2⟩ := Option.isSome_iff_exists.1 hd
  obtain ⟨d1, d2, d3, d4, d5⟩ := gsvLoop_spec buf b n y p res res2 h2
  rw [h2]
  congr 1
  apply satellite_info_ext res res2 d1 d2 d3
  intro k
  by_cases hk : k < y + b ∨ y + n + b ≤ k
  · exact d5 k hk
  · have hj : k - (y + b) < n := by omega
    have e : y + (k - (y + b)) + b = k := by omega
    have r1 := c4 _ hj
    have r2 := d4 _ hj
    rw [e] at r1 r2
    obtain ⟨x1, x2, x3, x4, x5⟩ := r1
    obtain ⟨z1, z2, z3, z4, z5⟩ := r2
    exact ⟨by rw [x1, z1], by rw [x2, z2], by rw [x3, z3], by rw [x4, z4], by rw [x5, z5]⟩

/-- One pass through the loop of the GSV branch with the cursor on the
separator before a well-formed satellite block: the numbers of the block,
and the cursor on the separator after it. -/
theorem gsvRead_join (buf rest : List Nat) (p c : Nat) (b : SatBlock) (fs : List Field)
    (hb : b.IsWellFormed) (hc : c = 44 ∨ c = 42)
    (h : buf.drop p
      = joinFields (b.svid :: b.elevation :: b.azimuth :: b.snr :: fs) ++ c :: rest) :
    (gsvRead buf p).1 = b.values
    ∧ buf.drop (gsvRead buf p).2 = joinFields fs ++ c :: rest := by
  obtain ⟨w1, w2, w3, w4⟩ := hb
  obtain ⟨e1, d1⟩ := fieldL_join buf rest p c _ _ w1 hc h
  obtain ⟨e2, d2⟩ := fieldL_join buf rest _ c _ _ w2 hc d1
  obtain ⟨e3, d3⟩ := fieldL_join buf rest _ c _ _ w3 hc d2
  obtain ⟨e4, d4⟩ := fieldL_join buf rest _ c _ _ w4 hc d3
  unfold gsvRead
  simp only [e1, e2, e3, e4]
  exact ⟨rfl, d4⟩

/-- Pass `j` through the loop of the GSV branch reads block `j` of a row of
well-formed satellite blocks. -/
theorem gsvRead_blocks (buf rest : List Nat) (c : Nat) (hc : c = 44 ∨ c = 42) :
    ∀ (blocks : List SatBlock) (p : Nat),
      (∀ b ∈ blocks, b.IsWellFormed) →
      buf.drop p = joinFields (blockFields blocks) ++ c :: rest →
      ∀ (j : Nat) (b : SatBlock), blocks[j]? = some b →
        (gsvRead buf (gsvCursor buf p j)).1 = b.values := by
  intro blocks
  induction blocks with
  | nil =>
    intro p _ _ j b hj
    simp at hj
  | cons b0 bs ih =>
    intro p hw h j b hj
    obtain ⟨r1, r2⟩ := gsvRead_join buf rest p c b0 (blockFields bs)
      (hw b0 (List.mem_cons_self _ _)) hc h
    cases j with
    | zero =>
      simp only [List.getElem?_cons_zero, Option.some.injEq] at hj
      subst hj
      exact r1
    | succ j =>
      rw [gsvCursor_succ]
      simp only [List.getElem?_cons_succ] at hj
      exact ih _ (fun x hx => hw x (List.mem_cons_of_mem _ hx)) r2 j b hj

theorem gsvHeader_join (buf rest : List Nat) (c : Nat) (n i v : Field) (fs : List Field)
    (h1 : n.IsInt) (h2 : i.IsInt) (h3 : v.IsInt) (hc : c = 44 ∨ c = 42)
    (hb : buf.drop 6 = joinFields (n :: i :: v :: fs) ++ c :: rest) :
    (gsvHeader buf).1.1 = n.intValue ∧ (gsvHeader buf).2.1.1 = i.intValue
    ∧ (gsvHeader buf).2.2.1 = v.intValue
    ∧ buf.drop (gsvHeader buf).2.2.2 = joinFields fs ++ c :: rest := by
  obtain ⟨e1, d1⟩ := fieldL_join buf rest 6 c _ _ h1 hc hb
  obtain ⟨e2, d2⟩ := fieldL_join buf rest _ c _ _ h2 hc d1
  obtain ⟨e3, d3⟩ := fieldL_join buf rest _ c _ _ h3 hc d2
  unfold gsvHeader
  simp only [e1, e2, e3]
  exact ⟨trivial, trivial, trivial, d3⟩

/-- Claim C18 as it is written fails: the satellite record is never cleared.
For every environment, every driver with a satellite record and every
`len ≥ 7`: when `handleMessage` parses the first message of a cycle (a `$GP`
GSV frame with the message number 1) and comes to its end, every slot from
the number of passes of its loop on holds what it held before, whatever an
earlier cycle left there. (The branch clears the arrays when the message
number is 0, which it never is behind the test that rejects numbers below
1.) -/
theorem gsv_first_message_keeps_slots (E : Env) (s : GPSDriverNMEA) (len : Int)
    (hlen : 7 ≤ len) (si : satellite_info_s)
    (ht : frameTag s.decoder._rx_buffer = bytes "GSV")
    (hp : frameTalker s.decoder._rx_buffer = bytes "$GP")
    (hsi : s._satellite_info = some si)
    (h1 : (gsvHeader s.decoder._rx_buffer).2.1.1 = 1)
    (hn : 1 ≤ (gsvHeader s.decoder._rx_buffer).1.1)
    (hd : (handleMessage E s len).isSome) :
    ∃ si1, handleMessage E s len = some ({ s with _satellite_info := some si1 }, 0)
      ∧ ∀ k, (if (1 : Int) = (gsvHeader s.decoder._rx_buffer).1.1
              then (gsvHeader s.decoder._rx_buffer).2.2.1 else 4).toNat ≤ k →
          si.SameSlot si1 k := by
  have hrun := handleGSV_run E s si hp hsi (by rw [h1]) (by rw [h1]; exact hn)
  rw [handleMessage_gsv E s len hlen ht, hrun] at hd ⊢
  rw [h1] at hd ⊢
  simp only [sub_self, zero_mul, sub_zero, Int.toNat_one, Nat.sub_self, mul_zero,
    Option.isSome_map'] at hd ⊢
  obtain ⟨res, hres⟩ := Option.isSome_iff_exists.1 hd
  obtain ⟨-, -, -, -, c5⟩ := gsvLoop_spec _ 0 _ _ _ _ _ hres
  refine ⟨res, ?_, ?_⟩
  · rw [hres]
    rfl
  · intro k hk
    have r := c5 k (Or.inr (by omega))
    by_cases hl : (1 : Int) = (gsvHeader s.decoder._rx_buffer).1.1
    · rw [if_pos hl] at r
      exact r
    · rw [if_neg hl] at r
      exact r

/-- Witness for `gsv_first_message_keeps_slots`: the cycle of the one message
`$GPGSV,1,1,01,05,50,050,55*4D`, parsed into a record whose 20 slots an
earlier cycle has filled with the satellite 9: after the cycle the slots 1
to 19 still hold the satellite 9, not 0. -/
theorem gsv_first_message_keeps_slots_witness :
    ((7 : Int) ≤ 29 ∧ frameTag (driverWithSat gsvSingle).decoder._rx_buffer = bytes "GSV"
      ∧ frameTalker (driverWithSat gsvSingle).decoder._rx_buffer = bytes "$GP"
      ∧ (driverWithSat gsvSingle)._satellite_info = some exampleSatInfo
      ∧ (gsvHeader (driverWithSat gsvSingle).decoder._rx_buffer).2.1.1 = 1
      ∧ 1 ≤ (gsvHeader (driverWithSat gsvSingle).decoder._rx_buffer).1.1
      ∧ (handleMessage exampleEnv (driverWithSat gsvSingle) 29).isSome)
    ∧ ∃ si1, handleMessage exampleEnv (driverWithSat gsvSingle) 29
          = some ({ driverWithSat gsvSingle with _satellite_info := some si1 }, 0)
        ∧ ∀ k, 1 ≤ k → k < 20 → si1.svid[k]? = some 9 ∧ si1.snr[k]? = some 9
            ∧ si1.used[k]? = some true := by
  have hd : (handleMessage exampleEnv (driverWithSat gsvSingle) 29).isSome := by decide!
  refine ⟨⟨by decide, by decide, by decide, rfl, by decide, by decide, hd⟩, ?_⟩
  obtain ⟨si1, h0, h1⟩ :=
    gsv_first_message_keeps_slots exampleEnv (driverWithSat gsvSingle) 29 (by decide)
      exampleSatInfo (by decide) (by decide) rfl (by decide) (by decide) hd
  refine ⟨si1, h0, ?_⟩
  intro k hk1 hk2
  obtain ⟨r1, r2, r3, -, -⟩ := h1 k (by
    have e : (if (1 : Int) = (gsvHeader (driverWithSat gsvSingle).decoder._rx_buffer).1.1
        then (gsvHeader (driverWithSat gsvSingle).decoder._rx_buffer).2.2.1 else 4).toNat
        = 1 := by decide
    rw [e]
    exact hk1)
  rw [r1, r2, r3]
  have hs : ∀ k, k < 20 → exampleSatInfo.svid[k]? = some 9 ∧ exampleSatInfo.snr[k]? = some 9
      ∧ exampleSatInfo.used[k]? = some true := by
    decide
  obtain ⟨q1, q2, q3⟩ := hs k hk2
  exact ⟨q1, q2, q3⟩

/-! ### Parsing a frame twice -/

theorem handleMessage_of_decoder (E : Env) (s s1 : GPSDriverNMEA) (len : Int)
    (hd : s1.decoder = s.decoder) :
    handleMessage E s1 len
      = if len < 7 then some (s1, 0)
        else if tagIs s.decoder._rx_buffer "ZDA" ∧ countCommas s.decoder._rx_buffer len = 6 then
          some (finish (handleZDA E s1) 0)
        else if tagIs s.decoder._rx_buffer "GGA" ∧ countCommas s.decoder._rx_buffer len = 14 then
          some (finish (handleGGA E s1) 1)
        else if tagIs s.decoder._rx_buffer "GNS" then (handleGNS E s1).map fun s2 => finish s2 0
        else if tagIs s.decoder._rx_buffer "RMC" then some (finish (handleRMC E s1) 0)
        else if tagIs s.decoder._rx_buffer "GST" then some (finish (handleGST E s1) 0)
        else if tagIs s.decoder._rx_buffer "GSA" then some (finish (handleGSA E s1) 0)
        else if tagIs s.decoder._rx_buffer "GSV" then (handleGSV E s1).map fun s2 => (s2, 0)
        else if tagIs s.decoder._rx_buffer "VTG" ∧ countCommas s.decoder._rx_buffer len = 9 then
          some (finish (handleVTG E s1) 0)
        else some (finish s1 0) := by
  unfold handleMessage
  rw [hd]

/-- The timestamp block, run again on its own result, leaves the position
record, the satellite record, the time of the last time fix and the decoder
as they are. -/
theorem stampTime_idem (E : Env) (s : GPSDriverNMEA) (t : tm) (x : ℚ) :
    (stampTime E (stampTime E s t x) t x)._gps_position = (stampTime E s t x)._gps_position
    ∧ (stampTime E (stampTime E s t x) t x)._satellite_info
      = (stampTime E s t x)._satellite_info
    ∧ (stampTime E (stampTime E s t x) t x)._last_timestamp_time
      = (stampTime E s t x)._last_timestamp_time
    ∧ (stampTime E (stampTime E s t x) t x).decoder = (stampTime E s t x).decoder := by
  obtain ⟨a1, a2, a3, -, -, a6⟩ := stampTime_keeps E (stampTime E s t x) t x
  obtain ⟨b1, b2, b3, -, -, b6⟩ := stampTime_keeps E s t x
  refine ⟨?_, a3, by rw [a6, b6], a2⟩
  rw [a1, b1]

theorem handleZDA_idem (E : Env) (s : GPSDriverNMEA) :
    (handleZDA E (handleZDA E s))._gps_position = (handleZDA E s)._gps_position
    ∧ (handleZDA E (handleZDA E s))._satellite_info = (handleZDA E s)._satellite_info
    ∧ (handleZDA E (handleZDA E s))._last_timestamp_time
      = (handleZDA E s)._last_timestamp_time
    ∧ (handleZDA E (handleZDA E s)).decoder = (handleZDA E s).decoder := by
  have hd : (handleZDA E s).decoder = s.decoder := by
    rw [handleZDA_eq]
    exact (stampTime_keeps _ _ _ _).2.1
  have e2 : handleZDA E (handleZDA E s)
      = stampTime E
          (stampTime E s (zdaTimeinfo s.decoder._rx_buffer)
            (clockOf (zdaFields s.decoder._rx_buffer).1).2.2)
          (zdaTimeinfo s.decoder._rx_buffer)
          (clockOf (zdaFields s.decoder._rx_buffer).1).2.2 := by
    rw [handleZDA_eq E (handleZDA E s), hd, handleZDA_eq E s]
  rw [e2, handleZDA_eq E s]
  exact stampTime_idem _ _ _ _

theorem handleRMC_idem (E : Env) (s : GPSDriverNMEA) :
    (handleRMC E (handleRMC E s))._gps_position = (handleRMC E s)._gps_position
    ∧ (handleRMC E (handleRMC E s))._satellite_info = (handleRMC E s)._satellite_info
    ∧ (handleRMC E (handleRMC E s))._last_timestamp_time
      = (handleRMC E s)._last_timestamp_time
    ∧ (handleRMC E (handleRMC E s)).decoder = (handleRMC E s).decoder := by
  obtain ⟨b1, b2, b3, -, -, b6⟩ := stampTime_keeps E (rmcStore E s)
    (rmcTimeinfo s.decoder._rx_buffer) (clockOf (rmcFields s.decoder._rx_buffer).nmea_time).2.2
  have hd : (handleRMC E s).decoder = s.decoder := by
    rw [handleRMC_eq]
    exact b2
  obtain ⟨a1, a2, a3, -, -, a6⟩ := stampTime_keeps E (rmcStore E (handleRMC E s))
    (rmcTimeinfo s.decoder._rx_buffer) (clockOf (rmcFields s.decoder._rx_buffer).nmea_time).2.2
  have e2 : handleRMC E (handleRMC E s)
      = stampTime E (rmcStore E (handleRMC E s)) (rmcTimeinfo s.decoder._rx_buffer)
          (clockOf (rmcFields s.decoder._rx_buffer).nmea_time).2.2 := by
    rw [handleRMC_eq E (handleRMC E s), hd]
  have hs : (rmcStore E (handleRMC E s))._gps_position
      = { (handleRMC E s)._gps_position with
          lat := (rmcStore E s)._gps_position.lat
          lon := (rmcStore E s)._gps_position.lon
          vel_m_s := (rmcStore E s)._gps_position.vel_m_s
          vel_n_m_s := (rmcStore E s)._gps_position.vel_n_m_s
          vel_e_m_s := (rmcStore E s)._gps_position.vel_e_m_s
          cog_rad := (rmcStore E s)._gps_position.cog_rad
          vel_ned_valid := true
          c_variance_rad := 1 / 10
          s_variance_m_s := 0 } := by
    unfold rmcStore
    simp only [hd]
  refine ⟨?_, ?_, ?_, ?_⟩
  · rw [e2, a1, hs, handleRMC_eq E s, b1]
    rfl
  · rw [e2, a3]
    rfl
  · rw [e2, a6, handleRMC_eq E s, b6]
  · rw [e2, a2]
    exact hd.trans hd.symm

theorem finish_one (s : GPSDriverNMEA) :
    finish s 1
      = ({ s with
          _gps_position :=
            { s._gps_position with
              timestamp_time_relative :=
                toInt32 (s._last_timestamp_time - s._gps_position.timestamp) } }, 1) := by
  unfold finish
  rw [if_pos (by decide)]

theorem handleGGA_idem (E : Env) (s : GPSDriverNMEA) :
    (finish (handleGGA E (finish (handleGGA E s) 1).1) 1).1._gps_position
      = (finish (handleGGA E s) 1).1._gps_position
    ∧ (finish (handleGGA E (finish (handleGGA E s) 1).1) 1).1._satellite_info
      = (finish (handleGGA E s) 1).1._satellite_info
    ∧ (finish (handleGGA E (finish (handleGGA E s) 1).1) 1).1._last_timestamp_time
      = (finish (handleGGA E s) 1).1._last_timestamp_time
    ∧ (finish (handleGGA E (finish (handleGGA E s) 1).1) 1).1.decoder
      = (finish (handleGGA E s) 1).1.decoder := by
  rw [finish_one, finish_one]
  exact ⟨rfl, rfl, rfl, rfl⟩

theorem handleGST_idem (E : Env) (s : GPSDriverNMEA) :
    handleGST E (handleGST E s) = handleGST E s := by
  rfl

theorem handleGSA_idem (E : Env) (s : GPSDriverNMEA) :
    handleGSA E (handleGSA E s) = handleGSA E s := by
  rfl

theorem handleGNS_idem (E : Env) (s s1 : GPSDriverNMEA) (h : handleGNS E s = some s1) :
    ∃ s2, handleGNS E s1 = some s2 ∧ s2._gps_position = s1._gps_position
      ∧ s2._satellite_info = s1._satellite_info
      ∧ s2._last_timestamp_time = s1._last_timestamp_time ∧ s2.decoder = s1.decoder := by
  unfold handleGNS at h
  simp only [Option.map_eq_some'] at h
  obtain ⟨q, hq, rfl⟩ := h
  unfold handleGNS
  simp only [hq, Option.map_some']
  exact ⟨_, rfl, rfl, rfl, rfl, rfl⟩

theorem handleGSV_idem (E : Env) (s s1 : GPSDriverNMEA) (h : handleGSV E s = some s1) :
    handleGSV E s1 = some s1 := by
  by_cases hp : frameTalker s.decoder._rx_buffer = bytes "$GP"
  swap
  · have e : handleGSV E s = some s := by
      unfold handleGSV
      rw [if_pos hp]
    rw [e] at h
    cases h
    exact e
  by_cases hi : (gsvHeader s.decoder._rx_buffer).2.1.1 < 1
      ∨ (gsvHeader s.decoder._rx_buffer).2.1.1 > (gsvHeader s.decoder._rx_buffer).1.1
  · have e : handleGSV E s = some s := by
      unfold handleGSV
      simp only [hp, ne_eq, not_true_eq_false, ↓reduceIte, hi]
    rw [e] at h
    cases h
    exact e
  cases hsi : s._satellite_info with
  | none =>
    have e : handleGSV E s = some s := by
      unfold handleGSV
      simp only [hp, ne_eq, not_true_eq_false, ↓reduceIte, hi, hsi]
    rw [e] at h
    cases h
    exact e
  | some si =>
    have i1 : 1 ≤ (gsvHeader s.decoder._rx_buffer).2.1.1 := by omega
    have i2 : (gsvHeader s.decoder._rx_buffer).2.1.1 ≤ (gsvHeader s.decoder._rx_buffer).1.1 := by
      omega
    rw [handleGSV_run E s si hp hsi i1 i2] at h
    simp only [Option.map_eq_some'] at h
    obtain ⟨res, hres, rfl⟩ := h
    obtain ⟨c1, c2, -⟩ := gsvLoop_spec _ _ _ _ _ _ _ hres
    have hidem := gsvLoop_idem _ _ _ _ _ _ _ hres
    rw [handleGSV_run E { s with _satellite_info := some res } res hp rfl i1 i2]
    have hres' : (if (gsvHeader s.decoder._rx_buffer).2.1.1
          = (gsvHeader s.decoder._rx_buffer).1.1
        then ({ res with count := E.SAT_INFO_MAX_SATELLITES,
                         timestamp := E.gps_absolute_time } : satellite_info_s)
        else res) = res := by
      split_ifs with hl
      · rw [if_pos hl] at c1 c2
        simp only at c1 c2
        rw [← c1, ← c2]
      · rfl
    show Option.map _ (gsvLoop s.decoder._rx_buffer _ _ 0 _
      (if (gsvHeader s.decoder._rx_buffer).2.1.1 = (gsvHeader s.decoder._rx_buffer).1.1
        then ({ res with count := E.SAT_INFO_MAX_SATELLITES,
                         timestamp := E.gps_absolute_time } : satellite_info_s)
        else res)) = _
    rw [hres', hidem]
    rfl

theorem handleVTG_idem (E : Env) (s : GPSDriverNMEA) :
    (handleVTG E (handleVTG E s))._gps_position = (handleVTG E s)._gps_position
    ∧ (handleVTG E (handleVTG E s))._satellite_info = (handleVTG E s)._satellite_info
    ∧ (handleVTG E (handleVTG E s))._last_timestamp_time
      = (handleVTG E s)._last_timestamp_time
    ∧ (handleVTG E (handleVTG E s)).decoder = (handleVTG E s).decoder :=
  ⟨rfl, rfl, rfl, rfl⟩

theorem handleGSV_decoder (E : Env) (s s1 : GPSDriverNMEA) (h : handleGSV E s = some s1) :
    s1.decoder = s.decoder := by
  by_cases hp : frameTalker s.decoder._rx_buffer = bytes "$GP"
  swap
  · have e : handleGSV E s = some s := by
      unfold handleGSV
      rw [if_pos hp]
    rw [e] at h
    cases h
    rfl
  by_cases hi : (gsvHeader s.decoder._rx_buffer).2.1.1 < 1
      ∨ (gsvHeader s.decoder._rx_buffer).2.1.1 > (gsvHeader s.decoder._rx_buffer).1.1
  · have e : handleGSV E s = some s := by
      unfold handleGSV
      simp only [hp, ne_eq, not_true_eq_false, ↓reduceIte, hi]
    rw [e] at h
    cases h
    rfl
  cases hsi : s._satellite_info with
  | none =>
    have e : handleGSV E s = some s := by
      unfold handleGSV
      simp only [hp, ne_eq, not_true_eq_false, ↓reduceIte, hi, hsi]
    rw [e] at h
    cases h
    rfl
  | some si =>
    rw [handleGSV_run E s si hp hsi (by omega) (by omega)] at h
    simp only [Option.map_eq_some'] at h
    obtain ⟨res, -, rfl⟩ := h
    rfl

/-- Claim C20 (idempotence of parsing). For every environment (one reading
of the clock, one function `mktime`), every driver and every `len`: when
`handleMessage` on a frame gives the driver `s1` and the value `r`, then
`handleMessage` on the same frame in `s1` gives `r` again and a driver with
the same position record, the same satellite record, the same time of the
last time fix and the same decoder as `s1`; what may differ is the two rate
counters (and `setClock` is called again). -/
theorem parse_idempotent (E : Env) (s s1 : GPSDriverNMEA) (len r : Int)
    (h : handleMessage E s len = some (s1, r)) :
    ∃ s2, handleMessage E s1 len = some (s2, r)
      ∧ s2._gps_position = s1._gps_position
      ∧ s2._satellite_info = s1._satellite_info
      ∧ s2._last_timestamp_time = s1._last_timestamp_time
      ∧ s2.decoder = s1.decoder := by
  have h' := h
  rw [handleMessage_of_decoder E s s len rfl] at h'
  by_cases c0 : len < 7
  · rw [if_pos c0] at h'
    simp only [Option.some.injEq, Prod.mk.injEq] at h'
    obtain ⟨rfl, rfl⟩ := h'
    exact ⟨s, h, rfl, rfl, rfl, rfl⟩
  rw [if_neg c0] at h'
  by_cases cZ : tagIs s.decoder._rx_buffer "ZDA" = true ∧ countCommas s.decoder._rx_buffer len = 6
  · rw [if_pos cZ, finish_zero] at h'
    simp only [Option.some.injEq, Prod.mk.injEq] at h'
    obtain ⟨rfl, rfl⟩ := h'
    have hd : (handleZDA E s).decoder = s.decoder := by
      rw [handleZDA_eq]
      exact (stampTime_keeps _ _ _ _).2.1
    refine ⟨handleZDA E (handleZDA E s), ?_, handleZDA_idem E s⟩
    rw [handleMessage_of_decoder E s _ len hd, if_neg c0, if_pos cZ, finish_zero]
  rw [if_neg cZ] at h'
  by_cases cG : tagIs s.decoder._rx_buffer "GGA" = true
      ∧ countCommas s.decoder._rx_buffer len = 14
  · rw [if_pos cG] at h'
    simp only [Option.some.injEq] at h'
    have e1 : s1 = (finish (handleGGA E s) 1).1 := by rw [h']
    have e2 : r = 1 := by
      have := congrArg Prod.snd h'
      rw [(finish_fst _ _).1] at this
      exact this.symm
    subst e1 e2
    have hd : (finish (handleGGA E s) 1).1.decoder = s.decoder := by
      rw [finish_one]
      rfl
    refine ⟨(finish (handleGGA E (finish (handleGGA E s) 1).1) 1).1, ?_, handleGGA_idem E s⟩
    rw [handleMessage_of_decoder E s _ len hd, if_neg c0, if_neg cZ, if_pos cG, finish_one]
  rw [if_neg cG] at h'
  by_cases cN : tagIs s.decoder._rx_buffer "GNS" = true
  · rw [if_pos cN] at h'
    simp only [Option.map_eq_some', finish_zero, Prod.mk.injEq] at h'
    obtain ⟨a, ha, rfl, rfl⟩ := h'
    obtain ⟨s2, g1, g2, g3, g4, g5⟩ := handleGNS_idem E s a ha
    have hd : a.decoder = s.decoder := by
      unfold handleGNS at ha
      simp only [Option.map_eq_some'] at ha
      obtain ⟨q, -, rfl⟩ := ha
      rfl
    refine ⟨s2, ?_, g2, g3, g4, g5⟩
    rw [handleMessage_of_decoder E s _ len hd, if_neg c0, if_neg cZ, if_neg cG, if_pos cN, g1]
    simp [finish_zero]
  rw [if_neg cN] at h'
  by_cases cR : tagIs s.decoder._rx_buffer "RMC" = true
  · rw [if_pos cR, finish_zero] at h'
    simp only [Option.some.injEq, Prod.mk.injEq] at h'
    obtain ⟨rfl, rfl⟩ := h'
    have hd : (handleRMC E s).decoder = s.decoder := by
      rw [handleRMC_eq]
      exact (stampTime_keeps _ _ _ _).2.1
    refine ⟨handleRMC E (handleRMC E s), ?_, handleRMC_idem E s⟩
    rw [handleMessage_of_decoder E s _ len hd, if_neg c0, if_neg cZ, if_neg cG, if_neg cN,
      if_pos cR, finish_zero]
  rw [if_neg cR] at h'
  by_cases cT : tagIs s.decoder._rx_buffer "GST" = true
  · rw [if_pos cT, finish_zero] at h'
    simp only [Option.some.injEq, Prod.mk.injEq] at h'
    obtain ⟨rfl, rfl⟩ := h'
    refine ⟨handleGST E s, ?_, rfl, rfl, rfl, rfl⟩
    rw [handleMessage_of_decoder E s (handleGST E s) len rfl, if_neg c0, if_neg cZ, if_neg cG,
      if_neg cN, if_neg cR, if_pos cT, finish_zero, handleGST_idem]
  rw [if_neg cT] at h'
  by_cases cA : tagIs s.decoder._rx_buffer "GSA" = true
  · rw [if_pos cA, finish_zero] at h'
    simp only [Option.some.injEq, Prod.mk.injEq] at h'
    obtain ⟨rfl, rfl⟩ := h'
    refine ⟨handleGSA E s, ?_, rfl, rfl, rfl, rfl⟩
    rw [handleMessage_of_decoder E s (handleGSA E s) len rfl, if_neg c0, if_neg cZ, if_neg cG,
      if_neg cN, if_neg cR, if_neg cT, if_pos cA, finish_zero, handleGSA_idem]
  rw [if_neg cA] at h'
  by_cases cV : tagIs s.decoder._rx_buffer "GSV" = true
  · rw [if_pos cV] at h'
    simp only [Option.map_eq_some', Prod.mk.injEq] at h'
    obtain ⟨a, ha, rfl, rfl⟩ := h'
    have hd : a.decoder = s.decoder := handleGSV_decoder E s a ha
    refine ⟨a, ?_, rfl, rfl, rfl, rfl⟩
    rw [handleMessage_of_decoder E s _ len hd, if_neg c0, if_neg cZ, if_neg cG, if_neg cN,
      if_neg cR, if_neg cT, if_neg cA, if_pos cV, handleGSV_idem E s a ha]
    rfl
  rw [if_neg cV] at h'
  by_cases cK : tagIs s.decoder._rx_buffer "VTG" = true
      ∧ countCommas s.decoder._rx_buffer len = 9
  · rw [if_pos cK, finish_zero] at h'
    simp only [Option.some.injEq, Prod.mk.injEq] at h'
    obtain ⟨rfl, rfl⟩ := h'
    refine ⟨handleVTG E (handleVTG E s), ?_, handleVTG_idem E s⟩
    rw [handleMessage_of_decoder E s (handleVTG E s) len rfl, if_neg c0, if_neg cZ, if_neg cG,
      if_neg cN, if_neg cR, if_neg cT, if_neg cA, if_neg cV, if_pos cK, finish_zero]
  · rw [if_neg cK, finish_zero] at h'
    simp only [Option.some.injEq, Prod.mk.injEq] at h'
    obtain ⟨rfl, rfl⟩ := h'
    exact ⟨s, h, rfl, rfl, rfl, rfl⟩

/-- Witness for `parse_idempotent`: the GGA example sentence, parsed twice;
both calls return 1, and the second one leaves the position record as the
first one made it. -/
theorem parse_idempotent_witness :
    handleMessage exampleEnv (driverWith ggaReference) 87
      = some ((finish (handleGGA exampleEnv (driverWith ggaReference)) 1).1, 1)
    ∧ ∃ s2, handleMessage exampleEnv
          (finish (handleGGA exampleEnv (driverWith ggaReference)) 1).1 87 = some (s2, 1)
        ∧ s2._gps_position
          = (finish (handleGGA exampleEnv (driverWith ggaReference)) 1).1._gps_position
        ∧ s2._satellite_info
          = (finish (handleGGA exampleEnv (driverWith ggaReference)) 1).1._satellite_info
        ∧ s2._last_timestamp_time
          = (finish (handleGGA exampleEnv (driverWith ggaReference)) 1).1._last_timestamp_time
        ∧ s2.decoder = (finish (handleGGA exampleEnv (driverWith ggaReference)) 1).1.decoder :=
  have h0 : handleMessage exampleEnv (driverWith ggaReference) 87
      = some ((finish (handleGGA exampleEnv (driverWith ggaReference)) 1).1, 1) :=
    handleMessage_gga exampleEnv (driverWith ggaReference) 87 (by decide) (by decide)
      (by decide)
  ⟨h0, parse_idempotent exampleEnv (driverWith ggaReference) _ 87 1 h0⟩

/-! ### The value returned -/

theorem tagIs_iff (buf : List Nat) (tag : String) :
    tagIs buf tag = true ↔ frameTag buf = bytes tag := by
  unfold tagIs
  exact beq_iff_eq

theorem handleGSV_position (E : Env) (s s1 : GPSDriverNMEA) (h : handleGSV E s = some s1) :
    s1._gps_position = s._gps_position := by
  by_cases hp : frameTalker s.decoder._rx_buffer = bytes "$GP"
  swap
  · have e : handleGSV E s = some s := by
      unfold handleGSV
      rw [if_pos hp]
    rw [e] at h
    cases h
    rfl
  by_cases hi : (gsvHeader s.decoder._rx_buffer).2.1.1 < 1
      ∨ (gsvHeader s.decoder._rx_buffer).2.1.1 > (gsvHeader s.decoder._rx_buffer).1.1
  · have e : handleGSV E s = some s := by
      unfold handleGSV
      simp only [hp, ne_eq, not_true_eq_false, ↓reduceIte, hi]
    rw [e] at h
    cases h
    rfl
  cases hsi : s._satellite_info with
  | none =>
    have e : handleGSV E s = some s := by
      unfold handleGSV
      simp only [hp, ne_eq, not_true_eq_false, ↓reduceIte, hi, hsi]
    rw [e] at h
    cases h
    rfl
  | some si =>
    rw [handleGSV_run E s si hp hsi (by omega) (by omega)] at h
    simp only [Option.map_eq_some'] at h
    obtain ⟨res, -, rfl⟩ := h
    rfl

/-- Claim C29 (characterisation of the fix-update signal). For every
environment, driver and `len`: when `len ≥ 7`, the bytes 3..5 are `GGA` and
the first `len` bytes hold exactly 14 commas, `handleMessage` returns 1; in
every other case it returns 0 and leaves `timestamp_time_relative` as it
was, unless the call has no defined result, which happens only in the GNS
and the GSV branch (when a scan or a store leaves an array). An RMC frame
always returns 0, and so does a GNS frame whenever the call has a result,
which it has when the scan of the positioning mode finds a separator. -/
theorem fix_update_signal (E : Env) (s : GPSDriverNMEA) (len : Int) :
    ((7 ≤ len ∧ frameTag s.decoder._rx_buffer = bytes "GGA"
        ∧ countCommas s.decoder._rx_buffer len = 14) →
      ∃ s1, handleMessage E s len = some (s1, 1))
    ∧ (¬ (7 ≤ len ∧ frameTag s.decoder._rx_buffer = bytes "GGA"
        ∧ countCommas s.decoder._rx_buffer len = 14) →
      handleMessage E s len = none
      ∨ ∃ s1, handleMessage E s len = some (s1, 0)
          ∧ s1._gps_position.timestamp_time_relative
            = s._gps_position.timestamp_time_relative)
    ∧ (handleMessage E s len = none →
        7 ≤ len ∧ (frameTag s.decoder._rx_buffer = bytes "GNS"
          ∨ frameTag s.decoder._rx_buffer = bytes "GSV"))
    ∧ (frameTag s.decoder._rx_buffer = bytes "RMC" →
        ∃ s1, handleMessage E s len = some (s1, 0))
    ∧ (frameTag s.decoder._rx_buffer = bytes "GNS" →
        ∀ s1 r, handleMessage E s len = some (s1, r) → r = 0)
    ∧ (frameTag s.decoder._rx_buffer = bytes "GNS" →
        ∀ q, scanComma s.decoder._rx_buffer (gnsCursor s.decoder._rx_buffer) = some q →
          ∃ s1, handleMessage E s len = some (s1, 0)) := by
  have key : (7 ≤ len ∧ frameTag s.decoder._rx_buffer = bytes "GGA"
        ∧ countCommas s.decoder._rx_buffer len = 14
        ∧ ∃ s1, handleMessage E s len = some (s1, 1))
      ∨ (¬ (7 ≤ len ∧ frameTag s.decoder._rx_buffer = bytes "GGA"
          ∧ countCommas s.decoder._rx_buffer len = 14)
        ∧ ((handleMessage E s len = none
            ∧ 7 ≤ len ∧ (frameTag s.decoder._rx_buffer = bytes "GNS"
              ∨ frameTag s.decoder._rx_buffer = bytes "GSV"))
          ∨ ∃ s1, handleMessage E s len = some (s1, 0)
              ∧ s1._gps_position.timestamp_time_relative
                = s._gps_position.timestamp_time_relative)) := by
    rw [handleMessage_of_decoder E s s len rfl]
    by_cases c0 : len < 7
    · right
      rw [if_pos c0]
      exact ⟨by omega, Or.inr ⟨s, rfl, rfl⟩⟩
    rw [if_neg c0]
    by_cases cZ : tagIs s.decoder._rx_buffer "ZDA" = true
        ∧ countCommas s.decoder._rx_buffer len = 6
    · right
      rw [if_pos cZ, finish_zero]
      refine ⟨?_, Or.inr ⟨_, rfl, ?_⟩⟩
      · rintro ⟨-, -, h14⟩
        rw [cZ.2] at h14
        exact absurd h14 (by decide)
      · rw [handleZDA_eq, (stampTime_keeps _ _ _ _).1]
    rw [if_neg cZ]
    by_cases cG : tagIs s.decoder._rx_buffer "GGA" = true
        ∧ countCommas s.decoder._rx_buffer len = 14
    · left
      rw [if_pos cG]
      exact ⟨by omega, (tagIs_iff _ _).1 cG.1, cG.2, (finish (handleGGA E s) 1).1,
        by rw [finish_one]⟩
    have hnot : ¬ (7 ≤ len ∧ frameTag s.decoder._rx_buffer = bytes "GGA"
        ∧ countCommas s.decoder._rx_buffer len = 14) := by
      rintro ⟨-, h1, h2⟩
      exact cG ⟨(tagIs_iff _ _).2 h1, h2⟩
    right
    refine ⟨hnot, ?_⟩
    rw [if_neg cG]
    by_cases cN : tagIs s.decoder._rx_buffer "GNS" = true
    · rw [if_pos cN]
      cases hg : handleGNS E s with
      | none => exact Or.inl ⟨rfl, by omega, Or.inl ((tagIs_iff _ _).1 cN)⟩
      | some a =>
        right
        refine ⟨a, by simp [finish_zero], ?_⟩
        unfold handleGNS at hg
        simp only [Option.map_eq_some'] at hg
        obtain ⟨q, -, rfl⟩ := hg
        rfl
    rw [if_neg cN]
    by_cases cR : tagIs s.decoder._rx_buffer "RMC" = true
    · rw [if_pos cR, finish_zero]
      refine Or.inr ⟨_, rfl, ?_⟩
      rw [handleRMC_eq, (stampTime_keeps _ _ _ _).1]
      rfl
    rw [if_neg cR]
    by_cases cT : tagIs s.decoder._rx_buffer "GST" = true
    · rw [if_pos cT, finish_zero]
      exact Or.inr ⟨_, rfl, rfl⟩
    rw [if_neg cT]
    by_cases cA : tagIs s.decoder._rx_buffer "GSA" = true
    · rw [if_pos cA, finish_zero]
      exact Or.inr ⟨_, rfl, rfl⟩
    rw [if_neg cA]
    by_cases cV : tagIs s.decoder._rx_buffer "GSV" = true
    · rw [if_pos cV]
      cases hg : handleGSV E s with
      | none => exact Or.inl ⟨rfl, by omega, Or.inr ((tagIs_iff _ _).1 cV)⟩
      | some a =>
        right
        refine ⟨a, rfl, ?_⟩
        rw [handleGSV_position E s a hg]
    rw [if_neg cV]
    by_cases cK : tagIs s.decoder._rx_buffer "VTG" = true
        ∧ countCommas s.decoder._rx_buffer len = 9
    · rw [if_pos cK, finish_zero]
      exact Or.inr ⟨_, rfl, rfl⟩
    · rw [if_neg cK, finish_zero]
      exact Or.inr ⟨_, rfl, rfl⟩
  refine ⟨?_, ?_, ?_, ?_, ?_, ?_⟩
  · intro hc
    rcases key with ⟨-, -, -, h⟩ | ⟨hn, -⟩
    · exact h
    · exact absurd hc hn
  · intro hn
    rcases key with ⟨h1, h2, h3, -⟩ | ⟨-, h | h⟩
    · exact absurd ⟨h1, h2, h3⟩ hn
    · exact Or.inl h.1
    · exact Or.inr h
  · intro hnone
    rcases key with ⟨-, -, -, s1, h⟩ | ⟨-, h | ⟨s1, h, -⟩⟩
    · rw [hnone] at h
      cases h
    · exact h.2
    · rw [hnone] at h
      cases h
  · intro ht
    by_cases hlen : len < 7
    · refine ⟨s, ?_⟩
      unfold handleMessage
      rw [if_pos hlen]
    · exact ⟨_, by rw [handleMessage_rmc E s len (by omega) ht, finish_zero]⟩
  · intro ht s1 r h
    rcases key with ⟨-, h2, -, -⟩ | ⟨-, h0 | ⟨s2, h0, -⟩⟩
    · rw [ht] at h2
      exact absurd h2 (by decide)
    · rw [h0.1] at h
      cases h
    · rw [h0] at h
      simp only [Option.some.injEq, Prod.mk.injEq] at h
      exact h.2.symm
  · intro ht q hq
    by_cases hlen : len < 7
    · refine ⟨s, ?_⟩
      unfold handleMessage
      rw [if_pos hlen]
    · have hg : ∃ a, handleGNS E s = some a := by
        unfold handleGNS
        unfold gnsCursor at hq
        simp only at hq ⊢
        rw [hq]
        exact ⟨_, rfl⟩
      obtain ⟨a, ha⟩ := hg
      exact ⟨a, by rw [handleMessage_gns E s len (by omega) ht, ha]; simp [finish_zero]⟩

/-- Witness for `fix_update_signal`: the GGA example sentence returns 1, and
the same buffer with `len = 6` returns 0. -/
theorem fix_update_signal_witness :
    ((7 : Int) ≤ 87 ∧ frameTag (driverWith ggaReference).decoder._rx_buffer = bytes "GGA"
      ∧ countCommas (driverWith ggaReference).decoder._rx_buffer 87 = 14)
    ∧ (∃ s1, handleMessage exampleEnv (driverWith ggaReference) 87 = some (s1, 1))
    ∧ (handleMessage exampleEnv (driverWith ggaReference) 6 = none
      ∨ ∃ s1, handleMessage exampleEnv (driverWith ggaReference) 6 = some (s1, 0)
          ∧ s1._gps_position.timestamp_time_relative
            = (driverWith ggaReference)._gps_position.timestamp_time_relative) :=
  ⟨⟨by decide, by decide, by decide⟩,
    (fix_update_signal exampleEnv (driverWith ggaReference) 87).1
      ⟨by decide, by decide, by decide⟩,
    (fix_update_signal exampleEnv (driverWith ggaReference) 6).2.1 (by decide)⟩

/-! ### What the GST, the GSA and the VTG branch leave alone -/

/-- The GST branch on a well-formed sentence: what its field statements
read. -/
theorem gst_join (buf rest : List Nat) (c : Nat) (time rms maj mn deg la lo al : Field)
    (h1 : time.IsNum) (h2 : rms.IsNum) (h3 : maj.IsNum) (h4 : mn.IsNum) (h5 : deg.IsNum)
    (h6 : la.IsNum) (h7 : lo.IsNum) (h8 : al.IsNum) (hc : c = 44 ∨ c = 42)
    (h : buf.drop 6 = joinFields [time, rms, maj, mn, deg, la, lo, al] ++ c :: rest) :
    ∃ p1 p2 p3 p4 p5 p6 p7 p8, fieldD buf 6 0 = (time.value, p1)
      ∧ fieldD buf p1 0 = (rms.value, p2) ∧ fieldD buf p2 0 = (maj.value, p3)
      ∧ fieldD buf p3 0 = (mn.value, p4) ∧ fieldD buf p4 0 = (deg.value, p5)
      ∧ fieldD buf p5 0 = (la.value, p6) ∧ fieldD buf p6 0 = (lo.value, p7)
      ∧ fieldD buf p7 0 = (al.value, p8) := by
  obtain ⟨e1, d1⟩ := fieldD_join buf rest 6 c _ _ h1 hc h
  obtain ⟨e2, d2⟩ := fieldD_join buf rest _ c _ _ h2 hc d1
  obtain ⟨e3, d3⟩ := fieldD_join buf rest _ c _ _ h3 hc d2
  obtain ⟨e4, d4⟩ := fieldD_join buf rest _ c _ _ h4 hc d3
  obtain ⟨e5, d5⟩ := fieldD_join buf rest _ c _ _ h5 hc d4
  obtain ⟨e6, d6⟩ := fieldD_join buf rest _ c _ _ h6 hc d5
  obtain ⟨e7, d7⟩ := fieldD_join buf rest _ c _ _ h7 hc d6
  obtain ⟨e8, -⟩ := fieldD_join buf rest _ c _ _ h8 hc d7
  exact ⟨_, _, _, _, _, _, _, _, e1, e2, e3, e4, e5, e6, e7, e8⟩

/-- Claim C23 (handlers touch only the fields they own). For every
environment, driver and `len ≥ 7`: a GST frame, a GSA frame and a VTG frame
with 9 commas each make `handleMessage` return 0 and leave the decoder, the
satellite record, the lat/lon rate counter, the time of the last time fix
and the list of `setClock` calls as they were. The GST frame changes nothing
in the position record but `eph` and `epv` and leaves the velocity counter;
for a well-formed GST sentence `epv` is the height-error field and `eph` is
`sqrtf` of the sum of the squares of the latitude-error and the
longitude-error field. The GSA frame changes nothing in the position record
but `hdop` and `vdop` and leaves the velocity counter. The VTG frame changes
nothing in the position record but `vel_m_s`, `vel_n_m_s`, `vel_e_m_s`,
`cog_rad`, `vel_ned_valid` and `c_variance_rad`, and adds one to the
velocity counter. -/
theorem handlers_own_fields (E : Env) (s : GPSDriverNMEA) (len : Int) (hlen : 7 ≤ len)
    (h : frameTag s.decoder._rx_buffer = bytes "GST"
      ∨ frameTag s.decoder._rx_buffer = bytes "GSA"
      ∨ (frameTag s.decoder._rx_buffer = bytes "VTG"
        ∧ countCommas s.decoder._rx_buffer len = 9)) :
    ∃ s1, handleMessage E s len = some (s1, 0)
      ∧ s1.decoder = s.decoder ∧ s1._satellite_info = s._satellite_info
      ∧ s1._rate_count_lat_lon = s._rate_count_lat_lon
      ∧ s1._last_timestamp_time = s._last_timestamp_time
      ∧ s1.clock_calls = s.clock_calls
      ∧ (frameTag s.decoder._rx_buffer = bytes "GST" →
          s1._rate_count_vel = s._rate_count_vel
          ∧ s1._gps_position
            = { s._gps_position with eph := s1._gps_position.eph, epv := s1._gps_position.epv }
          ∧ ∀ (time rms maj mn deg la lo al : Field) (c : Nat) (rest : List Nat),
              time.IsNum → rms.IsNum → maj.IsNum → mn.IsNum → deg.IsNum → la.IsNum →
              lo.IsNum → al.IsNum → (c = 44 ∨ c = 42) →
              s.decoder._rx_buffer.drop 6
                = joinFields [time, rms, maj, mn, deg, la, lo, al] ++ c :: rest →
              s1._gps_position.eph = E.sqrtf (la.value * la.value + lo.value * lo.value)
              ∧ s1._gps_position.epv = al.value)
      ∧ (frameTag s.decoder._rx_buffer = bytes "GSA" →
          s1._rate_count_vel = s._rate_count_vel
          ∧ s1._gps_position
            = { s._gps_position with
                hdop := s1._gps_position.hdop, vdop := s1._gps_position.vdop })
      ∧ (frameTag s.decoder._rx_buffer = bytes "VTG" →
          s1._rate_count_vel = s._rate_count_vel + 1
          ∧ s1._gps_position
            = { s._gps_position with
                vel_m_s := s1._gps_position.vel_m_s
                vel_n_m_s := s1._gps_position.vel_n_m_s
                vel_e_m_s := s1._gps_position.vel_e_m_s
                cog_rad := s1._gps_position.cog_rad
                vel_ned_valid := s1._gps_position.vel_ned_valid
                c_variance_rad := s1._gps_position.c_variance_rad }) := by
  rcases h with ht | ht | ⟨ht, hc⟩
  · refine ⟨handleGST E s, by rw [handleMessage_gst E s len hlen ht, finish_zero], rfl, rfl,
      rfl, rfl, rfl, ?_, ?_, ?_⟩
    · intro _
      refine ⟨rfl, rfl, ?_⟩
      intro time rms maj mn deg la lo al c rest h1 h2 h3 h4 h5 h6 h7 h8 hc hb
      obtain ⟨p1, p2, p3, p4, p5, p6, p7, p8, e1, e2, e3, e4, e5, e6, e7, e8⟩ :=
        gst_join _ rest c _ _ _ _ _ _ _ _ h1 h2 h3 h4 h5 h6 h7 h8 hc hb
      unfold handleGST
      simp only [e1, e2, e3, e4, e5, e6, e7, e8, and_self]
    · intro h2
      rw [ht] at h2
      exact absurd h2 (by decide)
    · intro h2
      rw [ht] at h2
      exact absurd h2 (by decide)
  · refine ⟨handleGSA E s, by rw [handleMessage_gsa E s len hlen ht, finish_zero], rfl, rfl,
      rfl, rfl, rfl, ?_, ?_, ?_⟩
    · intro h2
      rw [ht] at h2
      exact absurd h2 (by decide)
    · intro _
      exact ⟨rfl, rfl⟩
    · intro h2
      rw [ht] at h2
      exact absurd h2 (by decide)
  · refine ⟨handleVTG E s, by rw [handleMessage_vtg E s len hlen ht hc, finish_zero], rfl,
      rfl, rfl, rfl, rfl, ?_, ?_, ?_⟩
    · intro h2
      rw [ht] at h2
      exact absurd h2 (by decide)
    · intro h2
      rw [ht] at h2
      exact absurd h2 (by decide)
    · intro _
      exact ⟨rfl, rfl⟩

/-- Witness for `handlers_own_fields`: the GST example sentence of the
source. With `sqrtf` the identity of the example environment, `eph` is
`0.023 * 0.023 + 0.020 * 0.020` and `epv` is `0.031`. -/
theorem handlers_own_fields_witness :
    ((7 : Int) ≤ 60 ∧ frameTag (driverWith gstReference).decoder._rx_buffer = bytes "GST")
    ∧ ∃ s1, handleMessage exampleEnv (driverWith gstReference) 60 = some (s1, 0)
      ∧ s1._gps_position
        = { (driverWith gstReference)._gps_position with
            eph := s1._gps_position.eph, epv := s1._gps_position.epv }
      ∧ s1._gps_position.eph = 929 / 1000000 ∧ s1._gps_position.epv = 31 / 1000 := by
  obtain ⟨s1, h0, -, -, -, -, -, h1, -, -⟩ :=
    handlers_own_fields exampleEnv (driverWith gstReference) 60 (by decide)
      (Or.inl (by decide))
  obtain ⟨-, h2, h3⟩ := h1 (by decide)
  obtain ⟨h4, h5⟩ := h3 (.dec false (bytes "172814") (bytes "0"))
    (.dec false (bytes "0") (bytes "006")) (.dec false (bytes "0") (bytes "023"))
    (.dec false (bytes "0") (bytes "020")) (.dec false (bytes "273") (bytes "6"))
    (.dec false (bytes "0") (bytes "023")) (.dec false (bytes "0") (bytes "020"))
    (.dec false (bytes "0") (bytes "031")) 42 (bytes "6A")
    (by decide) (by decide) (by decide) (by decide) (by decide) (by decide) (by decide)
    (by decide) (Or.inr rfl) (by decide)
  refine ⟨⟨by decide, by decide⟩, s1, h0, h2, ?_, ?_⟩
  · rw [h4]
    decide!
  · rw [h5]
    decide!


/-! ### The example sentences of the source -/

theorem reference_payloads :
    gstReference
      = sentence (bytes "GPGST,172814.0,0.006,0.023,0.020,273.6,0.023,0.020,0.031")
    ∧ IsPayload (bytes "GPGST,172814.0,0.006,0.023,0.020,273.6,0.023,0.020,0.031")
    ∧ gsvReference
      = sentence (bytes "GPGSV,4,1,13,02,02,213,,03,-3,000,,11,00,121,,14,13,172,05")
    ∧ IsPayload (bytes "GPGSV,4,1,13,02,02,213,,03,-3,000,,11,00,121,,14,13,172,05")
    ∧ bytes "$GPZDA,172809.456,12,07,1996,00,00*57"
      = sentence (bytes "GPZDA,172809.456,12,07,1996,00,00")
    ∧ IsPayload (bytes "GPZDA,172809.456,12,07,1996,00,00")
    ∧ vtgReference = sentence (bytes "GPVTG,,T,,M,0.00,N,0.00,K")
    ∧ IsPayload (bytes "GPVTG,,T,,M,0.00,N,0.00,K")
    ∧ vtgWithMode = sentence (bytes "GPVTG,,T,,M,0.00,N,0.00,K,A")
    ∧ IsPayload (bytes "GPVTG,,T,,M,0.00,N,0.00,K,A") := by
  decide!

/-- Feeding a sentence to an idle decoder: the values returned. -/
theorem feed_sentence_returns (d : Decoder) (hs : d._decode_state = .UNINIT)
    (p : List Nat) (hp : IsPayload p) (hlen : p.length + 7 ≤ d._rx_buffer.length) :
    (feed d (sentence p)).map Prod.snd
      = some (List.replicate (p.length + 3) 0 ++ [p.length + 4]) := by
  obtain ⟨d1, h, -⟩ := feed_sentence d (Or.inl hs) p hp (by rw [sentence_length]; omega)
  rw [h, sentence_length]
  rfl

/-- Claim C24 as it is written fails for the ZDA sentence: the XOR of the
payload of `$GPZDA,172809.456,12,07,1996,00,00*45` is 0x57, not 0x45, so the
decoder does not report it; `parseChar` returns 0 on each of its 37
bytes. -/
theorem zda_reference_rejected :
    hexDigitsOf (bytes "GPZDA,172809.456,12,07,1996,00,00") = bytes "57"
    ∧ zdaReference.length = 37
    ∧ (feed ⟨.UNINIT, List.replicate 90 0, 0⟩ zdaReference).map Prod.snd
      = some (List.replicate 37 0) := by
  decide!

/-- Claim C24, amended (reference sentences and the checksum gate). For
every decoder in state `UNINIT` with a buffer of at least 90 bytes: feeding
the GGA, the GST and the GSV example sentence of the source byte by byte
makes `parseChar` return 0 on every byte but the last and the length of the
sentence (87, 60, 62) on the last one; the ZDA example sentence does so with
the checksum `57` in the place of `45`. -/
theorem reference_sentences_accepted (d : Decoder) (hs : d._decode_state = .UNINIT)
    (hcap : 90 ≤ d._rx_buffer.length) :
    (feed d ggaReference).map Prod.snd = some (List.replicate 86 0 ++ [87])
    ∧ (feed d gstReference).map Prod.snd = some (List.replicate 59 0 ++ [60])
    ∧ (feed d gsvReference).map Prod.snd = some (List.replicate 61 0 ++ [62])
    ∧ (feed d (bytes "$GPZDA,172809.456,12,07,1996,00,00*57")).map Prod.snd
      = some (List.replicate 36 0 ++ [37]) := by
  obtain ⟨g1, g2, -⟩ := ggaReference_sentence
  obtain ⟨t1, t2, v1, v2, z1, z2, -⟩ := reference_payloads
  refine ⟨?_, ?_, ?_, ?_⟩
  · rw [g1, feed_sentence_returns d hs _ g2 (by
      rw [show (bytes
        "GPGGA,172814.0,3723.46587704,N,12202.26957864,W,2,6,1.2,18.893,M,-25.669,M,2.0,0031").length
        = 83 by decide]
      omega)]
    rfl
  · rw [t1, feed_sentence_returns d hs _ t2 (by
      rw [show (bytes "GPGST,172814.0,0.006,0.023,0.020,273.6,0.023,0.020,0.031").length
        = 56 by decide]
      omega)]
    rfl
  · rw [v1, feed_sentence_returns d hs _ v2 (by
      rw [show (bytes "GPGSV,4,1,13,02,02,213,,03,-3,000,,11,00,121,,14,13,172,05").length
        = 58 by decide]
      omega)]
    rfl
  · rw [z1, feed_sentence_returns d hs _ z2 (by
      rw [show (bytes "GPZDA,172809.456,12,07,1996,00,00").length = 33 by decide]
      omega)]
    rfl

/-- Witness for `reference_sentences_accepted`: an idle decoder with a buffer
of 90 bytes. -/
theorem reference_sentences_accepted_witness :
    ((⟨.UNINIT, List.replicate 90 0, 0⟩ : Decoder)._decode_state = .UNINIT
      ∧ 90 ≤ (⟨.UNINIT, List.replicate 90 0, 0⟩ : Decoder)._rx_buffer.length)
    ∧ (feed ⟨.UNINIT, List.replicate 90 0, 0⟩ ggaReference).map Prod.snd
      = some (List.replicate 86 0 ++ [87])
    ∧ (feed ⟨.UNINIT, List.replicate 90 0, 0⟩ gstReference).map Prod.snd
      = some (List.replicate 59 0 ++ [60])
    ∧ (feed ⟨.UNINIT, List.replicate 90 0, 0⟩ gsvReference).map Prod.snd
      = some (List.replicate 61 0 ++ [62])
    ∧ (feed ⟨.UNINIT, List.replicate 90 0, 0⟩
        (bytes "$GPZDA,172809.456,12,07,1996,00,00*57")).map Prod.snd
      = some (List.replicate 36 0 ++ [37]) :=
  ⟨⟨rfl, by decide⟩,
    reference_sentences_accepted ⟨.UNINIT, List.replicate 90 0, 0⟩ rfl (by decide)⟩

/-- Claim C28 as it is written fails: the VTG example sentence of the source
passes the decoder but is not handled as a VTG sentence. It has 8 commas and
the VTG branch asks for 9, so `handleMessage` returns 0 and leaves the
driver as it was: `vel_ned_valid` stays false and the velocity counter
stays 0. -/
theorem vtg_reference_falls_through :
    (feed ⟨.UNINIT, List.replicate 40 0, 0⟩ vtgReference).map Prod.snd
      = some (List.replicate 28 0 ++ [29])
    ∧ countCommas vtgReference 29 = 8
    ∧ handleMessage exampleEnv (driverWith vtgReference) 29
      = some (driverWith vtgReference, 0)
    ∧ (driverWith vtgReference)._gps_position.vel_ned_valid = false
    ∧ (driverWith vtgReference)._rate_count_vel = 0 := by
  decide!

theorem take_frame (buf x : List Nat) (n : Nat) (h : buf.take n = x) :
    buf = x ++ buf.drop n := by
  rw [← h]
  exact (List.take_append_drop n buf).symm

/-- Claim C28, amended (the VTG example of the source). For every
environment and every driver whose decoder is in state `UNINIT` with a
buffer of at least 40 bytes: the example `$GPVTG,,T,,M,0.00,N,0.00,K*4E` is
reported by the decoder (29 on its last byte), and `handleMessage` on it
returns 0 and changes nothing, because the frame has 8 commas; the same
sentence with a ninth field, `$GPVTG,,T,,M,0.00,N,0.00,K,A*23`, is reported
(31) and handled by the VTG branch: `vel_ned_valid` becomes true, `vel_m_s`
becomes 0 and the velocity counter grows by one. -/
theorem vtg_reference_needs_nine_commas (E : Env) (s : GPSDriverNMEA)
    (hs : s.decoder._decode_state = .UNINIT) (hcap : 40 ≤ s.decoder._rx_buffer.length) :
    (∃ d, feed s.decoder vtgReference = some (d, List.replicate 28 0 ++ [29])
      ∧ handleMessage E { s with decoder := d } 29 = some ({ s with decoder := d }, 0))
    ∧ ∃ d s1, feed s.decoder vtgWithMode = some (d, List.replicate 30 0 ++ [31])
      ∧ handleMessage E { s with decoder := d } 31 = some (s1, 0)
      ∧ s1._gps_position.vel_ned_valid = true
      ∧ s1._gps_position.vel_m_s = 0
      ∧ s1._rate_count_vel = s._rate_count_vel + 1 := by
  obtain ⟨-, -, -, -, -, -, r1, r2, m1, m2⟩ := reference_payloads
  constructor
  · obtain ⟨d, hf, -, -, -, ht⟩ := feed_sentence s.decoder (Or.inl hs) _ r2 (by
      rw [← r1, show vtgReference.length = 29 by decide]
      omega)
    rw [← r1, show vtgReference.length = 29 by decide] at hf ht
    refine ⟨d, hf, ?_⟩
    apply handleMessage_wrong_count
    right
    right
    constructor
    · show frameTag d._rx_buffer = bytes "VTG"
      unfold frameTag
      rw [getD_of_take _ _ 29 3 ht (by decide), getD_of_take _ _ 29 4 ht (by decide),
        getD_of_take _ _ 29 5 ht (by decide)]
      decide
    · show countCommas d._rx_buffer 29 ≠ 9
      unfold countCommas
      rw [show ((29 : Int).toNat) = 29 from rfl, ht]
      decide
  · obtain ⟨d, hf, -, -, -, ht⟩ := feed_sentence s.decoder (Or.inl hs) _ m2 (by
      rw [← m1, show vtgWithMode.length = 31 by decide]
      omega)
    rw [← m1, show vtgWithMode.length = 31 by decide] at hf ht
    have htag : frameTag d._rx_buffer = bytes "VTG" := by
      unfold frameTag
      rw [getD_of_take _ _ 31 3 ht (by decide), getD_of_take _ _ 31 4 ht (by decide),
        getD_of_take _ _ 31 5 ht (by decide)]
      decide
    have hcount : countCommas d._rx_buffer 31 = 9 := by
      unfold countCommas
      rw [show ((31 : Int).toNat) = 31 from rfl, ht]
      decide
    have hb : d._rx_buffer.drop 6
        = joinFields [.empty, .char 84, .empty, .char 77, .dec false (bytes "0") (bytes "00")]
          ++ 44 :: (bytes "N,0.00,K,A*23" ++ d._rx_buffer.drop 31) := by
      rw [take_frame d._rx_buffer vtgWithMode 31 ht,
        List.drop_append_of_le_length (by decide)]
      simp only [List.drop_left' (show vtgWithMode.length = 31 by decide)]
      rw [show List.drop 6 vtgWithMode
        = joinFields [.empty, .char 84, .empty, .char 77, .dec false (bytes "0") (bytes "00")]
          ++ 44 :: bytes "N,0.00,K,A*23" by decide]
      simp
    obtain ⟨p1, p2, p3, p4, p5, e1, e2, e3, e4, e5⟩ :=
      vtg_join d._rx_buffer _ .empty (.char 84) .empty (.char 77)
        (.dec false (bytes "0") (bytes "00")) (by decide) (by decide) (by decide) (by decide)
        (by decide) hb
    refine ⟨d, handleVTG E { s with decoder := d }, hf, ?_, ?_, ?_, ?_⟩
    · rw [handleMessage_vtg E { s with decoder := d } 31 (by decide) htag hcount, finish_zero]
    · rfl
    · unfold handleVTG
      simp only [e1, e2, e3, e4, e5]
      have hv : (Field.dec false (bytes "0") (bytes "00")).value = 0 := by decide!
      rw [hv]
      norm_num
    · rfl

/-- Witness for `vtg_reference_needs_nine_commas`: a driver with a buffer of
40 bytes. -/
theorem vtg_reference_needs_nine_commas_witness :
    ((driverWith (List.replicate 40 0)).decoder._decode_state = .UNINIT
      ∧ 40 ≤ (driverWith (List.replicate 40 0)).decoder._rx_buffer.length)
    ∧ (∃ d, feed (driverWith (List.replicate 40 0)).decoder vtgReference
          = some (d, List.replicate 28 0 ++ [29])
        ∧ handleMessage exampleEnv { driverWith (List.replicate 40 0) with decoder := d } 29
          = some ({ driverWith (List.replicate 40 0) with decoder := d }, 0))
    ∧ ∃ d s1, feed (driverWith (List.replicate 40 0)).decoder vtgWithMode
          = some (d, List.replicate 30 0 ++ [31])
        ∧ handleMessage exampleEnv { driverWith (List.replicate 40 0) with decoder := d } 31
          = some (s1, 0)
        ∧ s1._gps_position.vel_ned_valid = true
        ∧ s1._gps_position.vel_m_s = 0
        ∧ s1._rate_count_vel = (driverWith (List.replicate 40 0))._rate_count_vel + 1 :=
  ⟨⟨rfl, by decide⟩,
    vtg_reference_needs_nine_commas exampleEnv (driverWith (List.replicate 40 0)) rfl
      (by decide)⟩


/-! ### Empty fields of the GSA sentence -/

theorem fieldD_bytes_or (buf r : List Nat) (p : Nat) (f : Field) (d : ℚ) (hf : f.IsNum)
    (h : buf.drop (p + 1) = f.bytes ++ 44 :: r) :
    fieldD buf p d = (f.valueOr d, p + 1 + f.bytes.length) := by
  unfold fieldD Field.valueOr
  by_cases hne : f = .empty
  · subst hne
    simp only [Field.bytes, List.nil_append] at h
    rw [getD_of_drop _ _ _ _ h]
    simp [Field.bytes]
  · obtain ⟨x, t, hx, hx44⟩ := num_head f hf hne
    have hg : buf.getD (p + 1) 0 = x := by
      apply getD_of_drop buf (t ++ 44 :: r)
      rw [h, hx]
      rfl
    rw [hg, if_pos hx44, h, strtod_field f r 44 hf hne (Or.inl rfl), if_neg hne]

/-- A `strtod` field statement whose variable is preset to `d`, with the
cursor on the separator before a well-formed numeric field that a separator
`,` follows. -/
theorem fieldD_join_or (buf rest : List Nat) (p : Nat) (f : Field) (fs : List Field) (d : ℚ)
    (hf : f.IsNum) (h : buf.drop p = joinFields (f :: fs) ++ 44 :: rest) :
    fieldD buf p d = (f.valueOr d, p + 1 + f.bytes.length)
    ∧ buf.drop (p + 1 + f.bytes.length) = joinFields fs ++ 44 :: rest := by
  rw [join_cons] at h
  have h1 : buf.drop (p + 1) = f.bytes ++ (joinFields fs ++ 44 :: rest) :=
    drop_add_of buf [44] _ p h
  obtain ⟨r1, e⟩ := join_head_comma fs rest
  rw [e] at h1
  refine ⟨fieldD_bytes_or buf r1 p f d hf h1, ?_⟩
  rw [e]
  exact drop_add_of buf f.bytes _ (p + 1) h1

/-- The last `strtod` field statement of a sentence, its variable preset to
`d`: an empty field that `*` follows gives 0, since `strtod` is called on
the `*`. -/
theorem fieldD_last (buf rest : List Nat) (p c : Nat) (f : Field) (d : ℚ) (hf : f.IsNum)
    (hc : c = 44 ∨ c = 42) (h : buf.drop p = 44 :: (f.bytes ++ c :: rest)) :
    (fieldD buf p d).1 = if f = .empty ∧ c = 44 then d else f.value := by
  have h1 : buf.drop (p + 1) = f.bytes ++ c :: rest := drop_add_of buf [44] _ p h
  rcases hc with rfl | rfl
  · rw [fieldD_bytes_or buf rest p f d hf h1]
    simp [Field.valueOr]
  · have h0 := fieldD_bytes buf rest p 42 f hf (Or.inr rfl) h1
    by_cases hne : f = .empty
    · subst hne
      simp only [Field.bytes, List.nil_append] at h1
      unfold fieldD
      rw [getD_of_drop _ _ _ _ h1, h1, strtod_stop]
      simp [Field.value]
    · obtain ⟨x, t, hx, hx44⟩ := num_head f hf hne
      have hg : buf.getD (p + 1) 0 = x := by
        apply getD_of_drop buf (t ++ 42 :: rest)
        rw [h1, hx]
        rfl
      unfold fieldD
      rw [hg, if_pos hx44, h1, strtod_field f rest 42 hf hne (Or.inr rfl)]
      simp

theorem joinFields_append (a b : List Field) :
    joinFields (a ++ b) = joinFields a ++ joinFields b := by
  induction a with
  | nil => rfl
  | cons f a ih => simp [joinFields, ih]

/-- A run of `strtod` field statements whose values are not kept: the cursor
moves over as many well-formed fields. -/
theorem skip_join (buf rest : List Nat) (gs : List Field) :
    ∀ (fs : List Field) (p : Nat), (∀ f ∈ fs, f.IsNum) →
      buf.drop p = joinFields (fs ++ gs) ++ 44 :: rest →
      buf.drop ((fun q => (fieldD buf q 0).2)^[fs.length] p) = joinFields gs ++ 44 :: rest := by
  intro fs
  induction fs with
  | nil => intro p _ h; exact h
  | cons f fs ih =>
    intro p hfs h
    obtain ⟨e, d⟩ := fieldD_join buf rest p 44 f (fs ++ gs)
      (hfs f (List.mem_cons_self _ _)) (Or.inl rfl) h
    rw [List.length_cons, Function.iterate_succ_apply, e]
    exact ih _ (fun g hg => hfs g (List.mem_cons_of_mem _ hg)) d

/-- Claim C21 (empty fields keep the alignment). For every GSA frame with
`len ≥ 7` whose bytes from index 6 on are the fields mode1 (empty or a
character), mode2, twelve satellite fields, PDOP, HDOP and VDOP (each empty
or a number), with a separator before each and `*` or `,` after the last:
`handleMessage` returns 0; the stored `hdop` is the value of the HDOP field,
and the preset 99.9 when that field is empty; the stored `vdop` is the value
of the VDOP field (0 for an empty field before `*`, 99.9 for an empty field
before `,`). -/
theorem gsa_empty_fields (E : Env) (s : GPSDriverNMEA) (len : Int) (hlen : 7 ≤ len)
    (ht : frameTag s.decoder._rx_buffer = bytes "GSA")
    (m1 m2 pdop hdop vdop : Field) (prns : List Field) (c : Nat) (rest : List Nat)
    (h1 : m1.IsChar) (h2 : m2.IsNum) (hn : prns.length = 12) (hp : ∀ f ∈ prns, f.IsNum)
    (h3 : pdop.IsNum) (h4 : hdop.IsNum) (h5 : vdop.IsNum) (hc : c = 44 ∨ c = 42)
    (hb : s.decoder._rx_buffer.drop 6
      = joinFields (m1 :: m2 :: prns ++ [pdop, hdop, vdop]) ++ c :: rest) :
    ∃ s1, handleMessage E s len = some (s1, 0)
      ∧ s1._gps_position.hdop = (if hdop = .empty then 999 / 10 else hdop.value)
      ∧ s1._gps_position.vdop = (if vdop = .empty ∧ c = 44 then 999 / 10 else vdop.value) := by
  have hb1 : s.decoder._rx_buffer.drop 6
      = joinFields (m1 :: m2 :: (prns ++ [pdop, hdop])) ++ 44 :: (vdop.bytes ++ c :: rest) := by
    rw [hb, show m1 :: m2 :: prns ++ [pdop, hdop, vdop]
      = (m1 :: m2 :: (prns ++ [pdop, hdop])) ++ [vdop] by simp, joinFields_append]
    simp [joinFields]
  obtain ⟨e1, d1⟩ := fieldC_join _ _ 6 32 _ _ h1 hb1
  obtain ⟨e2, d2⟩ := fieldD_join _ _ _ 44 _ _ h2 (Or.inl rfl) d1
  have d3 := skip_join _ _ [pdop, hdop] prns _ hp d2
  rw [hn] at d3
  obtain ⟨e4, d4⟩ := fieldD_join_or _ _ _ _ _ (999 / 10) h3 d3
  obtain ⟨e5, d5⟩ := fieldD_join_or _ _ _ _ _ (999 / 10) h4 d4
  have e6 := fieldD_last _ rest _ c vdop (999 / 10) h5 hc d5
  refine ⟨(finish (handleGSA E s) 0).1, ?_, ?_, ?_⟩
  · rw [handleMessage_gsa E s len hlen ht, finish_zero]
  · rw [finish_zero]
    show (fieldD _ _ _).1 = _
    simp only [e1, e2, e4, e5]
    rfl
  · rw [finish_zero]
    show (fieldD _ _ _).1 = _
    simp only [e1, e2, e4, e5]
    exact e6

/-- Witness for `gsa_empty_fields`: a GSA sentence with seven empty satellite
fields and an empty HDOP field; `hdop` is 99.9 and `vdop` is 2.1. -/
theorem gsa_empty_fields_witness :
    ((7 : Int) ≤ 44
      ∧ frameTag (driverWith gsaNoHdop).decoder._rx_buffer = bytes "GSA"
      ∧ ((Field.char 65).IsChar ∧ (Field.int false (bytes "3")).IsNum
        ∧ gsaNoHdopPrns.length = 12 ∧ (∀ f ∈ gsaNoHdopPrns, f.IsNum)
        ∧ (Field.dec false (bytes "2") (bytes "5")).IsNum ∧ Field.empty.IsNum
        ∧ (Field.dec false (bytes "2") (bytes "1")).IsNum)
      ∧ (driverWith gsaNoHdop).decoder._rx_buffer.drop 6
        = joinFields (.char 65 :: .int false (bytes "3") :: gsaNoHdopPrns
            ++ [.dec false (bytes "2") (bytes "5"), .empty,
              .dec false (bytes "2") (bytes "1")])
          ++ 42 :: bytes "15")
    ∧ ∃ s1, handleMessage exampleEnv (driverWith gsaNoHdop) 44 = some (s1, 0)
      ∧ s1._gps_position.hdop = 999 / 10
      ∧ s1._gps_position.vdop = 21 / 10 := by
  have hw : (Field.char 65).IsChar ∧ (Field.int false (bytes "3")).IsNum
      ∧ gsaNoHdopPrns.length = 12 ∧ (∀ f ∈ gsaNoHdopPrns, f.IsNum)
      ∧ (Field.dec false (bytes "2") (bytes "5")).IsNum ∧ Field.empty.IsNum
      ∧ (Field.dec false (bytes "2") (bytes "1")).IsNum := by
    decide
  have hb : (driverWith gsaNoHdop).decoder._rx_buffer.drop 6
      = joinFields (.char 65 :: .int false (bytes "3") :: gsaNoHdopPrns
          ++ [.dec false (bytes "2") (bytes "5"), .empty,
            .dec false (bytes "2") (bytes "1")])
        ++ 42 :: bytes "15" := by
    decide
  refine ⟨⟨by decide, by decide, hw, hb⟩, ?_⟩
  obtain ⟨s1, h, e1, e2⟩ := gsa_empty_fields exampleEnv (driverWith gsaNoHdop) 44 (by decide)
    (by decide) _ _ _ _ _ _ 42 _ hw.1 hw.2.1 hw.2.2.1 hw.2.2.2.1 hw.2.2.2.2.1 hw.2.2.2.2.2.1
    hw.2.2.2.2.2.2 (Or.inr rfl) hb
  refine ⟨s1, h, ?_, ?_⟩
  · rw [e1, if_pos rfl]
  · rw [e2, if_neg (by decide)]
    decide!


/-! ### Fields that are not numbers -/

theorem signOf_other (x : Nat) (t : List Nat) (h1 : x ≠ 45) (h2 : x ≠ 43) :
    signOf (x :: t) = (false, 0) := by
  unfold signOf
  split
  · rename_i heq
    exact absurd (List.cons.inj heq).1 h1
  · rename_i heq
    exact absurd (List.cons.inj heq).1 h2
  · rfl

/-- The function `strtod` makes no conversion on a text that starts with a
character with which no number starts: the value is 0 and nothing is
consumed. -/
theorem strtod_no_conversion (x : Nat) (t : List Nat) (hx : NotNumberStart x) :
    strtod (x :: t) = (0, 0) := by
  obtain ⟨h1, h2, h3, h4, h5, -⟩ := hx
  have h46 : (x == 46) = false := by simpa using h5
  unfold strtod
  simp [List.takeWhile_cons, h1, h2, signOf_other x t h4 h3, h46]

theorem strtol_no_conversion (x : Nat) (t : List Nat) (hx : NotNumberStart x) :
    strtol (x :: t) = (0, 0) := by
  obtain ⟨h1, h2, h3, h4, -⟩ := hx
  unfold strtol
  simp [List.takeWhile_cons, h1, h2, signOf_other x t h4 h3]

/-- A `strtod` field statement on a field that does not start a number: the
variable becomes 0, whatever it was preset to, and the cursor stays on the
first character of the field. -/
theorem fieldD_bad (buf t : List Nat) (p x : Nat) (d : ℚ) (hx : NotNumberStart x)
    (hx44 : x ≠ 44) (h : buf.drop (p + 1) = x :: t) : fieldD buf p d = (0, p + 1) := by
  unfold fieldD
  rw [getD_of_drop _ _ _ _ h, if_pos hx44, h, strtod_no_conversion x t hx]
  rfl

theorem fieldL_bad (buf t : List Nat) (p x : Nat) (d : Int) (hx : NotNumberStart x)
    (hx44 : x ≠ 44) (h : buf.drop (p + 1) = x :: t) : fieldL buf p d = (0, p + 1) := by
  unfold fieldL
  rw [getD_of_drop _ _ _ _ h, if_pos hx44, h, strtol_no_conversion x t hx]
  rfl

/-- A field statement with the cursor before a separator: the variable keeps
its value and the cursor moves onto the separator. -/
theorem fieldD_skip (buf t : List Nat) (p : Nat) (d : ℚ) (h : buf.drop (p + 1) = 44 :: t) :
    fieldD buf p d = (d, p + 1) := by
  unfold fieldD
  rw [getD_of_drop _ _ _ _ h]
  simp

theorem fieldL_skip (buf t : List Nat) (p : Nat) (d : Int) (h : buf.drop (p + 1) = 44 :: t) :
    fieldL buf p d = (d, p + 1) := by
  unfold fieldL
  rw [getD_of_drop _ _ _ _ h]
  simp

theorem finish_keeps (s : GPSDriverNMEA) (ret : Int) :
    (finish s ret).1._gps_position.hdop = s._gps_position.hdop
    ∧ (finish s ret).1._gps_position.vdop = s._gps_position.vdop
    ∧ (finish s ret).1._gps_position.alt = s._gps_position.alt
    ∧ (finish s ret).1._gps_position.fix_type = s._gps_position.fix_type := by
  unfold finish
  split <;> exact ⟨rfl, rfl, rfl, rfl⟩

/-- Claim C22 as it is written fails: in the GGA example sentence of the
source with the HDOP field `x`, and in a GSA sentence with the HDOP field
`x`, both accepted by the decoder, the stored `hdop` is 0, not the preset
99.9. The GGA call returns 1; its `alt` is 0 and the `vdop` of the GSA call
is the preset 99.9, since the next field statement finds the cursor before
a separator. -/
theorem malformed_hdop_loses_default :
    returnsOf 100 ggaBadHdop = some (List.replicate 84 0 ++ [85])
    ∧ fixOf (handleMessage exampleEnv (driverWith ggaBadHdop) 85) = some (0, 0, 0, 4, 1)
    ∧ returnsOf 100 gsaBadHdop = some (List.replicate 44 0 ++ [45])
    ∧ fixOf (handleMessage exampleEnv (driverWith gsaBadHdop) 45)
      = some (0, 999 / 10, 0, 0, 0) := by
  decide!

/-- Claim C22, amended (a field that is not a number reads as 0). For every
frame with `len ≥ 7` and every character `x` with which no number starts
and which is not the separator: in a GGA frame with 14 commas whose first
seven fields are well formed and whose HDOP field starts with `x`,
`handleMessage` returns 1 and the stored `hdop` is 0; in a GSA frame whose
mode fields, twelve satellite fields and PDOP field are well formed and
whose HDOP field starts with `x`, `handleMessage` returns 0 and the stored
`hdop` is 0. The preset 99.9 is kept only for an empty field. -/
theorem malformed_hdop_reads_zero (E : Env) (s : GPSDriverNMEA) (len : Int) (hlen : 7 ≤ len)
    (x : Nat) (t : List Nat) (hx : NotNumberStart x) (hx44 : x ≠ 44) :
    (frameTag s.decoder._rx_buffer = bytes "GGA" → countCommas s.decoder._rx_buffer len = 14 →
      ∀ time lat ns lon ew fq nsv : Field,
        time.IsNum → lat.IsNum → ns.IsChar → lon.IsNum → ew.IsChar → fq.IsInt → nsv.IsInt →
        s.decoder._rx_buffer.drop 6
          = joinFields [time, lat, ns, lon, ew, fq, nsv] ++ 44 :: x :: t →
        ∃ s1, handleMessage E s len = some (s1, 1) ∧ s1._gps_position.hdop = 0)
    ∧ (frameTag s.decoder._rx_buffer = bytes "GSA" →
      ∀ (m1 m2 pdop : Field) (prns : List Field),
        m1.IsChar → m2.IsNum → prns.length = 12 → (∀ f ∈ prns, f.IsNum) → pdop.IsNum →
        s.decoder._rx_buffer.drop 6
          = joinFields (m1 :: m2 :: prns ++ [pdop]) ++ 44 :: x :: t →
        ∃ s1, handleMessage E s len = some (s1, 0) ∧ s1._gps_position.hdop = 0) := by
  constructor
  · intro ht hc time lat ns lon ew fq nsv h1 h2 h3 h4 h5 h6 h7 hb
    obtain ⟨e1, d1⟩ := fieldD_join _ _ 6 44 _ _ h1 (Or.inl rfl) hb
    obtain ⟨e2, d2⟩ := fieldD_join _ _ _ 44 _ _ h2 (Or.inl rfl) d1
    obtain ⟨e3, d3⟩ := fieldC_join _ _ _ 63 _ _ h3 d2
    obtain ⟨e4, d4⟩ := fieldD_join _ _ _ 44 _ _ h4 (Or.inl rfl) d3
    obtain ⟨e5, d5⟩ := fieldC_join _ _ _ 63 _ _ h5 d4
    obtain ⟨e6, d6⟩ := fieldL_join _ _ _ 44 _ _ h6 (Or.inl rfl) d5
    obtain ⟨e7, d7⟩ := fieldL_join _ _ _ 44 _ _ h7 (Or.inl rfl) d6
    have e8 := fieldD_bad _ t _ x (999 / 10) hx hx44 (drop_add_of _ [44] _ _ d7)
    refine ⟨(finish (handleGGA E s) 1).1, ?_, ?_⟩
    · rw [handleMessage_gga E s len hlen ht hc, finish_one]
    · rw [(finish_keeps _ _).1]
      show (ggaFields _).hdop = 0
      unfold ggaFields
      simp only [e1, e2, e3, e4, e5, e6, e7, e8]
  · intro ht m1 m2 pdop prns h1 h2 hn hp h3 hb
    obtain ⟨e1, d1⟩ := fieldC_join _ _ 6 32 _ _ h1 hb
    obtain ⟨e2, d2⟩ := fieldD_join _ _ _ 44 _ _ h2 (Or.inl rfl) d1
    have d3 := skip_join _ _ [pdop] prns _ hp d2
    rw [hn] at d3
    obtain ⟨e4, d4⟩ := fieldD_join_or _ _ _ _ _ (999 / 10) h3 d3
    have e5 := fieldD_bad _ t _ x (999 / 10) hx hx44 (drop_add_of _ [44] _ _ d4)
    refine ⟨(finish (handleGSA E s) 0).1, ?_, ?_⟩
    · rw [handleMessage_gsa E s len hlen ht, finish_zero]
    · rw [finish_zero]
      show (fieldD _ _ _).1 = 0
      simp only [e1, e2, e4, e5]

/-- Witness for `malformed_hdop_reads_zero`: the GGA example sentence of the
source with the HDOP field `x`. -/
theorem malformed_hdop_reads_zero_witness :
    ((7 : Int) ≤ 85 ∧ NotNumberStart 120 ∧ (120 : Nat) ≠ 44)
    ∧ ∃ s1, handleMessage exampleEnv (driverWith ggaBadHdop) 85 = some (s1, 1)
      ∧ s1._gps_position.hdop = 0 :=
  ⟨⟨by decide, by decide, by decide⟩,
    (malformed_hdop_reads_zero exampleEnv (driverWith ggaBadHdop) 85 (by decide) 120
      (bytes ",18.893,M,-25.669,M,2.0,0031*1A") (by decide) (by decide)).1
      (by decide) (by decide)
      (.dec false (bytes "172814") (bytes "0"))
      (.dec false (bytes "3723") (bytes "46587704")) (.char 78)
      (.dec false (bytes "12202") (bytes "26957864")) (.char 87)
      (.int false (bytes "2")) (.int false (bytes "6"))
      (by decide) (by decide) (by decide) (by decide) (by decide) (by decide) (by decide)
      (by decide)⟩

/-- The field statements of the GGA branch from the fix quality on, when the
fix-quality field is one character with which no number starts. -/
theorem bad_quality_tail (buf rest : List Nat) (p x : Nat) (nsv hdop alt : Field)
    (hx : NotNumberStart x) (hx44 : x ≠ 44) (h7 : nsv.IsInt) (h8 : hdop.IsNum)
    (h : buf.drop p = joinFields [.char x, nsv, hdop, alt] ++ 44 :: rest) :
    fieldL buf p 0 = (0, p + 1) ∧ fieldL buf (p + 1) 0 = (0, p + 1 + 1)
    ∧ fieldD buf (p + 1 + 1) (999 / 10)
      = (nsv.valueOr (999 / 10), p + 1 + 1 + 1 + nsv.bytes.length)
    ∧ fieldD buf (p + 1 + 1 + 1 + nsv.bytes.length) 0
      = (hdop.value, p + 1 + 1 + 1 + nsv.bytes.length + 1 + hdop.bytes.length) := by
  have d6 : buf.drop (p + 1) = x :: (joinFields [nsv, hdop, alt] ++ 44 :: rest) :=
    drop_add_of buf [44] _ p h
  have d7 : buf.drop (p + 1 + 1) = joinFields [nsv, hdop, alt] ++ 44 :: rest :=
    drop_add_of buf [x] _ (p + 1) d6
  obtain ⟨e8, d8⟩ := fieldD_join_or buf rest _ nsv _ (999 / 10) (IsInt.isNum nsv h7) d7
  obtain ⟨e9, -⟩ := fieldD_join buf rest _ 44 hdop _ h8 (Or.inl rfl) d8
  exact ⟨fieldL_bad buf _ p x 0 hx hx44 d6,
    fieldL_skip buf _ (p + 1) 0 (d7.trans (join_cons nsv [hdop, alt] (44 :: rest))), e8, e9⟩

theorem InRange.mono (si : satellite_info_s) (j k : Nat) (hjk : j ≤ k) (h : si.InRange k) :
    si.InRange j := by
  unfold satellite_info_s.InRange at h ⊢
  omega

theorem gsvLoop_defined_iff (buf : List Nat) (b n p : Nat) (si : satellite_info_s) :
    (gsvLoop buf (b : Int) n 0 p si).isSome ↔ ∀ y, y < n → y < 4 ∧ si.InRange (y + b) := by
  rw [gsvLoop_defined]
  constructor
  · rintro (rfl | ⟨h1, h2⟩)
    · intro y hy
      omega
    · intro y hy
      exact ⟨by omega, InRange.mono si _ _ (by omega) h2⟩
  · intro h
    by_cases hn : n = 0
    · exact Or.inl hn
    · right
      obtain ⟨h1, h2⟩ := h (n - 1) (by omega)
      refine ⟨by omega, ?_⟩
      rw [show 0 + n - 1 + b = n - 1 + b by omega]
      exact h2

theorem HEXDIGIT_CHAR_ne_dollar (n : Nat) : HEXDIGIT_CHAR n ≠ 36 := by
  unfold HEXDIGIT_CHAR
  split <;> omega

theorem getD_set_self (l : List Nat) (i b : Nat) (h : i < l.length) :
    (l.set i b).getD i 0 = b := by
  rw [List.getD_eq_getElem?_getD, List.getElem?_set_self h]
  rfl

theorem getD_set_ne (l : List Nat) (i j b : Nat) (h : i ≠ j) :
    (l.set i b).getD j 0 = l.getD j 0 := by
  rw [List.getD_eq_getElem?_getD, List.getD_eq_getElem?_getD, List.getElem?_set_ne h]

/-- A `$` that arrives as the second checksum character: the checksum does
not match, since no hexadecimal digit is `$`; the call returns 0 and the
decoder is idle again. -/
theorem parseChar_cs_dollar (d : Decoder) (hs : d._decode_state = .GOT_FIRST_CS_BYTE)
    (hlt : d._rx_buffer_bytes < d._rx_buffer.length) :
    parseChar d 36 = some (⟨.UNINIT, d._rx_buffer.set d._rx_buffer_bytes 36, 0⟩, 0) := by
  have hg := getD_set_self d._rx_buffer d._rx_buffer_bytes 36 hlt
  simp only [parseChar, hs, Decoder.push, hlt, ↓reduceIte, Option.map_some', Nat.add_sub_cancel,
    hg, Option.some.injEq, Prod.mk.injEq, true_and]
  rw [if_neg]
  rintro ⟨-, h⟩
  exact HEXDIGIT_CHAR_ne_dollar _ h

/-- A `$` that arrives as the first checksum character, and the byte after
it: the checksum does not match, both calls return 0 and the decoder is idle
again. -/
theorem feed_cs_dollar (d : Decoder) (hs : d._decode_state = .GOT_NMEA) (b : Nat)
    (hlt : d._rx_buffer_bytes + 1 < d._rx_buffer.length) :
    feed d [36, b]
      = some (⟨.UNINIT, (d._rx_buffer.set d._rx_buffer_bytes 36).set (d._rx_buffer_bytes + 1) b,
          0⟩, [0, 0]) := by
  have h1 := parseChar_first_cs d hs 36 (by omega)
  have hg : (((d._rx_buffer.set d._rx_buffer_bytes 36).set (d._rx_buffer_bytes + 1) b).getD
      d._rx_buffer_bytes 0) = 36 := by
    rw [getD_set_ne _ _ _ _ (by omega), getD_set_self _ _ _ (by omega)]
  have h2 : parseChar ⟨.GOT_FIRST_CS_BYTE, d._rx_buffer.set d._rx_buffer_bytes 36,
        d._rx_buffer_bytes + 1⟩ b
      = some (⟨.UNINIT,
          (d._rx_buffer.set d._rx_buffer_bytes 36).set (d._rx_buffer_bytes + 1) b, 0⟩, 0) := by
    simp only [parseChar, Decoder.push, List.length_set, hlt, ↓reduceIte, Option.map_some',
      Nat.add_sub_cancel, Option.some.injEq, Prod.mk.injEq, true_and,
      show d._rx_buffer_bytes + 1 + 1 - 2 = d._rx_buffer_bytes by omega, hg]
    rw [if_neg]
    rintro ⟨h, -⟩
    exact HEXDIGIT_CHAR_ne_dollar _ h
  exact feed_cons_of _ _ _ _ _ _ _ h1 (feed_cons_of _ _ _ _ _ _ _ h2 rfl)

theorem sentence_tail_ne_dollar (p : List Nat) (hp : IsPayload p) :
    ∀ x ∈ p ++ 42 :: hexDigitsOf p, x ≠ 36 := by
  intro x hx
  rcases List.mem_append.1 hx with h | h
  · exact (hp x h).2.1
  · rcases List.mem_cons.1 h with h | h
    · rw [h]
      decide
    · exact hexDigitsOf_ne_dollar p x h

/-- A valid sentence fed to a decoder in any state: it is reported when the
decoder is in `UNINIT` or `GOT_SYNC1`, it is swallowed without a report in
the two checksum states, and the decoder is idle after it. -/
theorem feed_sentence_any (d : Decoder) (hb : d.Bounded) (p : List Nat) (hp : IsPayload p)
    (hlen : (sentence p).length ≤ d._rx_buffer.length - 3) :
    ∃ d1, feed d (sentence p)
        = some (d1,
            if d._decode_state = .UNINIT ∨ d._decode_state = .GOT_SYNC1
              then List.replicate ((sentence p).length - 1) 0 ++ [(sentence p).length]
              else List.replicate (sentence p).length 0)
      ∧ d1._decode_state = .UNINIT ∧ d1._rx_buffer.length = d._rx_buffer.length := by
  have hsl := sentence_length p
  unfold Decoder.Bounded at hb
  cases hs : d._decode_state with
  | UNINIT =>
    obtain ⟨d1, h, h1, -, h3, -⟩ := feed_sentence d (Or.inl hs) p hp hlen
    exact ⟨d1, by rw [h]; simp, h1, h3⟩
  | GOT_SYNC1 =>
    obtain ⟨d1, h, h1, -, h3, -⟩ := feed_sentence d (Or.inr hs) p hp hlen
    exact ⟨d1, by rw [h]; simp, h1, h3⟩
  | GOT_NMEA =>
    rw [hs] at hb
    simp only at hb
    have hne : p ++ 42 :: hexDigitsOf p ≠ [] := by simp
    obtain ⟨b, t, ht⟩ := List.exists_cons_of_ne_nil hne
    have hnd := sentence_tail_ne_dollar p hp
    rw [ht] at hnd
    have h1 := feed_cs_dollar d hs b (by omega)
    have h2 := feed_idle t (fun x hx => hnd x (List.mem_cons_of_mem _ hx))
      ⟨.UNINIT, (d._rx_buffer.set d._rx_buffer_bytes 36).set (d._rx_buffer_bytes + 1) b, 0⟩ rfl
    have h3 := feed_append_of [36, b] t _ _ _ _ _ h1 h2
    have e : sentence p = [36, b] ++ t := by
      unfold sentence
      rw [List.cons_append, ht]
      rfl
    have hl : (sentence p).length = t.length + 2 := by
      rw [e]
      simp
    refine ⟨⟨.UNINIT, (d._rx_buffer.set d._rx_buffer_bytes 36).set (d._rx_buffer_bytes + 1) b,
      0⟩, ?_, rfl, by simp⟩
    rw [hl, e, h3]
    simp [List.replicate_succ]
  | GOT_FIRST_CS_BYTE =>
    rw [hs] at hb
    simp only at hb
    have h1 := parseChar_cs_dollar d hs (by omega)
    have h2 := feed_idle _ (sentence_tail_ne_dollar p hp)
      ⟨.UNINIT, d._rx_buffer.set d._rx_buffer_bytes 36, 0⟩ rfl
    have h3 := feed_cons_of _ _ _ _ _ _ _ h1 h2
    have e : sentence p = 36 :: (p ++ 42 :: hexDigitsOf p) := rfl
    have hl : (sentence p).length = (p ++ 42 :: hexDigitsOf p).length + 1 := by
      rw [e]
      rfl
    refine ⟨⟨.UNINIT, d._rx_buffer.set d._rx_buffer_bytes 36, 0⟩, ?_, rfl, by simp⟩
    rw [hl, e, h3]
    simp [List.replicate_succ]

/-- Claim C30 (bounded loss after garbage). Feed any byte sequence to a
decoder in its initial state, then a valid sentence, then bytes other than
`$`, then a second valid sentence, both sentences with a payload of bytes
below 256 other than `$` and `*` and a length of at most capacity - 3. All
calls are defined. The second sentence is reported: `parseChar` returns 0
on all its bytes but the last and its length on the last. The first one is
reported in the same way when its `$` finds the decoder in `UNINIT` or
`GOT_SYNC1`; in the two checksum states every call on its bytes returns 0.
The bytes between the sentences return 0, and the decoder ends in
`UNINIT`. -/
theorem resync_after_garbage (d0 : Decoder) (h0 : d0._decode_state = .UNINIT)
    (hb0 : d0._rx_buffer_bytes = 0) (garbage p1 sep p2 : List Nat)
    (hp1 : IsPayload p1) (hp2 : IsPayload p2) (hsep : ∀ x ∈ sep, x ≠ 36)
    (hl1 : (sentence p1).length ≤ d0._rx_buffer.length - 3)
    (hl2 : (sentence p2).length ≤ d0._rx_buffer.length - 3) :
    ∃ d rs d2, feed d0 garbage = some (d, rs)
      ∧ feed d (sentence p1 ++ sep ++ sentence p2)
        = some (d2,
            (if d._decode_state = .UNINIT ∨ d._decode_state = .GOT_SYNC1
              then List.replicate ((sentence p1).length - 1) 0 ++ [(sentence p1).length]
              else List.replicate (sentence p1).length 0)
            ++ List.replicate sep.length 0
            ++ (List.replicate ((sentence p2).length - 1) 0 ++ [(sentence p2).length]))
      ∧ d2._decode_state = .UNINIT := by
  have hs1 := sentence_length p1
  have hB : d0.Bounded := by
    unfold Decoder.Bounded
    rw [h0]
    exact hb0
  obtain ⟨d, rs, hf, hb, hl⟩ := feed_bounded garbage d0 (by omega) hB
  obtain ⟨d1, f1, s1, l1⟩ := feed_sentence_any d hb p1 hp1 (by rw [hl]; exact hl1)
  have f2 := feed_idle sep hsep d1 s1
  obtain ⟨d2, f3, s3, -⟩ := feed_sentence d1 (Or.inl s1) p2 hp2 (by rw [l1, hl]; exact hl2)
  refine ⟨d, rs, d2, hf, ?_, s3⟩
  rw [feed_append_of _ _ _ _ _ _ _ (feed_append_of _ _ _ _ _ _ _ f1 f2) f3]

/-- Witness for `resync_after_garbage`: after the bytes `$GP*` the decoder
waits for a checksum; the sentence `$A*41` that follows is lost without a
report, and the sentence `$B*42` after a line end is reported with its
length 5. -/
theorem resync_after_garbage_witness :
    ((⟨.UNINIT, List.replicate 20 0, 0⟩ : Decoder)._decode_state = .UNINIT
      ∧ (⟨.UNINIT, List.replicate 20 0, 0⟩ : Decoder)._rx_buffer_bytes = 0
      ∧ IsPayload (bytes "A") ∧ IsPayload (bytes "B") ∧ (∀ x ∈ bytes "\r\n", x ≠ 36)
      ∧ (sentence (bytes "A")).length ≤ (List.replicate 20 0).length - 3
      ∧ (sentence (bytes "B")).length ≤ (List.replicate 20 0).length - 3)
    ∧ sentence (bytes "A") = bytes "$A*41" ∧ sentence (bytes "B") = bytes "$B*42"
    ∧ (feed ⟨.UNINIT, List.replicate 20 0, 0⟩
        (bytes "$GP*" ++ (bytes "$A*41" ++ bytes "\r\n" ++ bytes "$B*42"))).map Prod.snd
      = some [0, 0, 0, 0, 0, 0, 0, 0, 0, 0, 0, 0, 0, 0, 0, 5]
    ∧ ∃ d rs d2, feed ⟨.UNINIT, List.replicate 20 0, 0⟩ (bytes "$GP*") = some (d, rs)
      ∧ feed d (sentence (bytes "A") ++ bytes "\r\n" ++ sentence (bytes "B"))
        = some (d2,
            (if d._decode_state = .UNINIT ∨ d._decode_state = .GOT_SYNC1
              then List.replicate ((sentence (bytes "A")).length - 1) 0
                ++ [(sentence (bytes "A")).length]
              else List.replicate (sentence (bytes "A")).length 0)
            ++ List.replicate (bytes "\r\n").length 0
            ++ (List.replicate ((sentence (bytes "B")).length - 1) 0
              ++ [(sentence (bytes "B")).length]))
      ∧ d2._decode_state = .UNINIT :=
  ⟨⟨rfl, rfl, by decide, by decide, by decide, by decide, by decide⟩, by decide, by decide,
    by decide,
    resync_after_garbage ⟨.UNINIT, List.replicate 20 0, 0⟩ rfl rfl (bytes "$GP*") (bytes "A")
      (bytes "\r\n") (bytes "B") (by decide) (by decide) (by decide) (by decide) (by decide)⟩

/-! ### The field statements read no further than the `*` of the frame -/

theorem signOf_star (a t : List Nat) : signOf (a ++ 42 :: t) = signOf a := by
  cases a with
  | nil => simp [signOf]
  | cons x a =>
    simp only [List.cons_append]
    unfold signOf
    split <;> simp_all

theorem strtol_star (a t : List Nat) : strtol (a ++ 42 :: t) = strtol a := by
  unfold strtol
  have h1 : (a ++ 42 :: t).takeWhile isspace = a.takeWhile isspace :=
    takeWhile_append_stop _ _ _ _ (by decide)
  have hw := takeWhile_length_le isspace a
  have h2 : (a ++ 42 :: t).drop (a.takeWhile isspace).length
      = a.drop (a.takeWhile isspace).length ++ 42 :: t :=
    List.drop_append_of_le_length hw
  have hs := signOf_le (a.drop (a.takeWhile isspace).length)
  rw [List.length_drop] at hs
  have h3 : (a ++ 42 :: t).drop
        ((a.takeWhile isspace).length + (signOf (a.drop (a.takeWhile isspace).length)).2)
      = a.drop ((a.takeWhile isspace).length
          + (signOf (a.drop (a.takeWhile isspace).length)).2) ++ 42 :: t :=
    List.drop_append_of_le_length (by omega)
  simp only [h1, h2, signOf_star, h3, takeWhile_append_stop isdigit _ _ 42 (by decide)]

theorem expOf_star (a t : List Nat) : expOf (a ++ 42 :: t) = expOf a := by
  cases a with
  | nil => simp [expOf]
  | cons c r =>
    simp only [List.cons_append, expOf]
    have hs := signOf_le r
    have h1 : (r ++ 42 :: t).drop (signOf r).2 = r.drop (signOf r).2 ++ 42 :: t :=
      List.drop_append_of_le_length hs
    simp only [signOf_star, h1, takeWhile_append_stop isdigit _ _ 42 (by decide)]

theorem dot_star (a t : List Nat) :
    ((a ++ 42 :: t).head? == some 46) = (a.head? == some 46) := by
  cases a with
  | nil => rfl
  | cons x a => rfl

theorem frac_star (a t : List Nat) :
    (if (a.head? == some 46) = true then ((a ++ 42 :: t).drop 1).takeWhile isdigit else [])
      = (if (a.head? == some 46) = true then (a.drop 1).takeWhile isdigit else []) := by
  cases a with
  | nil => simp
  | cons x a =>
    simp only [List.cons_append, List.drop_succ_cons, List.drop_zero,
      takeWhile_append_stop isdigit _ _ 42 (by decide)]

theorem strtod_star (a t : List Nat) : strtod (a ++ 42 :: t) = strtod a := by
  unfold strtod
  have h1 : (a ++ 42 :: t).takeWhile isspace = a.takeWhile isspace :=
    takeWhile_append_stop _ _ _ _ (by decide)
  have hw := takeWhile_length_le isspace a
  have h2 : (a ++ 42 :: t).drop (a.takeWhile isspace).length
      = a.drop (a.takeWhile isspace).length ++ 42 :: t :=
    List.drop_append_of_le_length hw
  have hs := signOf_le (a.drop (a.takeWhile isspace).length)
  rw [List.length_drop] at hs
  have h3 : (a ++ 42 :: t).drop
        ((a.takeWhile isspace).length + (signOf (a.drop (a.takeWhile isspace).length)).2)
      = a.drop ((a.takeWhile isspace).length
          + (signOf (a.drop (a.takeWhile isspace).length)).2) ++ 42 :: t :=
    List.drop_append_of_le_length (by omega)
  simp only [h1, h2, signOf_star, h3, takeWhile_append_stop isdigit _ _ 42 (by decide)]
  generalize a.drop ((a.takeWhile isspace).length
    + (signOf (a.drop (a.takeWhile isspace).length)).2) = a1
  have hi := takeWhile_length_le isdigit a1
  have h4 : (a1 ++ 42 :: t).drop (a1.takeWhile isdigit).length
      = a1.drop (a1.takeWhile isdigit).length ++ 42 :: t :=
    List.drop_append_of_le_length hi
  simp only [h4, dot_star, frac_star]
  generalize a1.drop (a1.takeWhile isdigit).length = a2
  have hf := frac_le a2
  have h5 : (a2 ++ 42 :: t).drop
        (if (a2.head? == some 46) = true then
          1 + (if (a2.head? == some 46) = true then (a2.drop 1).takeWhile isdigit
            else []).length
        else 0)
      = a2.drop
        (if (a2.head? == some 46) = true then
          1 + (if (a2.head? == some 46) = true then (a2.drop 1).takeWhile isdigit
            else []).length
        else 0) ++ 42 :: t :=
    List.drop_append_of_le_length hf
  simp only [h5, expOf_star]

/-- The function `strtol` consumes no more than there is. -/
theorem strtol_le (a : List Nat) : (strtol a).2 ≤ a.length := by
  have hw := takeWhile_length_le isspace a
  have hs := signOf_le (a.drop (a.takeWhile isspace).length)
  have hd := takeWhile_length_le isdigit
    (a.drop ((a.takeWhile isspace).length + (signOf (a.drop (a.takeWhile isspace).length)).2))
  simp only [List.length_drop] at hs hd
  unfold strtol
  dsimp only
  split_ifs <;> dsimp only <;> omega

theorem expOf_le (a : List Nat) : (expOf a).2 ≤ a.length := by
  cases a with
  | nil => simp [expOf]
  | cons c r =>
    have hs := signOf_le r
    have hd := takeWhile_length_le isdigit (r.drop (signOf r).2)
    simp only [List.length_drop] at hd
    simp only [expOf]
    split_ifs <;> simp only [List.length_cons] <;> omega

/-- The function `strtod` consumes no more than there is. -/
theorem strtod_le (a : List Nat) : (strtod a).2 ≤ a.length := by
  unfold strtod
  dsimp only
  have hw := takeWhile_length_le isspace a
  have hs := signOf_le (a.drop (a.takeWhile isspace).length)
  simp only [List.length_drop] at hs
  generalize hs1 : a.drop ((a.takeWhile isspace).length
    + (signOf (a.drop (a.takeWhile isspace).length)).2) = a1
  have hl1 : a1.length = a.length - ((a.takeWhile isspace).length
      + (signOf (a.drop (a.takeWhile isspace).length)).2) := by
    rw [← hs1, List.length_drop]
  have hi := takeWhile_length_le isdigit a1
  generalize hs2 : a1.drop (a1.takeWhile isdigit).length = a2
  have hl2 : a2.length = a1.length - (a1.takeWhile isdigit).length := by
    rw [← hs2, List.length_drop]
  have hf := frac_le a2
  have he := expOf_le (a2.drop (if (a2.head? == some 46) = true then
          1 + (if (a2.head? == some 46) = true then (a2.drop 1).takeWhile isdigit
            else []).length
        else 0))
  simp only [List.length_drop] at he
  by_cases h0 : List.takeWhile isdigit a1 = []
      ∧ (if (a2.head? == some 46) = true then List.takeWhile isdigit (List.drop 1 a2) else [])
        = []
  · rw [if_pos h0]
    exact Nat.zero_le _
  · rw [if_neg h0]
    dsimp only
    omega


/-! ### One field statement inside a frame

The frame is `w ++ [42, c1, c2]`: `w` holds the bytes before the `*`. -/

theorem first_comma (l : List Nat) (h : 44 ∈ l) : ∃ u v, l = u ++ 44 :: v ∧ 44 ∉ u := by
  induction l with
  | nil => cases h
  | cons x l ih =>
    by_cases hx : x = 44
    · exact ⟨[], l, by simp [hx], by simp⟩
    · have hl : 44 ∈ l := by
        rcases List.mem_cons.1 h with h | h
        · exact absurd h.symm hx
        · exact h
      obtain ⟨u, v, e, hu⟩ := ih hl
      refine ⟨x :: u, v, by simp [e], ?_⟩
      simp only [List.mem_cons, not_or]
      exact ⟨fun h => hx h.symm, hu⟩

theorem getD_frame (w t t' : List Nat) (q : Nat) (hq : q ≤ w.length) :
    (w ++ 42 :: t).getD q 0 = (w ++ 42 :: t').getD q 0 := by
  rcases Nat.lt_or_ge q w.length with h | h
  · rw [getD_append_lt w _ q h, getD_append_lt w _ q h]
  · have e : q = w.length := by omega
    subst e
    rw [getD_of_drop (w ++ 42 :: t) t w.length 42 (by simp),
      getD_of_drop (w ++ 42 :: t') t' w.length 42 (by simp)]

theorem commasAfter_pos (w : List Nat) (p n : Nat) (hn : n + 1 ≤ commasAfter w p) :
    p + 1 < w.length ∧ ∃ u v, w.drop (p + 1) = u ++ 44 :: v ∧ 44 ∉ u ∧ n ≤ v.count 44 := by
  unfold commasAfter at hn
  have hm : 44 ∈ w.drop (p + 1) := List.count_pos_iff.1 (by omega)
  obtain ⟨u, v, e, hu⟩ := first_comma _ hm
  have hl : (w.drop (p + 1)).length = u.length + (v.length + 1) := by
    rw [e]
    simp
  rw [List.length_drop] at hl
  refine ⟨by omega, u, v, e, hu, ?_⟩
  rw [e, List.count_append, List.count_cons_self, List.count_eq_zero_of_not_mem hu] at hn
  omega

/-- The cursor after a statement that moves it forward and not beyond the
next separator: it is inside `w`, and one separator less is behind it. -/
theorem cursor_step (w : List Nat) (p q n : Nat) (hn : n + 1 ≤ commasAfter w p)
    (hlo : p + 1 ≤ q) (hhi : ∀ u v, w.drop (p + 1) = u ++ 44 :: v → q ≤ p + 1 + u.length) :
    q < w.length ∧ n ≤ commasAfter w q := by
  obtain ⟨hp, u, v, e, -, hv⟩ := commasAfter_pos w p n hn
  have hq := hhi u v e
  have hl : (w.drop (p + 1)).length = u.length + (v.length + 1) := by
    rw [e]
    simp
  rw [List.length_drop] at hl
  refine ⟨by omega, ?_⟩
  unfold commasAfter
  have e2 : w.drop (q + 1) = (u ++ [44]).drop (q - p) ++ v := by
    rw [show q + 1 = (p + 1) + (q - p) by omega, ← List.drop_drop, e,
      show u ++ 44 :: v = (u ++ [44]) ++ v by simp,
      List.drop_append_of_le_length (by simp; omega)]
  rw [e2, List.count_append]
  omega

theorem drop_frame (w t : List Nat) (q : Nat) (hq : q ≤ w.length) :
    (w ++ 42 :: t).drop q = w.drop q ++ 42 :: t :=
  List.drop_append_of_le_length hq

theorem drop_frame_comma (w t u v : List Nat) (q : Nat) (e : w.drop q = u ++ 44 :: v) :
    (w ++ 42 :: t).drop q = u ++ 44 :: (v ++ 42 :: t) := by
  have hq : q ≤ w.length := by
    by_contra h
    rw [List.drop_eq_nil_of_le (by omega)] at e
    simp at e
  rw [drop_frame w t q hq, e]
  simp

/-- A `strtod` field statement with the cursor before the `*` of the frame
reads nothing behind the `*`. -/
theorem fieldD_frame (w t t' : List Nat) (p : Nat) (d : ℚ) (hp : p < w.length) :
    fieldD (w ++ 42 :: t) p d = fieldD (w ++ 42 :: t') p d := by
  unfold fieldD
  rw [getD_frame w t t' (p + 1) hp, drop_frame w t _ hp, drop_frame w t' _ hp, strtod_star,
    strtod_star]

theorem fieldL_frame (w t t' : List Nat) (p : Nat) (d : Int) (hp : p < w.length) :
    fieldL (w ++ 42 :: t) p d = fieldL (w ++ 42 :: t') p d := by
  unfold fieldL
  rw [getD_frame w t t' (p + 1) hp, drop_frame w t _ hp, drop_frame w t' _ hp, strtol_star,
    strtol_star]

theorem fieldC_frame (w t t' : List Nat) (p : Nat) (d : Nat) (hp : p < w.length) :
    fieldC (w ++ 42 :: t) p d = fieldC (w ++ 42 :: t') p d := by
  unfold fieldC
  rw [getD_frame w t t' (p + 1) hp]

/-- A `strtod` field statement with a separator of the frame behind the
cursor: the cursor stays before the `*`, and one separator less is behind
it. -/
theorem fieldD_cursor (w t : List Nat) (p n : Nat) (d : ℚ) (hn : n + 1 ≤ commasAfter w p) :
    (fieldD (w ++ 42 :: t) p d).2 < w.length
    ∧ n ≤ commasAfter w (fieldD (w ++ 42 :: t) p d).2 := by
  apply cursor_step w p _ n hn
  · unfold fieldD
    split <;> simp
  · intro u v e
    have e2 := drop_frame_comma w t u v _ e
    unfold fieldD
    split
    · have := strtod_le u
      simp only [e2, strtod_comma]
      omega
    · simp

theorem fieldL_cursor (w t : List Nat) (p n : Nat) (d : Int) (hn : n + 1 ≤ commasAfter w p) :
    (fieldL (w ++ 42 :: t) p d).2 < w.length
    ∧ n ≤ commasAfter w (fieldL (w ++ 42 :: t) p d).2 := by
  apply cursor_step w p _ n hn
  · unfold fieldL
    split <;> simp
  · intro u v e
    have e2 := drop_frame_comma w t u v _ e
    unfold fieldL
    split
    · have := strtol_le u
      simp only [e2, strtol_comma]
      omega
    · simp

theorem fieldC_cursor (w t : List Nat) (p n : Nat) (d : Nat) (hn : n + 1 ≤ commasAfter w p) :
    (fieldC (w ++ 42 :: t) p d).2 < w.length
    ∧ n ≤ commasAfter w (fieldC (w ++ 42 :: t) p d).2 := by
  apply cursor_step w p _ n hn
  · unfold fieldC
    split <;> simp
  · intro u v e
    have e2 := drop_frame_comma w t u v _ e
    unfold fieldC
    split
    · rename_i h
      cases u with
      | nil =>
        rw [getD_of_drop _ _ _ _ e2] at h
        exact absurd rfl h
      | cons x u =>
        simp only [List.length_cons]
        omega
    · simp

/-- The three facts about a `strtod` field statement inside a frame. -/
theorem fieldD_step (w t t' : List Nat) (p n : Nat) (d : ℚ) (hn : n + 1 ≤ commasAfter w p) :
    fieldD (w ++ 42 :: t) p d = fieldD (w ++ 42 :: t') p d
    ∧ (fieldD (w ++ 42 :: t') p d).2 < w.length
    ∧ n ≤ commasAfter w (fieldD (w ++ 42 :: t') p d).2 :=
  ⟨fieldD_frame w t t' p d (by have := (commasAfter_pos w p n hn).1; omega),
    fieldD_cursor w t' p n d hn⟩

theorem fieldL_step (w t t' : List Nat) (p n : Nat) (d : Int) (hn : n + 1 ≤ commasAfter w p) :
    fieldL (w ++ 42 :: t) p d = fieldL (w ++ 42 :: t') p d
    ∧ (fieldL (w ++ 42 :: t') p d).2 < w.length
    ∧ n ≤ commasAfter w (fieldL (w ++ 42 :: t') p d).2 :=
  ⟨fieldL_frame w t t' p d (by have := (commasAfter_pos w p n hn).1; omega),
    fieldL_cursor w t' p n d hn⟩

theorem fieldC_step (w t t' : List Nat) (p n : Nat) (d : Nat) (hn : n + 1 ≤ commasAfter w p) :
    fieldC (w ++ 42 :: t) p d = fieldC (w ++ 42 :: t') p d
    ∧ (fieldC (w ++ 42 :: t') p d).2 < w.length
    ∧ n ≤ commasAfter w (fieldC (w ++ 42 :: t') p d).2 :=
  ⟨fieldC_frame w t t' p d (by have := (commasAfter_pos w p n hn).1; omega),
    fieldC_cursor w t' p n d hn⟩

/-- The scan of the GNS branch with a separator of the frame behind the
cursor: it ends on that separator, before the `*`, whatever follows the
frame. -/
theorem scanComma_step (w t : List Nat) (p n : Nat) (hn : n + 1 ≤ commasAfter w p) :
    scanComma (w ++ 42 :: t) p = some (p + 1 + (w.drop (p + 1)).indexOf 44)
    ∧ p + 1 + (w.drop (p + 1)).indexOf 44 < w.length
    ∧ n ≤ commasAfter w (p + 1 + (w.drop (p + 1)).indexOf 44) := by
  obtain ⟨hp, u, v, e, hu, -⟩ := commasAfter_pos w p n hn
  have e2 := drop_frame_comma w t u v _ e
  have hi : (w.drop (p + 1)).indexOf 44 = u.length := by
    rw [e, List.indexOf_append_of_not_mem hu]
    simp
  refine ⟨?_, ?_⟩
  · unfold scanComma
    rw [e2, if_pos (by simp), List.indexOf_append_of_not_mem hu, hi]
    simp
  · apply cursor_step w p _ n hn (by omega)
    intro u1 v1 e1
    rw [e1]
    have := List.indexOf_le_length (a := 44) (l := u1 ++ 44 :: v1)
    by_cases hm : 44 ∈ u1
    · rw [List.indexOf_append_of_mem hm]
      have := List.indexOf_le_length (a := 44) (l := u1)
      omega
    · rw [List.indexOf_append_of_not_mem hm]
      simp


/-! ### The branches of `handleMessage` inside a frame -/

theorem stampTime_decoder (E : Env) (s : GPSDriverNMEA) (d : Decoder) (t : tm) (x : ℚ) :
    stampTime E { s with decoder := d } t x = { stampTime E s t x with decoder := d } := by
  by_cases h : E.mktime t > E.GPS_EPOCH_SECS
  · rw [stampTime_above _ _ _ _ h, stampTime_above _ _ _ _ h]
  · rw [stampTime_below _ _ _ _ h, stampTime_below _ _ _ _ h]

theorem finish_decoder (s : GPSDriverNMEA) (d : Decoder) (ret : Int) :
    finish { s with decoder := d } ret
      = ({ (finish s ret).1 with decoder := d }, (finish s ret).2) := by
  by_cases h : ret > 0
  · simp only [finish, h, ↓reduceIte]
  · simp only [finish, h, ↓reduceIte]

theorem handleGST_frame (E : Env) (s : GPSDriverNMEA) (d : Decoder) (w t t' : List Nat)
    (hb : s.decoder._rx_buffer = w ++ 42 :: t) (hd : d._rx_buffer = w ++ 42 :: t')
    (hc : 7 ≤ commasAfter w 6) :
    handleGST E { s with decoder := d } = { handleGST E s with decoder := d } := by
  obtain ⟨e1, b1, c1⟩ := fieldD_step w t t' 6 6 0 hc
  obtain ⟨e2, b2, c2⟩ := fieldD_step w t t' _ 5 0 c1
  obtain ⟨e3, b3, c3⟩ := fieldD_step w t t' _ 4 0 c2
  obtain ⟨e4, b4, c4⟩ := fieldD_step w t t' _ 3 0 c3
  obtain ⟨e5, b5, c5⟩ := fieldD_step w t t' _ 2 0 c4
  obtain ⟨e6, b6, c6⟩ := fieldD_step w t t' _ 1 0 c5
  obtain ⟨e7, b7, c7⟩ := fieldD_step w t t' _ 0 0 c6
  have e8 := fieldD_frame w t t' _ 0 b7
  unfold handleGST
  simp only [hb, hd, e1, e2, e3, e4, e5, e6, e7, e8]


theorem handleZDA_frame (E : Env) (s : GPSDriverNMEA) (d : Decoder) (w t t' : List Nat)
    (hb : s.decoder._rx_buffer = w ++ 42 :: t) (hd : d._rx_buffer = w ++ 42 :: t')
    (hc : 5 ≤ commasAfter w 6) :
    handleZDA E { s with decoder := d } = { handleZDA E s with decoder := d } := by
  obtain ⟨e1, b1, c1⟩ := fieldD_step w t t' 6 4 0 hc
  obtain ⟨e2, b2, c2⟩ := fieldL_step w t t' _ 3 0 c1
  obtain ⟨e3, b3, c3⟩ := fieldL_step w t t' _ 2 0 c2
  obtain ⟨e4, b4, c4⟩ := fieldL_step w t t' _ 1 0 c3
  obtain ⟨e5, b5, c5⟩ := fieldL_step w t t' _ 0 0 c4
  have e6 := fieldL_frame w t t' _ 0 b5
  unfold handleZDA
  simp only [hb, hd, e1, e2, e3, e4, e5, e6, stampTime_decoder]

theorem ggaFields_frame (w t t' : List Nat) (hc : 8 ≤ commasAfter w 6) :
    ggaFields (w ++ 42 :: t) = ggaFields (w ++ 42 :: t') := by
  obtain ⟨e1, b1, c1⟩ := fieldD_step w t t' 6 7 0 hc
  obtain ⟨e2, b2, c2⟩ := fieldD_step w t t' _ 6 0 c1
  obtain ⟨e3, b3, c3⟩ := fieldC_step w t t' _ 5 63 c2
  obtain ⟨e4, b4, c4⟩ := fieldD_step w t t' _ 4 0 c3
  obtain ⟨e5, b5, c5⟩ := fieldC_step w t t' _ 3 63 c4
  obtain ⟨e6, b6, c6⟩ := fieldL_step w t t' _ 2 0 c5
  obtain ⟨e7, b7, c7⟩ := fieldL_step w t t' _ 1 0 c6
  obtain ⟨e8, b8, c8⟩ := fieldD_step w t t' _ 0 (999 / 10) c7
  have e9 := fieldD_frame w t t' _ 0 b8
  unfold ggaFields
  simp only [e1, e2, e3, e4, e5, e6, e7, e8, e9]

theorem handleGGA_frame (E : Env) (s : GPSDriverNMEA) (d : Decoder) (w t t' : List Nat)
    (hb : s.decoder._rx_buffer = w ++ 42 :: t) (hd : d._rx_buffer = w ++ 42 :: t')
    (hc : 8 ≤ commasAfter w 6) :
    handleGGA E { s with decoder := d } = { handleGGA E s with decoder := d } := by
  unfold handleGGA
  simp only [hb, hd, ggaFields_frame w t t' hc]

/-- The cursor of the GNS branch when the scan of the positioning mode
starts, after five field statements. -/
theorem gnsCursor_frame (w t t' : List Nat) (hc : 8 ≤ commasAfter w 6) :
    gnsCursor (w ++ 42 :: t) = gnsCursor (w ++ 42 :: t')
    ∧ gnsCursor (w ++ 42 :: t') < w.length ∧ 3 ≤ commasAfter w (gnsCursor (w ++ 42 :: t')) := by
  obtain ⟨e1, b1, c1⟩ := fieldD_step w t t' 6 7 0 hc
  obtain ⟨e2, b2, c2⟩ := fieldD_step w t t' _ 6 0 c1
  obtain ⟨e3, b3, c3⟩ := fieldC_step w t t' _ 5 63 c2
  obtain ⟨e4, b4, c4⟩ := fieldD_step w t t' _ 4 0 c3
  obtain ⟨e5, b5, c5⟩ := fieldC_step w t t' _ 3 63 c4
  unfold gnsCursor
  simp only [e1, e2, e3, e4, e5]
  exact ⟨trivial, b5, c5⟩

theorem handleGNS_frame (E : Env) (s : GPSDriverNMEA) (d : Decoder) (w t t' : List Nat)
    (hb : s.decoder._rx_buffer = w ++ 42 :: t) (hd : d._rx_buffer = w ++ 42 :: t')
    (hc : 8 ≤ commasAfter w 6) :
    handleGNS E { s with decoder := d }
      = (handleGNS E s).map fun r => { r with decoder := d } := by
  obtain ⟨e1, b1, c1⟩ := fieldD_step w t t' 6 7 0 hc
  obtain ⟨e2, b2, c2⟩ := fieldD_step w t t' _ 6 0 c1
  obtain ⟨e3, b3, c3⟩ := fieldC_step w t t' _ 5 63 c2
  obtain ⟨e4, b4, c4⟩ := fieldD_step w t t' _ 4 0 c3
  obtain ⟨e5, b5, c5⟩ := fieldC_step w t t' _ 3 63 c4
  obtain ⟨e6, -, -⟩ := scanComma_step w t _ 2 c5
  obtain ⟨e6', b6, c6⟩ := scanComma_step w t' _ 2 c5
  obtain ⟨e7, b7, c7⟩ := fieldL_step w t t' _ 1 0 c6
  obtain ⟨e8, b8, c8⟩ := fieldD_step w t t' _ 0 0 c7
  have e9 := fieldD_frame w t t' _ 0 b8
  unfold handleGNS
  simp only [hb, hd, e1, e2, e3, e4, e5, e6, e6', Option.map_some', e7, e8, e9]

theorem rmcFields_frame (w t t' : List Nat) (hc : 8 ≤ commasAfter w 6) :
    rmcFields (w ++ 42 :: t) = rmcFields (w ++ 42 :: t') := by
  obtain ⟨e1, b1, c1⟩ := fieldD_step w t t' 6 7 0 hc
  obtain ⟨e2, b2, c2⟩ := fieldC_step w t t' _ 6 0 c1
  obtain ⟨e3, b3, c3⟩ := fieldD_step w t t' _ 5 0 c2
  obtain ⟨e4, b4, c4⟩ := fieldC_step w t t' _ 4 63 c3
  obtain ⟨e5, b5, c5⟩ := fieldD_step w t t' _ 3 0 c4
  obtain ⟨e6, b6, c6⟩ := fieldC_step w t t' _ 2 63 c5
  obtain ⟨e7, b7, c7⟩ := fieldD_step w t t' _ 1 0 c6
  obtain ⟨e8, b8, c8⟩ := fieldD_step w t t' _ 0 0 c7
  have e9 := fieldD_frame w t t' _ 0 b8
  unfold rmcFields
  simp only [e1, e2, e3, e4, e5, e6, e7, e8, e9]

theorem handleRMC_frame (E : Env) (s : GPSDriverNMEA) (d : Decoder) (w t t' : List Nat)
    (hb : s.decoder._rx_buffer = w ++ 42 :: t) (hd : d._rx_buffer = w ++ 42 :: t')
    (hc : 9 ≤ commasAfter w 6) :
    handleRMC E { s with decoder := d } = { handleRMC E s with decoder := d } := by
  have hf := rmcFields_frame w t t' (by omega)
  have hs : rmcStore E { s with decoder := d } = { rmcStore E s with decoder := d } := by
    unfold rmcStore
    simp only [hb, hd, hf]
  have ht : rmcTimeinfo (w ++ 42 :: t) = rmcTimeinfo (w ++ 42 :: t') := by
    unfold rmcTimeinfo
    rw [hf]
  rw [handleRMC_eq, handleRMC_eq, hs, stampTime_decoder]
  simp only [hb, hd, hf, ht]

theorem handleVTG_frame (E : Env) (s : GPSDriverNMEA) (d : Decoder) (w t t' : List Nat)
    (hb : s.decoder._rx_buffer = w ++ 42 :: t) (hd : d._rx_buffer = w ++ 42 :: t')
    (hc : 7 ≤ commasAfter w 6) :
    handleVTG E { s with decoder := d } = { handleVTG E s with decoder := d } := by
  obtain ⟨e1, b1, c1⟩ := fieldD_step w t t' 6 6 0 hc
  obtain ⟨e2, b2, c2⟩ := fieldC_step w t t' _ 5 0 c1
  obtain ⟨e3, b3, c3⟩ := fieldD_step w t t' _ 4 0 c2
  obtain ⟨e4, b4, c4⟩ := fieldC_step w t t' _ 3 0 c3
  obtain ⟨e5, b5, c5⟩ := fieldD_step w t t' _ 2 0 c4
  unfold handleVTG
  simp only [hb, hd, e1, e2, e3, e4, e5]

/-- The twelve satellite fields of the GSA branch inside a frame. -/
theorem skip_step (w t t' : List Nat) :
    ∀ (k p n : Nat), n + k ≤ commasAfter w p → p < w.length →
      (fun q => (fieldD (w ++ 42 :: t) q 0).2)^[k] p
        = (fun q => (fieldD (w ++ 42 :: t') q 0).2)^[k] p
      ∧ (fun q => (fieldD (w ++ 42 :: t') q 0).2)^[k] p < w.length
      ∧ n ≤ commasAfter w ((fun q => (fieldD (w ++ 42 :: t') q 0).2)^[k] p) := by
  intro k
  induction k with
  | zero =>
    intro p n hn hp
    exact ⟨rfl, hp, hn⟩
  | succ k ih =>
    intro p n hn hp
    obtain ⟨e, b, c⟩ := fieldD_step w t t' p (n + k) 0 (by omega)
    rw [Function.iterate_succ_apply, Function.iterate_succ_apply, e]
    exact ih _ n c b

theorem handleGSA_frame (E : Env) (s : GPSDriverNMEA) (d : Decoder) (w t t' : List Nat)
    (hb : s.decoder._rx_buffer = w ++ 42 :: t) (hd : d._rx_buffer = w ++ 42 :: t')
    (hc : 16 ≤ commasAfter w 6) :
    handleGSA E { s with decoder := d } = { handleGSA E s with decoder := d } := by
  obtain ⟨e1, b1, c1⟩ := fieldC_step w t t' 6 15 32 hc
  obtain ⟨e2, b2, c2⟩ := fieldD_step w t t' _ 14 0 c1
  obtain ⟨e3, b3, c3⟩ := skip_step w t t' 12 _ 2 c2 b2
  obtain ⟨e4, b4, c4⟩ := fieldD_step w t t' _ 1 (999 / 10) c3
  obtain ⟨e5, b5, c5⟩ := fieldD_step w t t' _ 0 (999 / 10) c4
  have e6 := fieldD_frame w t t' _ (999 / 10) b5
  unfold handleGSA
  simp only [hb, hd, e1, e2, e3, e4, e5, e6]


theorem gsvHeader_frame (w t t' : List Nat) (hc : 2 ≤ commasAfter w 6) :
    gsvHeader (w ++ 42 :: t) = gsvHeader (w ++ 42 :: t')
    ∧ ∀ n, n + 3 ≤ commasAfter w 6 →
        (gsvHeader (w ++ 42 :: t')).2.2.2 < w.length
        ∧ n ≤ commasAfter w (gsvHeader (w ++ 42 :: t')).2.2.2 := by
  obtain ⟨e1, b1, c1⟩ := fieldL_step w t t' 6 1 0 hc
  obtain ⟨e2, b2, c2⟩ := fieldL_step w t t' _ 0 0 c1
  have e3 := fieldL_frame w t t' _ 0 b2
  refine ⟨?_, ?_⟩
  · unfold gsvHeader
    simp only [e1, e2, e3]
  · intro n hn
    obtain ⟨-, -, d1⟩ := fieldL_step w t t' 6 (n + 2) 0 (by omega)
    obtain ⟨-, -, d2⟩ := fieldL_step w t t' _ (n + 1) 0 d1
    obtain ⟨-, b3, d3⟩ := fieldL_step w t t' _ n 0 d2
    unfold gsvHeader
    exact ⟨b3, d3⟩

theorem gsvBlock_frame (w t t' : List Nat) (base : Int) (y p : Nat) (si : satellite_info_s)
    (hc : 3 ≤ commasAfter w p) :
    gsvBlock (w ++ 42 :: t) base y p si = gsvBlock (w ++ 42 :: t') base y p si := by
  obtain ⟨e1, b1, c1⟩ := fieldL_step w t t' p 2 0 hc
  obtain ⟨e2, b2, c2⟩ := fieldL_step w t t' _ 1 0 c1
  obtain ⟨e3, b3, c3⟩ := fieldL_step w t t' _ 0 0 c2
  have e4 := fieldL_frame w t t' _ 0 b3
  unfold gsvBlock
  simp only [e1, e2, e3, e4]

theorem gsvBlock_cursor (w t : List Nat) (base : Int) (y p n : Nat)
    (si si1 : satellite_info_s) (p1 : Nat) (hc : n + 4 ≤ commasAfter w p)
    (h : gsvBlock (w ++ 42 :: t) base y p si = some (si1, p1)) :
    p1 < w.length ∧ n ≤ commasAfter w p1 := by
  obtain ⟨-, -, c1⟩ := fieldL_step w t t p (n + 3) 0 (by omega)
  obtain ⟨-, -, c2⟩ := fieldL_step w t t _ (n + 2) 0 c1
  obtain ⟨-, -, c3⟩ := fieldL_step w t t _ (n + 1) 0 c2
  obtain ⟨-, b4, c4⟩ := fieldL_step w t t _ n 0 c3
  unfold gsvBlock at h
  simp only at h
  split_ifs at h
  simp only [Option.some.injEq, Prod.mk.injEq] at h
  rw [← h.2]
  exact ⟨b4, c4⟩

/-- The loop of the GSV branch inside a frame: `k` passes read `4 * k`
fields, the last of which may end at the `*`. -/
theorem gsvLoop_frame (w t t' : List Nat) (base : Int) :
    ∀ (k y p : Nat) (si : satellite_info_s), (k = 0 ∨ 4 * k ≤ commasAfter w p + 1) →
      gsvLoop (w ++ 42 :: t) base k y p si = gsvLoop (w ++ 42 :: t') base k y p si := by
  intro k
  induction k with
  | zero =>
    intro y p si _
    rfl
  | succ k ih =>
    intro y p si h
    have hk : 4 * (k + 1) ≤ commasAfter w p + 1 := by
      rcases h with h | h
      · omega
      · exact h
    rw [gsvLoop, gsvLoop, gsvBlock_frame w t t' base y p si (by omega)]
    cases hblock : gsvBlock (w ++ 42 :: t') base y p si with
    | none => rfl
    | some r =>
      obtain ⟨si1, p1⟩ := r
      simp only
      apply ih
      by_cases h0 : k = 0
      · exact Or.inl h0
      · right
        obtain ⟨-, c⟩ := gsvBlock_cursor w t' base y p (4 * k - 1) si si1 p1 (by omega) hblock
        omega

theorem handleGSV_frame (E : Env) (s : GPSDriverNMEA) (d : Decoder) (w t t' : List Nat)
    (hb : s.decoder._rx_buffer = w ++ 42 :: t) (hd : d._rx_buffer = w ++ 42 :: t')
    (htk : frameTalker (w ++ 42 :: t) = frameTalker (w ++ 42 :: t'))
    (hc : frameTalker (w ++ 42 :: t) = bytes "$GP" → 2 ≤ commasAfter w 6
      ∧ (¬ ((gsvHeader (w ++ 42 :: t)).2.1.1 < 1
          ∨ (gsvHeader (w ++ 42 :: t)).2.1.1 > (gsvHeader (w ++ 42 :: t)).1.1) →
        4 * gsvPasses (w ++ 42 :: t) + 2 ≤ commasAfter w 6)) :
    handleGSV E { s with decoder := d }
      = (handleGSV E s).map fun r => { r with decoder := d } := by
  unfold handleGSV
  simp only [hb, hd, ← htk]
  by_cases hp : frameTalker (w ++ 42 :: t) = bytes "$GP"
  · obtain ⟨h2, hloop⟩ := hc hp
    obtain ⟨eh, hcur⟩ := gsvHeader_frame w t t' h2
    simp only [hp, ne_eq, not_true_eq_false, ↓reduceIte, ← eh]
    by_cases hi : (gsvHeader (w ++ 42 :: t)).2.1.1 < 1
        ∨ (gsvHeader (w ++ 42 :: t)).2.1.1 > (gsvHeader (w ++ 42 :: t)).1.1
    · simp only [hi, ↓reduceIte, Option.map_some']
    · simp only [hi, ↓reduceIte]
      have hl := hloop hi
      cases hsi : s._satellite_info with
      | none => simp only [Option.map_some', hsi]
      | some si =>
        simp only
        have hk : gsvPasses (w ++ 42 :: t) = 0
            ∨ 4 * gsvPasses (w ++ 42 :: t)
              ≤ commasAfter w (gsvHeader (w ++ 42 :: t)).2.2.2 + 1 := by
          by_cases h0 : gsvPasses (w ++ 42 :: t) = 0
          · exact Or.inl h0
          · right
            obtain ⟨-, c⟩ := hcur (4 * gsvPasses (w ++ 42 :: t) - 1) (by omega)
            rw [← eh] at c
            omega
        unfold gsvPasses at hk
        simp only [decide_eq_true_eq]
        rw [gsvLoop_frame w t t' _ _ 0 _ _ hk, Option.map_map]
        rfl
  · simp only [hp, ne_eq, not_false_eq_true, ↓reduceIte, Option.map_some']


theorem frame_head (x t : List Nat) (h : 6 ≤ x.length) :
    frameTag (x ++ t) = frameTag x ∧ frameTalker (x ++ t) = frameTalker x
    ∧ countCommas (x ++ t) x.length = countCommas x x.length := by
  refine ⟨?_, ?_, ?_⟩
  · unfold frameTag
    rw [getD_append_lt x t 3 (by omega), getD_append_lt x t 4 (by omega),
      getD_append_lt x t 5 (by omega)]
  · unfold frameTalker
    rw [getD_append_lt x t 0 (by omega), getD_append_lt x t 1 (by omega),
      getD_append_lt x t 2 (by omega)]
  · unfold countCommas
    simp

end NMEA
